import Mathlib

/-!
PeriodicEwald k-space kernels (FastTools2D)

A shallow embedding of the two MEX kernels

* `PeriodicEwald/src/mex/StokesSLP/mex_stokes_slp_kspace.cpp` (Stokeslet velocity),
* `PeriodicEwald/src/mex/StokesDLP/mex_stokes_dlp_stress_kspace.cpp` (stresslet stress),

in exact arithmetic.  C `double` values are elements of an arbitrary linearly ordered field
`K` with a floor function (`ℚ` and `ℝ` are instances); `exp` is a parameter of the
definitions and is instantiated with `Real.exp` where its functional equation matters.
C arrays are total maps from the C index to the stored value, `int` values are integers,
and the sizes `M_x`, `M_y`, `P`, `Nsrc`, `Ntar` are natural numbers (their integer
divisions by two agree with the C ones).  The OpenMP loops are run sequentially.
-/

namespace PeriodicEwald

/-! ## Definitions -/

/-- A C `for (int i = 0; i < n; i++)` loop over a state: iteration `i` applies `body i`. -/
def forLoop {σ : Type} : ℕ → (ℕ → σ → σ) → σ → σ
  | 0, _, s => s
  | n + 1, body, s => body n (forLoop n body s)

/-- A C array of doubles, as a map from the index to the stored value. -/
abbrev Grid (K : Type) := ℤ → K

/-- The store `a[i] = v`. -/
def Grid.set {K : Type} (a : Grid K) (i : ℤ) (v : K) : Grid K :=
  fun j => if j = i then v else a j

/-- The all-zero array (what `mxCreateDoubleMatrix` and `mxCalloc` return). -/
def Grid.zero {K : Type} [Zero K] : Grid K := fun _ => 0

section Filter

variable {K : Type} [Field K]

/-- The macro `pi` of `mex_stokes_slp_kspace.cpp`, line 5. -/
def pi : K := 3.1415926535897932385

/-- The loop nest shared by the two filters (SLP lines 229-262, DLP lines 149-261):
for every column `j` the pointer starts at `j*M_y`, the first inner loop runs over
`k = 0..M_y/2` with `k2 = 2π/L_y·k`, the second over `k = 0..M_y/2-2` with
`k2 = 2π/L_y·(k - M_y/2 + 1)`; `mode k1 k2 ptr` is the body applied at index `ptr`. -/
def filterLoops {σ : Type} (pi Lx Ly : K) (Mx My : ℕ) (mode : K → K → ℤ → σ → σ) (s : σ) : σ :=
  forLoop Mx (fun j s =>
    let ptr : ℤ := (j : ℤ) * (My : ℤ)
    let k1 : K := if j ≤ Mx / 2 then 2 * pi / Lx * ((j : ℤ) : K)
      else 2 * pi / Lx * (((j : ℤ) - (Mx : ℤ) : ℤ) : K)
    let a := forLoop (My / 2 + 1) (fun k (a : ℤ × σ) =>
      (a.1 + 1, mode k1 (2 * pi / Ly * ((k : ℤ) : K)) a.1 a.2)) (ptr, s)
    let b := forLoop (My / 2 - 1) (fun k (a : ℤ × σ) =>
      (a.1 + 1, mode k1 (2 * pi / Ly * (((k : ℤ) - ((My / 2 : ℕ) : ℤ) + 1 : ℤ) : K)) a.1 a.2)) a
    b.2) s

/-- Real and imaginary parts of the two transformed SLP channels
(`Hhat1_re`, `Hhat1_im`, `Hhat2_re`, `Hhat2_im`). -/
structure SlpHat (K : Type) where
  re1 : Grid K
  im1 : Grid K
  re2 : Grid K
  im2 : Grid K

/-- The body of the SLP filter loops at index `ptr` (lines 238-247 and 251-260). -/
def slpFilterMode (exp : K → K) (xi eta k1 k2 : K) (ptr : ℤ) (s : SlpHat K) : SlpHat K :=
  let Ksq := k1 * k1 + k2 * k2
  let e := (1.0 / (Ksq * Ksq) + 0.25 / (Ksq * xi * xi)) * exp (-0.25 * (1 - eta) / (xi * xi) * Ksq)
  let tmp := k2 * (k2 * s.re1 ptr - k1 * s.re2 ptr)
  let re2 := s.re2.set ptr (k1 * (k1 * s.re2 ptr - k2 * s.re1 ptr) * e)
  let re1 := s.re1.set ptr (tmp * e)
  let tmp := k2 * (k2 * s.im1 ptr - k1 * s.im2 ptr)
  let im2 := s.im2.set ptr (k1 * (k1 * s.im2 ptr - k2 * s.im1 ptr) * e)
  let im1 := s.im1.set ptr (tmp * e)
  { re1 := re1, im1 := im1, re2 := re2, im2 := im2 }

/-- The SLP filter stage, lines 229-268: the loops, then the zero-frequency reset. -/
def slpFilter (exp : K → K) (xi eta Lx Ly : K) (Mx My : ℕ) (s : SlpHat K) : SlpHat K :=
  let t := filterLoops pi Lx Ly Mx My (slpFilterMode exp xi eta) s
  { re1 := t.re1.set 0 0, re2 := t.re2.set 0 0, im1 := t.im1.set 0 0, im2 := t.im2.set 0 0 }

/-- Real and imaginary parts of the four transformed DLP channels. -/
structure DlpHat (K : Type) where
  re1 : Grid K
  im1 : Grid K
  re2 : Grid K
  im2 : Grid K
  re3 : Grid K
  im3 : Grid K
  re4 : Grid K
  im4 : Grid K

/-- The body of the DLP filter loops at index `ptr` (lines 159-206 and 211-258), with
`mu = 1.0` (line 51). -/
def dlpFilterMode (exp : K → K) (xi eta k1 k2 : K) (ptr : ℤ) (s : DlpHat K) : DlpHat K :=
  let mu : K := 1.0
  let Ksq := k1 * k1 + k2 * k2
  let e := exp (-Ksq * (1 - eta) / (4 * xi * xi))
  let f1n1_re := s.re1 ptr
  let f1n1_im := s.im1 ptr
  let f1n2_re := s.re2 ptr
  let f1n2_im := s.im2 ptr
  let f2n1_re := s.re3 ptr
  let f2n1_im := s.im3 ptr
  let f2n2_re := s.re4 ptr
  let f2n2_im := s.im4 ptr
  { re1 := s.re1.set ptr
      (e*((k1*k1*f1n1_re+k1*k2*f1n2_re+k2*k1*f2n1_re+k2*k2*f2n2_re)/Ksq
        -mu*(1/Ksq+0.25/(xi*xi))*(2*k1*k1*(f1n1_re+f2n2_re)+k1*(k1*f1n1_re+k2*f1n2_re)
        +k1*(k1*f1n1_re+k2*f2n1_re)+k1*(k1*f1n1_re+k2*f1n2_re)+k1*(k1*f1n1_re+k2*f2n1_re)
        -4*k1*k1*(k1*k1*f1n1_re+k1*k2*f1n2_re+k2*k1*f2n1_re+k2*k2*f2n2_re)/Ksq))),
    im1 := s.im1.set ptr
      (e*((k1*k1*f1n1_im+k1*k2*f1n2_im+k2*k1*f2n1_im+k2*k2*f2n2_im)/Ksq
        -mu*(1/Ksq+0.25/(xi*xi))*(2*k1*k2*(f1n1_im+f2n2_im)+k1*(k1*f1n1_im+k2*f1n2_im)
        +k1*(k1*f1n1_im+k2*f2n1_im)+k1*(k1*f1n1_im+k2*f1n2_im)+k1*(k1*f1n1_im+k2*f2n1_im)
        -4*k1*k1*(k1*k1*f1n1_im+k1*k2*f1n2_im+k2*k1*f2n1_im+k2*k2*f2n2_im)/Ksq))),
    re2 := s.re2.set ptr
      (-e*mu*(1/Ksq+0.25/(xi*xi))*(2*k2*k1*(f1n1_re+f2n2_re)+k2*(k1*f1n1_re+k2*f1n2_re)
        +k2*(k1*f1n1_re+k2*f2n1_re)+k1*(k1*f2n1_re+k2*f2n2_re)+k1*(k1*f1n2_re+k2*f2n2_re)
        -4*k2*k1*(k1*k1*f1n1_re+k1*k2*f1n2_re+k2*k1*f2n1_re+k2*k2*f2n2_re)/Ksq)),
    im2 := s.im2.set ptr
      (-e*mu*(1/Ksq+0.25/(xi*xi))*(2*k2*k1*(f1n1_im+f2n2_im)+k2*(k1*f1n1_im+k2*f1n2_im)
        +k2*(k1*f1n1_im+k2*f2n1_im)+k1*(k1*f2n1_im+k2*f2n2_im)+k1*(k1*f1n2_im+k2*f2n2_im)
        -4*k2*k1*(k1*k1*f1n1_im+k1*k2*f1n2_im+k2*k1*f2n1_im+k2*k2*f2n2_im)/Ksq)),
    re3 := s.re3.set ptr
      (-e*mu*(1/Ksq+0.25/(xi*xi))*(2*k1*k2*(f1n1_re+f2n2_re)+k1*(k1*f2n1_re+k2*f2n2_re)
        +k1*(k1*f1n2_re+k2*f2n2_re)+k2*(k1*f1n1_re+k2*f1n2_re)+k2*(k1*f1n1_re+k2*f2n1_re)
        -4*k1*k2*(k1*k1*f1n1_re+k1*k2*f1n2_re+k2*k1*f2n1_re+k2*k2*f2n2_re)/Ksq)),
    im3 := s.im3.set ptr
      (-e*mu*(1/Ksq+0.25/(xi*xi))*(2*k1*k2*(f1n1_im+f2n2_im)+k1*(k1*f2n1_im+k2*f2n2_im)
        +k1*(k1*f1n2_im+k2*f2n2_im)+k2*(k1*f1n1_im+k2*f1n2_im)+k2*(k1*f1n1_im+k2*f2n1_im)
        -4*k1*k2*(k1*k1*f1n1_im+k1*k2*f1n2_im+k2*k1*f2n1_im+k2*k2*f2n2_im)/Ksq)),
    re4 := s.re4.set ptr
      (e*((k1*k1*f1n1_re+k1*k2*f1n2_re+k2*k1*f2n1_re+k2*k2*f2n2_re)/Ksq
        -mu*(1/Ksq+0.25/(xi*xi))*(2*k2*k2*(f1n1_re+f2n2_re)+k2*(k1*f2n1_re+k2*f2n2_re)
        +k2*(k1*f1n2_re+k2*f2n2_re)+k2*(k1*f2n1_re+k2*f2n2_re)+k2*(k1*f1n2_re+k2*f2n2_re)
        -4*k2*k2*(k1*k1*f1n1_re+k1*k2*f1n2_re+k2*k1*f2n1_re+k2*k2*f2n2_re)/Ksq))),
    im4 := s.im4.set ptr
      (e*((k1*k1*f1n1_im+k1*k2*f1n2_im+k2*k1*f2n1_im+k2*k2*f2n2_im)/Ksq
        -mu*(1/Ksq+0.25/(xi*xi))*(2*k2*k2*(f1n1_im+f2n2_im)+k2*(k1*f2n1_im+k2*f2n2_im)
        +k2*(k1*f1n2_im+k2*f2n2_im)+k2*(k1*f2n1_im+k2*f2n2_im)+k2*(k1*f1n2_im+k2*f2n2_im)
        -4*k2*k2*(k1*k1*f1n1_im+k1*k2*f1n2_im+k2*k1*f2n1_im+k2*k2*f2n2_im)/Ksq))) }

/-- The DLP filter stage, lines 149-271: the loops, then the zero-frequency reset.  The
constant `pi` comes from `ewald_tools.h` and is a parameter here. -/
def dlpFilter (exp : K → K) (pi xi eta Lx Ly : K) (Mx My : ℕ) (s : DlpHat K) : DlpHat K :=
  let t := filterLoops pi Lx Ly Mx My (dlpFilterMode exp xi eta) s
  { re1 := t.re1.set 0 0, im1 := t.im1.set 0 0, re2 := t.re2.set 0 0, im2 := t.im2.set 0 0,
    re3 := t.re3.set 0 0, im3 := t.im3.set 0 0, re4 := t.re4.set 0 0, im4 := t.im4.set 0 0 }

end Filter

section FilterView

variable {K : Type} [Field K]

/-- The signed column wavenumber index of lines 232-235: `j` if `j ≤ M_x/2`, else
`j - M_x`. -/
def colWave (Mx j : ℕ) : ℤ := if j ≤ Mx / 2 then (j : ℤ) else (j : ℤ) - (Mx : ℤ)

/-- The row wavenumber index the split inner loops use at row `r` of a column: the first
loop reaches the rows `0..M_y/2` with `k = r`, iteration `k` of the second loop reaches
row `M_y/2 + 1 + k` and uses `k - M_y/2 + 1`. -/
def rowWave (My r : ℕ) : ℤ :=
  if r ≤ My / 2 then (r : ℤ) else ((r - (My / 2 + 1) : ℕ) : ℤ) - ((My / 2 : ℕ) : ℤ) + 1

/-- The number of rows of a column that the two inner loops reach. -/
def rowsReached (My : ℕ) : ℕ := My / 2 + 1 + (My / 2 - 1)

/-- The four values an SLP spectrum holds at index `i`. -/
def SlpHat.cell (s : SlpHat K) (i : ℤ) : K × K × K × K := (s.re1 i, s.im1 i, s.re2 i, s.im2 i)

/-- What `slpFilterMode` stores at its index, as a function of the four values there. -/
def slpCellMap (exp : K → K) (xi eta k1 k2 : K) (c : K × K × K × K) : K × K × K × K :=
  (SlpHat.cell (slpFilterMode exp xi eta k1 k2 0
    { re1 := fun _ => c.1, im1 := fun _ => c.2.1, re2 := fun _ => c.2.2.1,
      im2 := fun _ => c.2.2.2 }) 0)

/-- The eight values a DLP spectrum holds at index `i`. -/
def DlpHat.cell (s : DlpHat K) (i : ℤ) : (K × K × K × K) × (K × K × K × K) :=
  ((s.re1 i, s.im1 i, s.re2 i, s.im2 i), (s.re3 i, s.im3 i, s.re4 i, s.im4 i))

/-- What `dlpFilterMode` stores at its index, as a function of the eight values there. -/
def dlpCellMap (exp : K → K) (xi eta k1 k2 : K) (c : (K × K × K × K) × (K × K × K × K)) :
    (K × K × K × K) × (K × K × K × K) :=
  (DlpHat.cell (dlpFilterMode exp xi eta k1 k2 0
    { re1 := fun _ => c.1.1, im1 := fun _ => c.1.2.1, re2 := fun _ => c.1.2.2.1,
      im2 := fun _ => c.1.2.2.2, re3 := fun _ => c.2.1, im3 := fun _ => c.2.2.1,
      re4 := fun _ => c.2.2.2.1, im4 := fun _ => c.2.2.2.2 }) 0)

end FilterView

section Pipeline

variable {K : Type} [LinearOrderedField K] [FloorRing K]

/-- C `round`: to the nearest integer, halfway cases away from zero. -/
def cround (x : K) : ℤ := if 0 ≤ x then ⌊x + 1 / 2⌋ else ⌈x - 1 / 2⌉

/-- The precomputable part of the fast Gaussian gridding, SLP lines 64-67: starting from
the freshly allocated array `e1`, the loop `for (j = -P/2; j <= P/2; j++)` stores
`exp(tmp*j*j)` at index `j + P/2`; iteration `i` of the model has `j = i - P/2`. -/
def e1Table (exp : K → K) (xi eta h_x h_y : K) (P : ℕ) (e1 : Grid K) : Grid K :=
  let tmp := -2 * xi * xi / eta * h_x * h_y
  forLoop (2 * (P / 2) + 1) (fun i e1 =>
    let j : ℤ := (i : ℤ) - ((P / 2 : ℕ) : ℤ)
    e1.set (j + ((P / 2 : ℕ) : ℤ)) (exp (tmp * (j : K) * (j : K)))) e1

/-- What the placement code computes for one point: the stencil base indices, the
folded offsets and the four auxiliary factors of the fast Gaussian gridding. -/
structure Placement (K : Type) where
  mx : ℤ
  my : ℤ
  px : K
  py : K
  ex : K
  e4y : K
  e3x : K
  e3y : K

/-- Window placement of source `k` in the spreading stage, SLP lines 85-138, in exact
arithmetic: the coordinates are elements of the field `K`, so `floor`, `round`, `ceil` and
the tests against `1e-13` and `1e-12` are evaluated on exact values (the source evaluates
them on rounded doubles), and the casts `static_cast<int>` are taken within the range of
`int`, so `mx`, `my` are integers without bound. -/
def spreadPlacement (exp : K → K) (psrc : ℕ → K) (k : ℕ) (xi eta w L_x L_y h_x h_y : K)
    (P : ℕ) : Placement K :=
  let px := psrc (2 * k) - h_x * ((⌊psrc (2 * k) / h_x⌋ : ℤ) : K)
  let py := psrc (2 * k + 1) - h_y * ((⌊psrc (2 * k + 1) / h_y⌋ : ℤ) : K)
  let Lhalf_x := L_x / 2.0
  let Lhalf_y := L_y / 2.0
  let tmpp := (psrc (2 * k) + Lhalf_x) / h_x
  let tmppint : ℤ := ⌊tmpp⌋
  let tmppint2 : ℤ := cround tmpp
  let tmppint3 : ℤ := ⌈tmpp - 1⌉
  let mx : ℤ :=
    if |tmpp - (tmppint2 : K)| < 1e-13 then tmppint2 - ((P / 2 : ℕ) : ℤ)
    else if |px| > 1e-12 then tmppint3 - ((P / 2 : ℕ) : ℤ)
    else tmppint - ((P / 2 : ℕ) : ℤ)
  let tmppy := (psrc (2 * k + 1) + Lhalf_y) / h_y
  let tmppinty : ℤ := ⌊tmppy⌋
  let tmppint2y : ℤ := cround tmppy
  let tmppint3y : ℤ := ⌈tmppy - 1⌉
  let my : ℤ :=
    if |tmppy - (tmppint2y : K)| < 1e-13 then tmppint2y - ((P / 2 : ℕ) : ℤ)
    else if |py| > 1e-12 then tmppint3y - ((P / 2 : ℕ) : ℤ)
    else tmppinty - ((P / 2 : ℕ) : ℤ)
  let px := if |px - h_x| < 1e-12 then 0 else px
  let py := if |py - h_y| < 1e-12 then 0 else py
  let tmp := -2 * xi * xi / eta
  let ex := exp (tmp * (px * px + py * py + 2 * w * px))
  let e4y := exp (2 * tmp * w * py)
  let e3x := exp (-2 * tmp * h_x * px)
  let e3y := exp (-2 * tmp * h_y * py)
  { mx := mx, my := my, px := px, py := py, ex := ex, e4y := e4y, e3x := e3x, e3y := e3y }

/-- Window placement of target `k` in the gathering stage, SLP lines 310-361, in exact
arithmetic and with integers without bound, as for `spreadPlacement`. -/
def gatherPlacement (exp : K → K) (ptar : ℕ → K) (k : ℕ) (xi eta w L_x L_y h_x h_y : K)
    (P : ℕ) : Placement K :=
  let px := ptar (2 * k) - h_x * ((⌊ptar (2 * k) / h_x⌋ : ℤ) : K)
  let py := ptar (2 * k + 1) - h_y * ((⌊ptar (2 * k + 1) / h_y⌋ : ℤ) : K)
  let Lhalf_x := L_x / 2.0
  let Lhalf_y := L_y / 2.0
  let tmpp := (ptar (2 * k) + Lhalf_x) / h_x
  let tmppint : ℤ := ⌊tmpp⌋
  let tmppint2 : ℤ := cround tmpp
  let tmppint3 : ℤ := ⌈tmpp - 1⌉
  let mx : ℤ :=
    if |tmpp - (tmppint2 : K)| < 1e-13 then tmppint2 - ((P / 2 : ℕ) : ℤ)
    else if |px| > 1e-12 then tmppint3 - ((P / 2 : ℕ) : ℤ)
    else tmppint - ((P / 2 : ℕ) : ℤ)
  let tmppy := (ptar (2 * k + 1) + Lhalf_y) / h_y
  let tmppinty : ℤ := ⌊tmppy⌋
  let tmppint2y : ℤ := cround tmppy
  let tmppint3y : ℤ := ⌈tmppy - 1⌉
  let my : ℤ :=
    if |tmppy - (tmppint2y : K)| < 1e-13 then tmppint2y - ((P / 2 : ℕ) : ℤ)
    else if |py| > 1e-12 then tmppint3y - ((P / 2 : ℕ) : ℤ)
    else tmppinty - ((P / 2 : ℕ) : ℤ)
  let px := if |px - h_x| < 1e-12 then 0 else px
  let py := if |py - h_y| < 1e-12 then 0 else py
  let tmp := -2 * xi * xi / eta
  let ex := exp (tmp * (px * px + py * py + 2 * w * px))
  let e4y := exp (2 * tmp * w * py)
  let e3x := exp (-2 * tmp * h_x * px)
  let e3y := exp (-2 * tmp * h_y * py)
  { mx := mx, my := my, px := px, py := py, ex := ex, e4y := e4y, e3x := e3x, e3y := e3y }

/-- State of the inner (row) loops of the spreader: the running product `ey` and the two
grids. -/
structure SpreadCol (K : Type) where
  ey : K
  H1 : Grid K
  H2 : Grid K

/-- State of the outer (column) loop of the spreader: the running product `ex` and the
two grids. -/
structure SpreadSt (K : Type) where
  ex : K
  H1 : Grid K
  H2 : Grid K

/-- The contiguous row loop of the spreader, SLP lines 148-155, started at `idx`. -/
def spreadRowFast (e1 : Grid K) (e3y f0 f1 : K) (P : ℕ) (idx : ℤ) (c : SpreadCol K) :
    ℤ × SpreadCol K :=
  forLoop (P + 1) (fun y (a : ℤ × SpreadCol K) =>
    let tmp := a.2.ey * e1 (y : ℤ)
    (a.1 + 1,
      { ey := a.2.ey * e3y,
        H1 := a.2.H1.set a.1 (a.2.H1 a.1 + tmp * f0),
        H2 := a.2.H2.set a.1 (a.2.H2 a.1 + tmp * f1) })) (idx, c)

/-- The modulo-wrapped row loop of the spreader, SLP lines 157-164; `%` is the C
remainder `Int.tmod`. -/
def spreadRowWrap (e1 : Grid K) (e3y f0 f1 : K) (P M_y : ℕ) (my xidx : ℤ) (c : SpreadCol K) :
    SpreadCol K :=
  forLoop (P + 1) (fun y (c : SpreadCol K) =>
    let tmp := c.ey * e1 (y : ℤ)
    let idx : ℤ := Int.tmod ((y : ℤ) + my + (M_y : ℤ)) (M_y : ℤ) + xidx
    { ey := c.ey * e3y,
      H1 := c.H1.set idx (c.H1 idx + tmp * f0),
      H2 := c.H2.set idx (c.H2 idx + tmp * f1) }) c

/-- Adding the Gaussian of one source with force `(f0, f1)` to the grids, column by
column, SLP lines 143-168 (the column locks do not change a sequential run). -/
def spreadSource (e1 : Grid K) (pl : Placement K) (f0 f1 : K) (P M_x M_y : ℕ)
    (H : Grid K × Grid K) : Grid K × Grid K :=
  let r := forLoop (P + 1) (fun x (s : SpreadSt K) =>
    let ey := s.ex * pl.e4y * e1 (x : ℤ)
    let xidx : ℤ := Int.tmod ((x : ℤ) + pl.mx + (M_x : ℤ)) (M_x : ℤ) * (M_y : ℤ)
    let c : SpreadCol K :=
      if pl.my ≥ 0 ∧ pl.my < (M_y : ℤ) - (P : ℤ) - 1 then
        (spreadRowFast e1 pl.e3y f0 f1 P (pl.my + xidx) { ey := ey, H1 := s.H1, H2 := s.H2 }).2
      else
        spreadRowWrap e1 pl.e3y f0 f1 P M_y pl.my xidx { ey := ey, H1 := s.H1, H2 := s.H2 }
    { ex := s.ex * pl.e3x, H1 := c.H1, H2 := c.H2 }) { ex := pl.ex, H1 := H.1, H2 := H.2 }
  (r.H1, r.H2)

/-- Step 1 of the SLP kernel, lines 58-61 and 79-169: the grids `H1`, `H2` start at zero
and every source adds its Gaussian. -/
def spread (exp : K → K) (e1 : Grid K) (psrc f : ℕ → K) (Nsrc : ℕ)
    (xi eta w L_x L_y h_x h_y : K) (P M_x M_y : ℕ) : Grid K × Grid K :=
  forLoop Nsrc (fun k H =>
    spreadSource e1 (spreadPlacement exp psrc k xi eta w L_x L_y h_x h_y P)
      (f (2 * k)) (f (2 * k + 1)) P M_x M_y H) (Grid.zero, Grid.zero)

/-- State of the inner (row) loops of the gatherer: the running product `ey` and the two
accumulators `uk[2k]`, `uk[2k+1]`. -/
structure GatherCol (K : Type) where
  ey : K
  u0 : K
  u1 : K

/-- State of the outer (column) loop of the gatherer: the running product `ex` and the
two accumulators. -/
structure GatherSt (K : Type) where
  ex : K
  u0 : K
  u1 : K

/-- The contiguous-stride path of the gatherer, SLP lines 369-382: `idx` starts at
`mx*M_y + my`, advances by one per row and by `M_y - P - 1` after each column. -/
def gatherFast (e1 : Grid K) (pl : Placement K) (Ht1 Ht2 : Grid K) (P M_y : ℕ) (u0 u1 : K) :
    K × K :=
  let r := forLoop (P + 1) (fun x (s : ℤ × GatherSt K) =>
    let ey := s.2.ex * pl.e4y * e1 (x : ℤ)
    let a := forLoop (P + 1) (fun y (a : ℤ × GatherCol K) =>
      let tmp := a.2.ey * e1 (y : ℤ)
      (a.1 + 1,
        { ey := a.2.ey * pl.e3y,
          u0 := a.2.u0 + tmp * Ht1 a.1,
          u1 := a.2.u1 + tmp * Ht2 a.1 })) (s.1, { ey := ey, u0 := s.2.u0, u1 := s.2.u1 })
    (a.1 + ((M_y : ℤ) - (P : ℤ) - 1), { ex := s.2.ex * pl.e3x, u0 := a.2.u0, u1 := a.2.u1 }))
    (pl.mx * (M_y : ℤ) + pl.my, { ex := pl.ex, u0 := u0, u1 := u1 })
  (r.2.u0, r.2.u1)

/-- The modulo-wrapped path of the gatherer, SLP lines 386-399. -/
def gatherWrap (e1 : Grid K) (pl : Placement K) (Ht1 Ht2 : Grid K) (P M_x M_y : ℕ)
    (u0 u1 : K) : K × K :=
  let r := forLoop (P + 1) (fun x (s : GatherSt K) =>
    let ey := s.ex * pl.e4y * e1 (x : ℤ)
    let xidx : ℤ := Int.tmod ((x : ℤ) + pl.mx + (M_x : ℤ)) (M_x : ℤ) * (M_y : ℤ)
    let c := forLoop (P + 1) (fun y (c : GatherCol K) =>
      let tmp := c.ey * e1 (y : ℤ)
      let idx : ℤ := Int.tmod ((y : ℤ) + pl.my + (M_y : ℤ)) (M_y : ℤ) + xidx
      { ey := c.ey * pl.e3y,
        u0 := c.u0 + tmp * Ht1 idx,
        u1 := c.u1 + tmp * Ht2 idx }) { ey := ey, u0 := s.u0, u1 := s.u1 }
    { ex := s.ex * pl.e3x, u0 := c.u0, u1 := c.u1 }) { ex := pl.ex, u0 := u0, u1 := u1 }
  (r.u0, r.u1)

/-- The two output values of one target, SLP lines 368-406: the accumulators start at
the current content `(u0, u1)` of `uk[2k]`, `uk[2k+1]`, one of the two index paths adds the
convolution sum, and the result is scaled by `(4ξ²/η)²·h_x·h_y/pi`. -/
def gatherTarget (e1 : Grid K) (pl : Placement K) (Ht1 Ht2 : Grid K) (xi eta h_x h_y : K)
    (P M_x M_y : ℕ) (u0 u1 : K) : K × K :=
  let r :=
    if pl.mx ≥ 0 ∧ pl.my ≥ 0 ∧ pl.mx < (M_x : ℤ) - (P : ℤ) - 1 ∧ pl.my < (M_y : ℤ) - (P : ℤ) - 1 then
      gatherFast e1 pl Ht1 Ht2 P M_y u0 u1
    else
      gatherWrap e1 pl Ht1 Ht2 P M_x M_y u0 u1
  let tmp := 4 * xi * xi / eta
  let tmp := tmp * tmp * h_x * h_y / pi
  (r.1 * tmp, r.2 * tmp)

/-- Step 3 of the SLP kernel, lines 300-407: the output array starts at zero and target
`k` fills the entries `2k` and `2k+1`. -/
def gather (exp : K → K) (e1 : Grid K) (ptar : ℕ → K) (Ntar : ℕ) (Ht1 Ht2 : Grid K)
    (xi eta w L_x L_y h_x h_y : K) (P M_x M_y : ℕ) : ℕ → K :=
  forLoop Ntar (fun k uk =>
    let r := gatherTarget e1 (gatherPlacement exp ptar k xi eta w L_x L_y h_x h_y P) Ht1 Ht2
      xi eta h_x h_y P M_x M_y (uk (2 * k)) (uk (2 * k + 1))
    Function.update (Function.update uk (2 * k) r.1) (2 * k + 1) r.2) (fun _ => 0)

/-- The SLP kernel after its shape checks (`compute_velocity`), lines 19-413.  The
transforms `fft2` and `ifft2` are MATLAB's: `fft2` returns the real part and the imaginary
part when there is one, `ifft2` the real part when there is one.  `e1new`, `Ht1new` and
`Ht2new` are the contents of the arrays obtained from `new double[...]`. -/
def computeVelocity (exp : K → K) (fft2 : Grid K → Grid K × Option (Grid K))
    (ifft2 : Grid K × Grid K → Option (Grid K)) (e1new Ht1new Ht2new : Grid K)
    (psrc ptar : ℕ → K) (Nsrc Ntar : ℕ) (xi eta : K) (f : ℕ → K) (M_x M_y : ℕ)
    (L_x L_y w : K) (P : ℕ) : ℕ → K :=
  let h_x := L_x / (M_x : K)
  let h_y := L_y / (M_y : K)
  let e1 := e1Table exp xi eta h_x h_y P e1new
  let H := spread exp e1 psrc f Nsrc xi eta w L_x L_y h_x h_y P M_x M_y
  let F1 := fft2 H.1
  let F2 := fft2 H.2
  let Hhat : SlpHat K :=
    { re1 := F1.1, im1 := F1.2.getD Grid.zero, re2 := F2.1, im2 := F2.2.getD Grid.zero }
  let Hf := slpFilter exp xi eta L_x L_y M_x M_y Hhat
  let Ht1 := (ifft2 (Hf.re1, Hf.im1)).getD Ht1new
  let Ht2 := (ifft2 (Hf.re2, Hf.im2)).getD Ht2new
  gather exp e1 ptar Ntar Ht1 Ht2 xi eta w L_x L_y h_x h_y P M_x M_y

end Pipeline

section PlacementRule

variable {K : Type} [LinearOrderedField K] [FloorRing K]

/-- The stencil base index of §4.1 of the specification, in its words: with
`p0 = p - h·floor(p/h)` and `t = (p + L/2)/h`, snap to `round(t) - P/2` if
`|t - round(t)| < 1e-13`, else use `ceil(t-1) - P/2` if `|p0| > 1e-12`, else
`floor(t) - P/2`.  `round` is Mathlib's rounding to the nearest integer. -/
def gridMapperBase (p L h : K) (P : ℕ) : ℤ :=
  let p0 := p - h * ((⌊p / h⌋ : ℤ) : K)
  let t := (p + L / 2) / h
  if |t - ((round t : ℤ) : K)| < 1e-13 then round t - ((P / 2 : ℕ) : ℤ)
  else if |p0| > 1e-12 then ⌈t - 1⌉ - ((P / 2 : ℕ) : ℤ)
  else ⌊t⌋ - ((P / 2 : ℕ) : ℤ)

/-- The folded offset of §4.1 of the specification, in its words: `p0 = p - h·floor(p/h)`,
reset to `0` if `|p0 - h| < 1e-12`. -/
def gridMapperOffset (p h : K) : K :=
  let p0 := p - h * ((⌊p / h⌋ : ℤ) : K)
  if |p0 - h| < 1e-12 then 0 else p0

end PlacementRule

section StencilView

variable {K : Type} [LinearOrderedField K] [FloorRing K]

/-- The grid index of the modulo-wrapped paths at stencil offset `(x, y)`, lines 145, 159,
388 and 391: `((y+my+M_y)%M_y) + ((x+mx+M_x)%M_x)*M_y` with the C remainder. -/
def wrapIdx (M_x M_y : ℕ) (mx my : ℤ) (x y : ℕ) : ℤ :=
  Int.tmod ((y : ℤ) + my + (M_y : ℤ)) (M_y : ℤ) +
    Int.tmod ((x : ℤ) + mx + (M_x : ℤ)) (M_x : ℤ) * (M_y : ℤ)

/-- The pointer `idx` of the contiguous-stride gather path (lines 369-382) when it reaches
stencil offset `(x, y)`: it starts at `mx*M_y + my`, every completed column advances it
by `P + 1` single steps and then by `M_y - P - 1`, and `y` single steps follow. -/
def fastPtr (P M_y : ℕ) (mx my : ℤ) (x y : ℕ) : ℤ :=
  forLoop y (fun _ idx => idx + 1)
    (forLoop x (fun _ idx => forLoop (P + 1) (fun _ idx => idx + 1) idx +
      ((M_y : ℤ) - (P : ℤ) - 1)) (mx * (M_y : ℤ) + my))

/-- The grid index the spreader writes at stencil offset `(x, y)`: contiguous from
`my + xidx` when `my >= 0 && my < M_y-P-1` (lines 147-149), wrapped otherwise. -/
def spreadIdx (P M_x M_y : ℕ) (mx my : ℤ) (x y : ℕ) : ℤ :=
  if my ≥ 0 ∧ my < (M_y : ℤ) - (P : ℤ) - 1 then
    my + Int.tmod ((x : ℤ) + mx + (M_x : ℤ)) (M_x : ℤ) * (M_y : ℤ) + (y : ℤ)
  else wrapIdx M_x M_y mx my x y

/-- The grid index the gatherer reads at stencil offset `(x, y)`: the pointer of the
contiguous path under the condition of line 368, the wrapped index otherwise. -/
def gatherIdx (P M_x M_y : ℕ) (mx my : ℤ) (x y : ℕ) : ℤ :=
  if mx ≥ 0 ∧ my ≥ 0 ∧ mx < (M_x : ℤ) - (P : ℤ) - 1 ∧ my < (M_y : ℤ) - (P : ℤ) - 1 then
    fastPtr P M_y mx my x y
  else wrapIdx M_x M_y mx my x y

/-- The periodic cell of stencil offset `(x, y)` with the mathematical remainder. -/
def emodIdx (M_x M_y : ℕ) (mx my : ℤ) (x y : ℕ) : ℤ :=
  ((y : ℤ) + my + (M_y : ℤ)) % (M_y : ℤ) + (((x : ℤ) + mx + (M_x : ℤ)) % (M_x : ℤ)) * (M_y : ℤ)

/-- The row loop of the spreader with the index of row `y` given as `rowIdx y`; both row
loops of the source are instances (`spreadRowFast_eq`, `spreadRowWrap_eq`). -/
def spreadRowAt (e1 : Grid K) (e3y f0 f1 : K) (P : ℕ) (rowIdx : ℕ → ℤ) (c : SpreadCol K) :
    SpreadCol K :=
  forLoop (P + 1) (fun y (c : SpreadCol K) =>
    let tmp := c.ey * e1 (y : ℤ)
    { ey := c.ey * e3y,
      H1 := c.H1.set (rowIdx y) (c.H1 (rowIdx y) + tmp * f0),
      H2 := c.H2.set (rowIdx y) (c.H2 (rowIdx y) + tmp * f1) }) c

/-- The stencil loops of the spreader with the index of offset `(x, y)` given as
`idx x y`; `spreadSource` is the instance `idx = spreadIdx` (`spreadSource_eq`). -/
def spreadAt (e1 : Grid K) (ex e4y e3x e3y f0 f1 : K) (P : ℕ) (idx : ℕ → ℕ → ℤ)
    (H : Grid K × Grid K) : Grid K × Grid K :=
  let r := forLoop (P + 1) (fun x (s : SpreadSt K) =>
    let ey := s.ex * e4y * e1 (x : ℤ)
    let c := spreadRowAt e1 e3y f0 f1 P (idx x) { ey := ey, H1 := s.H1, H2 := s.H2 }
    { ex := s.ex * e3x, H1 := c.H1, H2 := c.H2 }) { ex := ex, H1 := H.1, H2 := H.2 }
  (r.H1, r.H2)

/-- The stencil loops of the gatherer with the index of offset `(x, y)` given as
`idx x y`; both paths of the source are instances (`gatherFast_eq`, `gatherWrap_eq`). -/
def gatherAt (e1 : Grid K) (ex e4y e3x e3y : K) (Ht1 Ht2 : Grid K) (P : ℕ)
    (idx : ℕ → ℕ → ℤ) (u0 u1 : K) : K × K :=
  let r := forLoop (P + 1) (fun x (s : GatherSt K) =>
    let ey := s.ex * e4y * e1 (x : ℤ)
    let c := forLoop (P + 1) (fun y (c : GatherCol K) =>
      let tmp := c.ey * e1 (y : ℤ)
      { ey := c.ey * e3y,
        u0 := c.u0 + tmp * Ht1 (idx x y),
        u1 := c.u1 + tmp * Ht2 (idx x y) }) { ey := ey, u0 := s.u0, u1 := s.u1 }
    { ex := s.ex * e3x, u0 := c.u0, u1 := c.u1 }) { ex := ex, u0 := u0, u1 := u1 }
  (r.u0, r.u1)

/-- The value of `tmp`, the weight of stencil offset `(x, y)`, in the stencil loops
(lines 143-168, 370-382, 386-399): `ex` has been multiplied `x` times by `e3x`, the row
starts from `ey = ex*e4y*e1[x]`, which has been multiplied `y` times by `e3y`, and
`tmp = ey*e1[y]`. -/
def stencilWeight (e1 : Grid K) (ex e4y e3x e3y : K) (x y : ℕ) : K :=
  let ex := forLoop x (fun _ ex => ex * e3x) ex
  let ey := forLoop y (fun _ ey => ey * e3y) (ex * e4y * e1 (x : ℤ))
  ey * e1 (y : ℤ)

/-- The index of the column lock taken for stencil column `x`, SLP lines 146 and 166:
`(x+mx+M_x)%M_x` with the C remainder. -/
def lockIndex (M_x : ℕ) (mx : ℤ) (x : ℕ) : ℤ := Int.tmod ((x : ℤ) + mx + (M_x : ℤ)) (M_x : ℤ)

/-- One write burst of the spreader, SLP lines 144-165: what the body of the column loop does
to the grids between `omp_set_lock` and `omp_unset_lock` for stencil column `x`, with `ex`
the current value of the running product. -/
def spreadColumn (e1 : Grid K) (pl : Placement K) (f0 f1 : K) (P M_x M_y : ℕ) (x : ℕ) (ex : K)
    (H : Grid K × Grid K) : Grid K × Grid K :=
  let ey := ex * pl.e4y * e1 (x : ℤ)
  let xidx : ℤ := Int.tmod ((x : ℤ) + pl.mx + (M_x : ℤ)) (M_x : ℤ) * (M_y : ℤ)
  let c : SpreadCol K :=
    if pl.my ≥ 0 ∧ pl.my < (M_y : ℤ) - (P : ℤ) - 1 then
      (spreadRowFast e1 pl.e3y f0 f1 P (pl.my + xidx) { ey := ey, H1 := H.1, H2 := H.2 }).2
    else
      spreadRowWrap e1 pl.e3y f0 f1 P M_y pl.my xidx { ey := ey, H1 := H.1, H2 := H.2 }
  (c.H1, c.H2)

end StencilView

section Kernels

variable {K : Type} [LinearOrderedField K] [FloorRing K]

/-- A MATLAB array argument of a MEX call: its row count (`mxGetM`), its column count
(`mxGetN`) and its real data (`mxGetPr`). -/
structure MxArray (K : Type) where
  M : ℕ
  N : ℕ
  pr : ℕ → K

/-- `mxGetScalar`: the first element of the data. -/
def mxGetScalar (a : MxArray K) : K := a.pr 0

/-- `static_cast<int>` of a size argument (`M_x`, `M_y`, `P`): truncation; the sizes are
taken non-negative and within the range of `int`, where truncation is the floor.  A
negative argument, which the cast of the source keeps negative, is outside this model. -/
def toSize (x : K) : ℕ := ⌊x⌋₊

/-- The grids the SLP kernel passes to the gathering stage: steps 1 and 2 of
`computeVelocity` (lines 44-289), i.e. table, spreading, forward transforms, filter and
inverse transforms. -/
def slpFilteredGrids (exp : K → K) (fft2 : Grid K → Grid K × Option (Grid K))
    (ifft2 : Grid K × Grid K → Option (Grid K)) (e1new Ht1new Ht2new : Grid K)
    (psrc : ℕ → K) (Nsrc : ℕ) (xi eta : K) (f : ℕ → K) (M_x M_y : ℕ)
    (L_x L_y w : K) (P : ℕ) : Grid K × Grid K :=
  let h_x := L_x / (M_x : K)
  let h_y := L_y / (M_y : K)
  let e1 := e1Table exp xi eta h_x h_y P e1new
  let H := spread exp e1 psrc f Nsrc xi eta w L_x L_y h_x h_y P M_x M_y
  let F1 := fft2 H.1
  let F2 := fft2 H.2
  let Hhat : SlpHat K :=
    { re1 := F1.1, im1 := F1.2.getD Grid.zero, re2 := F2.1, im2 := F2.2.getD Grid.zero }
  let Hf := slpFilter exp xi eta L_x L_y M_x M_y Hhat
  ((ifft2 (Hf.re1, Hf.im1)).getD Ht1new, (ifft2 (Hf.re2, Hf.im2)).getD Ht2new)

/-- The SLP entry point `mexFunction` of `mex_stokes_slp_kspace.cpp`: the four shape checks
of lines 9-16 (`mexErrMsgTxt` ends the call with its message), then the kernel on the
arguments `prhs[0..10]`.  The argument count `nrhs` is a parameter that the function
never reads. -/
def mexFunctionSLP (exp : K → K) (fft2 : Grid K → Grid K × Option (Grid K))
    (ifft2 : Grid K × Grid K → Option (Grid K)) (e1new Ht1new Ht2new : Grid K)
    (_nrhs : ℕ) (prhs : ℕ → MxArray K) : Except String (ℕ → K) :=
  if (prhs 0).M ≠ 2 then Except.error "psrc must be a 2xn matrix."
  else if (prhs 1).M ≠ 2 then Except.error "ptar must be a 2xn matrix."
  else if (prhs 4).M ≠ 2 then Except.error "f must be a 2xn matrix."
  else if (prhs 4).N ≠ (prhs 0).N then Except.error "psrc and f must be the same size."
  else
    Except.ok (computeVelocity exp fft2 ifft2 e1new Ht1new Ht2new (prhs 0).pr (prhs 1).pr
      (prhs 0).N (prhs 1).N (mxGetScalar (prhs 2)) (mxGetScalar (prhs 3)) (prhs 4).pr
      (toSize (mxGetScalar (prhs 5))) (toSize (mxGetScalar (prhs 6)))
      (mxGetScalar (prhs 7)) (mxGetScalar (prhs 8)) (mxGetScalar (prhs 9))
      (toSize (mxGetScalar (prhs 10))))

/-- The type of `Spread` of `ewald_tools.h` (not among the sources), called as
`Spread(H1, H2, e1, psrc, v, Nsrc, Lx, Ly, xi, w, eta, P, Mx, My, h)`: it returns the
contents of the arrays `H1`, `H2` and `e1` after the call. -/
abbrev SpreadFn (K : Type) :=
  Grid K → Grid K → Grid K → (ℕ → K) → (ℕ → K) → ℕ → K → K → K → K → K → ℕ → ℕ → ℕ → K →
    Grid K × Grid K × Grid K

/-- The type of `Gather` of `ewald_tools.h` (not among the sources), called as
`Gather(Ht, 4, row, e1, ptar, Tk, Ntar, Lx, Ly, xi, w, eta, P, Mx, My, h)`: it returns
the content of the output array `Tk` after the call. -/
abbrev GatherFn (K : Type) :=
  Grid K → ℕ → ℕ → Grid K → (ℕ → K) → (ℕ → K) → ℕ → K → K → K → K → K → ℕ → ℕ → ℕ → K →
    (ℕ → K)

/-- The contents of the arrays that the DLP kernel obtains from `new double[...]`
without initialising them: `v1`, `v2` (lines 75-76), `e1` (line 86), `Hhat3_im`,
`Hhat4_im` (lines 133, 138) and `Ht1..Ht4` (lines 294-306). -/
structure DlpFresh (K : Type) where
  v1 : ℕ → K
  v2 : ℕ → K
  e1 : Grid K
  Hhat3_im : Grid K
  Hhat4_im : Grid K
  Ht1 : Grid K
  Ht2 : Grid K
  Ht3 : Grid K
  Ht4 : Grid K

/-- The weight arrays `v1`, `v2` of the DLP kernel, lines 77-83. -/
def dlpWeights (f n : ℕ → K) (Nsrc : ℕ) (v1 v2 : ℕ → K) : (ℕ → K) × (ℕ → K) :=
  forLoop Nsrc (fun i (v : (ℕ → K) × (ℕ → K)) =>
    let v1 := Function.update v.1 (2 * i) (f (2 * i) * n (2 * i))
    let v1 := Function.update v1 (2 * i + 1) (f (2 * i + 1) * n (2 * i))
    let v2 := Function.update v.2 (2 * i) (f (2 * i) * n (2 * i + 1))
    let v2 := Function.update v2 (2 * i + 1) (f (2 * i + 1) * n (2 * i + 1))
    (v1, v2)) (v1, v2)

/-- Step 1 of the DLP kernel, lines 64-88: four zero grids, the weight arrays, and the
two `Spread` calls; the result is `((H1, H2), (H3, H4), e1)`. -/
def dlpSpreadStage (Spread : SpreadFn K) (fresh : DlpFresh K) (psrc f n : ℕ → K) (Nsrc : ℕ)
    (xi eta w Lx Ly h : K) (P Mx My : ℕ) : (Grid K × Grid K) × (Grid K × Grid K) × Grid K :=
  let v := dlpWeights f n Nsrc fresh.v1 fresh.v2
  let a := Spread Grid.zero Grid.zero fresh.e1 psrc v.1 Nsrc Lx Ly xi w eta P Mx My h
  let b := Spread Grid.zero Grid.zero a.2.2 psrc v.2 Nsrc Lx Ly xi w eta P Mx My h
  ((a.1, a.2.1), (b.1, b.2.1), b.2.2)

/-- The spectrum the DLP filter works on, lines 99-140: the four forward transforms; an
absent imaginary part is replaced by an `mxCalloc` array for the channels 1 and 2 and by
a `new double[Mx*My]` array for the channels 3 and 4. -/
def dlpSpectrum (fft2 : Grid K → Grid K × Option (Grid K)) (fresh : DlpFresh K)
    (H1 H2 H3 H4 : Grid K) : DlpHat K :=
  { re1 := (fft2 H1).1, im1 := (fft2 H1).2.getD Grid.zero,
    re2 := (fft2 H2).1, im2 := (fft2 H2).2.getD Grid.zero,
    re3 := (fft2 H3).1, im3 := (fft2 H3).2.getD fresh.Hhat3_im,
    re4 := (fft2 H4).1, im4 := (fft2 H4).2.getD fresh.Hhat4_im }

/-- `memset(a, 0, n*sizeof(double))`: the first `n` entries become `0`. -/
def memsetZero (a : Grid K) (n : ℕ) : Grid K :=
  fun i => if 0 ≤ i ∧ i < (n : ℤ) then 0 else a i

/-- The grids `(Ht1, Ht2, Ht3, Ht4)` the DLP kernel passes to `Gather`, lines 280-308: the
real parts of the four inverse transforms; an absent real part is replaced by a
`new double[Mx*My]` array, followed by the `memset` of the branch (of `Ht1`, `Ht2`, `Ht3`
in the first three branches, of `Ht3` again in the branch of `Ht4`). -/
def dlpRealGrids (ifft2 : Grid K × Grid K → Option (Grid K)) (fresh : DlpFresh K)
    (Mx My : ℕ) (Hf : DlpHat K) : Grid K × Grid K × Grid K × Grid K :=
  let Ht1 := match ifft2 (Hf.re1, Hf.im1) with
    | some a => a
    | none => memsetZero fresh.Ht1 (Mx * My)
  let Ht2 := match ifft2 (Hf.re2, Hf.im2) with
    | some a => a
    | none => memsetZero fresh.Ht2 (Mx * My)
  let Ht3 := match ifft2 (Hf.re3, Hf.im3) with
    | some a => a
    | none => memsetZero fresh.Ht3 (Mx * My)
  match ifft2 (Hf.re4, Hf.im4) with
  | some a => (Ht1, Ht2, Ht3, a)
  | none => (Ht1, Ht2, memsetZero Ht3 (Mx * My), fresh.Ht4)

/-- The DLP kernel after its argument checks (`compute_stress`), lines 22-340; `Spread`,
`Gather` and `pi` come from `ewald_tools.h`, the transforms are MATLAB's. -/
def computeStress (exp : K → K) (pi : K) (Spread : SpreadFn K) (Gather : GatherFn K)
    (fft2 : Grid K → Grid K × Option (Grid K)) (ifft2 : Grid K × Grid K → Option (Grid K))
    (fresh : DlpFresh K) (psrc ptar : ℕ → K) (Nsrc Ntar : ℕ) (xi eta : K) (f n : ℕ → K)
    (Mx My : ℕ) (Lx Ly w : K) (P : ℕ) : ℕ → K :=
  let h := Lx / (Mx : K)
  let S := dlpSpreadStage Spread fresh psrc f n Nsrc xi eta w Lx Ly h P Mx My
  let Hhat := dlpSpectrum fft2 fresh S.1.1 S.1.2 S.2.1.1 S.2.1.2
  let Hf := dlpFilter exp pi xi eta Lx Ly Mx My Hhat
  let Ht := dlpRealGrids ifft2 fresh Mx My Hf
  let e1 := S.2.2
  let Tk := Gather Ht.1 4 1 e1 ptar (fun _ => 0) Ntar Lx Ly xi w eta P Mx My h
  let Tk := Gather Ht.2.1 4 2 e1 ptar Tk Ntar Lx Ly xi w eta P Mx My h
  let Tk := Gather Ht.2.2.1 4 3 e1 ptar Tk Ntar Lx Ly xi w eta P Mx My h
  Gather Ht.2.2.2 4 4 e1 ptar Tk Ntar Lx Ly xi w eta P Mx My h

/-- The DLP entry point `mexFunction` of `mex_stokes_dlp_stress_kspace.cpp`: the seven
checks of lines 5-19 (`mexErrMsgTxt` ends the call with its message), then the kernel on
the arguments `prhs[0..11]`. -/
def mexFunctionDLP (exp : K → K) (pi : K) (Spread : SpreadFn K) (Gather : GatherFn K)
    (fft2 : Grid K → Grid K × Option (Grid K)) (ifft2 : Grid K × Grid K → Option (Grid K))
    (fresh : DlpFresh K) (nrhs : ℕ) (prhs : ℕ → MxArray K) : Except String (ℕ → K) :=
  if nrhs ≠ 12 then Except.error "Incorrect number of input parameters"
  else if (prhs 0).M ≠ 2 then Except.error "psrc must be a 2xn matrix."
  else if (prhs 1).M ≠ 2 then Except.error "ptar must be a 2xn matrix."
  else if (prhs 4).M ≠ 2 then Except.error "f must be a 2xn matrix."
  else if (prhs 5).M ≠ 2 then Except.error "n must be a 2xn matrix."
  else if (prhs 4).N ≠ (prhs 0).N then Except.error "psrc and f must be the same size."
  else if (prhs 5).N ≠ (prhs 0).N then Except.error "psrc and n must be the same size."
  else
    Except.ok (computeStress exp pi Spread Gather fft2 ifft2 fresh (prhs 0).pr (prhs 1).pr
      (prhs 0).N (prhs 1).N (mxGetScalar (prhs 2)) (mxGetScalar (prhs 3)) (prhs 4).pr
      (prhs 5).pr (toSize (mxGetScalar (prhs 6))) (toSize (mxGetScalar (prhs 7)))
      (mxGetScalar (prhs 8)) (mxGetScalar (prhs 9)) (mxGetScalar (prhs 10))
      (toSize (mxGetScalar (prhs 11))))

end Kernels

/-! ## Loops -/

section Loops

variable {σ τ : Type}

theorem forLoop_succ (n : ℕ) (body : ℕ → σ → σ) (s : σ) :
    forLoop (n + 1) body s = body n (forLoop n body s) := rfl

theorem forLoop_zero (body : ℕ → σ → σ) (s : σ) : forLoop 0 body s = s := rfl

/-- Loop invariants: `Inv i` holds before iteration `i`. -/
theorem forLoop_inv (Inv : ℕ → σ → Prop) (n : ℕ) (body : ℕ → σ → σ) (s : σ) (h0 : Inv 0 s)
    (hstep : ∀ i t, i < n → Inv i t → Inv (i + 1) (body i t)) : Inv n (forLoop n body s) := by
  induction n with
  | zero => exact h0
  | succ n ih =>
    rw [forLoop_succ]
    exact hstep n _ (Nat.lt_succ_self n)
      (ih (fun i t hi => hstep i t (Nat.lt_succ_of_lt hi)))

/-- Two loops whose bodies keep a relation between their states. -/
theorem forLoop_rel (R : ℕ → σ → τ → Prop) (n : ℕ) (b1 : ℕ → σ → σ) (b2 : ℕ → τ → τ)
    (s : σ) (t : τ) (h0 : R 0 s t)
    (hstep : ∀ i u v, i < n → R i u v → R (i + 1) (b1 i u) (b2 i v)) :
    R n (forLoop n b1 s) (forLoop n b2 t) := by
  induction n with
  | zero => exact h0
  | succ n ih =>
    rw [forLoop_succ, forLoop_succ]
    exact hstep n _ _ (Nat.lt_succ_self n)
      (ih (fun i u v hi => hstep i u v (Nat.lt_succ_of_lt hi)))

/-- Loops with bodies that agree on the iterations that run are equal. -/
theorem forLoop_congr (n : ℕ) (b1 b2 : ℕ → σ → σ) (s : σ)
    (h : ∀ i t, i < n → b1 i t = b2 i t) : forLoop n b1 s = forLoop n b2 s := by
  induction n with
  | zero => rfl
  | succ n ih =>
    rw [forLoop_succ, forLoop_succ, ih (fun i t hi => h i t (Nat.lt_succ_of_lt hi))]
    exact h n _ (Nat.lt_succ_self n)

end Loops

theorem Grid.set_apply {K : Type} (a : Grid K) (i : ℤ) (v : K) (j : ℤ) :
    a.set i v j = if j = i then v else a j := rfl

theorem Grid.set_same {K : Type} (a : Grid K) (i : ℤ) (v : K) : a.set i v i = v := by
  simp [Grid.set]

theorem Grid.set_other {K : Type} (a : Grid K) (i : ℤ) (v : K) (j : ℤ) (h : j ≠ i) :
    a.set i v j = a j := by
  simp [Grid.set, h]

/-! ## The filter loops -/

section FilterLoops

variable {K σ C : Type}

/-- One inner loop of the filter: `n` consecutive indices from `ptr0` are mapped, the rest
is untouched. -/
theorem filterRun_cell (cell : σ → ℤ → C) (mode : K → ℤ → σ → σ) (F : K → C → C)
    (hm : ∀ k2 ptr s i, cell (mode k2 ptr s) i = if i = ptr then F k2 (cell s ptr) else cell s i)
    (g : ℕ → K) (n : ℕ) (ptr0 : ℤ) (s0 : σ) :
    (forLoop n (fun k (a : ℤ × σ) => (a.1 + 1, mode (g k) a.1 a.2)) (ptr0, s0)).1 = ptr0 + n ∧
    ∀ i, cell (forLoop n (fun k (a : ℤ × σ) => (a.1 + 1, mode (g k) a.1 a.2)) (ptr0, s0)).2 i =
      if ptr0 ≤ i ∧ i < ptr0 + n then F (g (i - ptr0).toNat) (cell s0 i) else cell s0 i := by
  induction n with
  | zero =>
    refine ⟨by simp [forLoop_zero], fun i => ?_⟩
    have h0 : ¬ (ptr0 ≤ i ∧ i < ptr0 + ((0 : ℕ) : ℤ)) := by omega
    rw [forLoop_zero, if_neg h0]
  | succ n ih =>
    obtain ⟨ih1, ih2⟩ := ih
    refine ⟨by rw [forLoop_succ]; simp only [ih1]; push_cast; ring, fun i => ?_⟩
    rw [forLoop_succ]
    simp only [hm, ih1, ih2]
    by_cases hi : i = ptr0 + n
    · subst hi
      have h1 : ¬ (ptr0 ≤ ptr0 + (n : ℤ) ∧ ptr0 + (n : ℤ) < ptr0 + (n : ℤ)) := by omega
      have h2 : ptr0 ≤ ptr0 + (n : ℤ) ∧ ptr0 + (n : ℤ) < ptr0 + ((n + 1 : ℕ) : ℤ) := by omega
      have h3 : (ptr0 + (n : ℤ) - ptr0).toNat = n := by omega
      rw [if_pos rfl, if_neg h1, if_pos h2, h3]
    · rw [if_neg hi]
      by_cases hr : ptr0 ≤ i ∧ i < ptr0 + (n : ℤ)
      · have h2 : ptr0 ≤ i ∧ i < ptr0 + ((n + 1 : ℕ) : ℤ) := by omega
        rw [if_pos hr, if_pos h2]
      · have h2 : ¬ (ptr0 ≤ i ∧ i < ptr0 + ((n + 1 : ℕ) : ℤ)) := by omega
        rw [if_neg hr, if_neg h2]

theorem rowsReached_le (My : ℕ) (h : 1 ≤ My) : rowsReached My ≤ My := by
  unfold rowsReached
  omega

theorem mul_add_mem_column (j J My r n : ℕ) (hr : r < My) (hn : n ≤ My) :
    ((J : ℤ) * (My : ℤ) ≤ (j : ℤ) * (My : ℤ) + (r : ℤ) ∧
      (j : ℤ) * (My : ℤ) + (r : ℤ) < (J : ℤ) * (My : ℤ) + (n : ℤ)) ↔ (j = J ∧ r < n) := by
  constructor
  · rintro ⟨h1, h2⟩
    rcases Nat.lt_trichotomy j J with h | h | h
    · exfalso
      have h3 : (j + 1) * My ≤ J * My := Nat.mul_le_mul_right My h
      have h4 : ((j : ℤ) + 1) * (My : ℤ) ≤ (J : ℤ) * (My : ℤ) := by exact_mod_cast h3
      have h5 : ((j : ℤ) + 1) * (My : ℤ) = (j : ℤ) * (My : ℤ) + (My : ℤ) := by ring
      omega
    · subst h
      exact ⟨rfl, by omega⟩
    · exfalso
      have h3 : (J + 1) * My ≤ j * My := Nat.mul_le_mul_right My h
      have h4 : ((J : ℤ) + 1) * (My : ℤ) ≤ (j : ℤ) * (My : ℤ) := by exact_mod_cast h3
      have h5 : ((J : ℤ) + 1) * (My : ℤ) = (J : ℤ) * (My : ℤ) + (My : ℤ) := by ring
      omega
  · rintro ⟨rfl, h⟩
    omega

/-- The filter loops map every reached mode `(j, r)` once, with the wavenumbers
`2π/L_x·colWave` and `2π/L_y·rowWave`, and leave every other cell untouched. -/
theorem filterLoops_cell [Field K] (cell : σ → ℤ → C) (mode : K → K → ℤ → σ → σ)
    (F : K → K → C → C)
    (hm : ∀ k1 k2 ptr s i,
      cell (mode k1 k2 ptr s) i = if i = ptr then F k1 k2 (cell s ptr) else cell s i)
    (pi Lx Ly : K) (Mx My : ℕ) (hMy : 1 ≤ My) (s : σ) (j r : ℕ) (hr : r < My) :
    cell (filterLoops pi Lx Ly Mx My mode s) ((j : ℤ) * (My : ℤ) + (r : ℤ)) =
      if j < Mx ∧ r < rowsReached My then
        F (2 * pi / Lx * ((colWave Mx j : ℤ) : K)) (2 * pi / Ly * ((rowWave My r : ℤ) : K))
          (cell s ((j : ℤ) * (My : ℤ) + (r : ℤ)))
      else cell s ((j : ℤ) * (My : ℤ) + (r : ℤ)) := by
  unfold filterLoops
  refine forLoop_inv (fun J t => ∀ j r : ℕ, r < My →
    cell t ((j : ℤ) * (My : ℤ) + (r : ℤ)) =
      if j < J ∧ r < rowsReached My then
        F (2 * pi / Lx * ((colWave Mx j : ℤ) : K)) (2 * pi / Ly * ((rowWave My r : ℤ) : K))
          (cell s ((j : ℤ) * (My : ℤ) + (r : ℤ)))
      else cell s ((j : ℤ) * (My : ℤ) + (r : ℤ))) Mx _ s ?_ ?_ j r hr
  · intro j r _
    simp
  · intro J t _ ih j r hr
    have hk1 : (if J ≤ Mx / 2 then 2 * pi / Lx * (((J : ℤ) : ℤ) : K)
        else 2 * pi / Lx * (((J : ℤ) - (Mx : ℤ) : ℤ) : K)) = 2 * pi / Lx * ((colWave Mx J : ℤ) : K) := by
      unfold colWave
      split_ifs <;> rfl
    simp only [hk1]
    obtain ⟨ha1, ha2⟩ := filterRun_cell cell (mode (2 * pi / Lx * ((colWave Mx J : ℤ) : K)))
      (F (2 * pi / Lx * ((colWave Mx J : ℤ) : K)))
      (hm _) (fun k => 2 * pi / Ly * ((k : ℤ) : K)) (My / 2 + 1) ((J : ℤ) * (My : ℤ)) t
    obtain ⟨_, hb2⟩ := filterRun_cell cell (mode (2 * pi / Lx * ((colWave Mx J : ℤ) : K)))
      (F (2 * pi / Lx * ((colWave Mx J : ℤ) : K)))
      (hm _) (fun k => 2 * pi / Ly * (((k : ℤ) - ((My / 2 : ℕ) : ℤ) + 1 : ℤ) : K)) (My / 2 - 1)
      (forLoop (My / 2 + 1) (fun k (a : ℤ × σ) =>
        (a.1 + 1, mode (2 * pi / Lx * ((colWave Mx J : ℤ) : K)) (2 * pi / Ly * ((k : ℤ) : K)) a.1 a.2))
        ((J : ℤ) * (My : ℤ), t)).1
      (forLoop (My / 2 + 1) (fun k (a : ℤ × σ) =>
        (a.1 + 1, mode (2 * pi / Lx * ((colWave Mx J : ℤ) : K)) (2 * pi / Ly * ((k : ℤ) : K)) a.1 a.2))
        ((J : ℤ) * (My : ℤ), t)).2
    rw [hb2, ha2, ha1, ih j r hr]
    have hle := rowsReached_le My hMy
    have hcol1 := mul_add_mem_column j J My r (My / 2 + 1)
    have hcol := mul_add_mem_column j J My r (rowsReached My) hr hle
    unfold rowsReached at hcol hle ⊢
    by_cases hj : j = J
    · subst hj
      have hlt : ¬ (j < j ∧ r < My / 2 + 1 + (My / 2 - 1)) := by omega
      rw [if_neg hlt]
      by_cases h1 : r < My / 2 + 1
      · have c1 : (j : ℤ) * (My : ℤ) ≤ (j : ℤ) * (My : ℤ) + (r : ℤ) ∧
            (j : ℤ) * (My : ℤ) + (r : ℤ) < (j : ℤ) * (My : ℤ) + ((My / 2 + 1 : ℕ) : ℤ) := by omega
        have c2 : ¬ ((j : ℤ) * (My : ℤ) + ((My / 2 + 1 : ℕ) : ℤ) ≤ (j : ℤ) * (My : ℤ) + (r : ℤ) ∧
            (j : ℤ) * (My : ℤ) + (r : ℤ) <
              (j : ℤ) * (My : ℤ) + ((My / 2 + 1 : ℕ) : ℤ) + ((My / 2 - 1 : ℕ) : ℤ)) := by omega
        have c3 : j < j + 1 ∧ r < My / 2 + 1 + (My / 2 - 1) := by omega
        have c4 : ((j : ℤ) * (My : ℤ) + (r : ℤ) - (j : ℤ) * (My : ℤ)).toNat = r := by omega
        have c5 : rowWave My r = (r : ℤ) := by
          unfold rowWave
          rw [if_pos (by omega)]
        rw [if_neg c2, if_pos c1, if_pos c3, c4, c5]
      · by_cases h2 : r < My / 2 + 1 + (My / 2 - 1)
        · have c1 : ¬ ((j : ℤ) * (My : ℤ) ≤ (j : ℤ) * (My : ℤ) + (r : ℤ) ∧
              (j : ℤ) * (My : ℤ) + (r : ℤ) < (j : ℤ) * (My : ℤ) + ((My / 2 + 1 : ℕ) : ℤ)) := by
            omega
          have c2 : ((j : ℤ) * (My : ℤ) + ((My / 2 + 1 : ℕ) : ℤ) ≤ (j : ℤ) * (My : ℤ) + (r : ℤ) ∧
              (j : ℤ) * (My : ℤ) + (r : ℤ) <
                (j : ℤ) * (My : ℤ) + ((My / 2 + 1 : ℕ) : ℤ) + ((My / 2 - 1 : ℕ) : ℤ)) := by omega
          have c3 : j < j + 1 ∧ r < My / 2 + 1 + (My / 2 - 1) := by omega
          have c4 : ((j : ℤ) * (My : ℤ) + (r : ℤ) -
              ((j : ℤ) * (My : ℤ) + ((My / 2 + 1 : ℕ) : ℤ))).toNat = r - (My / 2 + 1) := by omega
          have c5 : rowWave My r =
              (((r - (My / 2 + 1) : ℕ) : ℤ) : ℤ) - ((My / 2 : ℕ) : ℤ) + 1 := by
            unfold rowWave
            rw [if_neg (by omega)]
          rw [if_pos c2, if_neg c1, if_pos c3, c4, c5]
        · have c1 : ¬ ((j : ℤ) * (My : ℤ) ≤ (j : ℤ) * (My : ℤ) + (r : ℤ) ∧
              (j : ℤ) * (My : ℤ) + (r : ℤ) < (j : ℤ) * (My : ℤ) + ((My / 2 + 1 : ℕ) : ℤ)) := by
            omega
          have c2 : ¬ ((j : ℤ) * (My : ℤ) + ((My / 2 + 1 : ℕ) : ℤ) ≤ (j : ℤ) * (My : ℤ) + (r : ℤ) ∧
              (j : ℤ) * (My : ℤ) + (r : ℤ) <
                (j : ℤ) * (My : ℤ) + ((My / 2 + 1 : ℕ) : ℤ) + ((My / 2 - 1 : ℕ) : ℤ)) := by omega
          have c3 : ¬ (j < j + 1 ∧ r < My / 2 + 1 + (My / 2 - 1)) := by omega
          rw [if_neg c2, if_neg c1, if_neg c3]
    · have e1 : ¬ ((J : ℤ) * (My : ℤ) ≤ (j : ℤ) * (My : ℤ) + (r : ℤ) ∧
          (j : ℤ) * (My : ℤ) + (r : ℤ) < (J : ℤ) * (My : ℤ) + ((My / 2 + 1 : ℕ) : ℤ)) := by
        intro h
        exact hj ((hcol1 hr (by omega)).1 h).1
      have e2 : ¬ ((J : ℤ) * (My : ℤ) + ((My / 2 + 1 : ℕ) : ℤ) ≤ (j : ℤ) * (My : ℤ) + (r : ℤ) ∧
          (j : ℤ) * (My : ℤ) + (r : ℤ) <
            (J : ℤ) * (My : ℤ) + ((My / 2 + 1 : ℕ) : ℤ) + ((My / 2 - 1 : ℕ) : ℤ)) := by
        intro h
        refine hj (hcol.1 ⟨by omega, ?_⟩).1
        push_cast
        push_cast at h
        omega
      rw [if_neg e2, if_neg e1]
      by_cases h3 : j < J ∧ r < My / 2 + 1 + (My / 2 - 1)
      · rw [if_pos h3, if_pos (by omega)]
      · rw [if_neg h3, if_neg (by omega)]

end FilterLoops

/-! ## The SLP and DLP filters -/

section Filters

variable {K : Type} [Field K]

theorem slpFilterMode_cell (exp : K → K) (xi eta k1 k2 : K) (ptr : ℤ) (s : SlpHat K) (i : ℤ) :
    (slpFilterMode exp xi eta k1 k2 ptr s).cell i =
      if i = ptr then slpCellMap exp xi eta k1 k2 (s.cell ptr) else s.cell i := by
  by_cases h : i = ptr
  · subst h
    simp [slpFilterMode, slpCellMap, SlpHat.cell, Grid.set]
  · simp [slpFilterMode, SlpHat.cell, Grid.set, h]

theorem dlpFilterMode_cell (exp : K → K) (xi eta k1 k2 : K) (ptr : ℤ) (s : DlpHat K) (i : ℤ) :
    (dlpFilterMode exp xi eta k1 k2 ptr s).cell i =
      if i = ptr then dlpCellMap exp xi eta k1 k2 (s.cell ptr) else s.cell i := by
  by_cases h : i = ptr
  · subst h
    simp [dlpFilterMode, dlpCellMap, DlpHat.cell, Grid.set]
  · simp [dlpFilterMode, DlpHat.cell, Grid.set, h]

/-- The SLP loops at a mode `(j, r)` of the grid. -/
theorem slpLoops_cell (exp : K → K) (xi eta Lx Ly : K) (Mx My : ℕ) (hMy : 1 ≤ My)
    (s : SlpHat K) (j r : ℕ) (hr : r < My) :
    (filterLoops pi Lx Ly Mx My (slpFilterMode exp xi eta) s).cell ((j : ℤ) * (My : ℤ) + (r : ℤ)) =
      if j < Mx ∧ r < rowsReached My then
        slpCellMap exp xi eta (2 * pi / Lx * ((colWave Mx j : ℤ) : K))
          (2 * pi / Ly * ((rowWave My r : ℤ) : K)) (s.cell ((j : ℤ) * (My : ℤ) + (r : ℤ)))
      else s.cell ((j : ℤ) * (My : ℤ) + (r : ℤ)) :=
  filterLoops_cell SlpHat.cell (slpFilterMode exp xi eta) (slpCellMap exp xi eta)
    (slpFilterMode_cell exp xi eta) pi Lx Ly Mx My hMy s j r hr

/-- The DLP loops at a mode `(j, r)` of the grid. -/
theorem dlpLoops_cell (exp : K → K) (pi xi eta Lx Ly : K) (Mx My : ℕ) (hMy : 1 ≤ My)
    (s : DlpHat K) (j r : ℕ) (hr : r < My) :
    (filterLoops pi Lx Ly Mx My (dlpFilterMode exp xi eta) s).cell ((j : ℤ) * (My : ℤ) + (r : ℤ)) =
      if j < Mx ∧ r < rowsReached My then
        dlpCellMap exp xi eta (2 * pi / Lx * ((colWave Mx j : ℤ) : K))
          (2 * pi / Ly * ((rowWave My r : ℤ) : K)) (s.cell ((j : ℤ) * (My : ℤ) + (r : ℤ)))
      else s.cell ((j : ℤ) * (My : ℤ) + (r : ℤ)) :=
  filterLoops_cell DlpHat.cell (dlpFilterMode exp xi eta) (dlpCellMap exp xi eta)
    (dlpFilterMode_cell exp xi eta) pi Lx Ly Mx My hMy s j r hr

theorem rowWave_even (My r : ℕ) (hMy : Even My) (hr : r < My) :
    rowWave My r = if r ≤ My / 2 then (r : ℤ) else (r : ℤ) - (My : ℤ) := by
  obtain ⟨m, rfl⟩ := hMy
  unfold rowWave
  split_ifs <;> omega

theorem rowsReached_even (My : ℕ) (hMy : Even My) (h : 1 ≤ My) : rowsReached My = My := by
  obtain ⟨m, rfl⟩ := hMy
  unfold rowsReached
  omega

theorem mode_index_ne_zero (j k My : ℕ) (hk : k < My) (hne : ¬ (j = 0 ∧ k = 0)) :
    (j : ℤ) * (My : ℤ) + (k : ℤ) ≠ 0 := by
  intro h
  have h1 : j * My + k = 0 := by exact_mod_cast h
  have h2 : k = 0 := by omega
  have h3 : j * My = 0 := by omega
  rcases Nat.mul_eq_zero.mp h3 with h4 | h4
  · exact hne ⟨h4, h2⟩
  · omega

/-- The SLP filter stage at a reached mode other than `(0,0)`: the four stored values. -/
theorem slpFilter_cell (exp : K → K) (xi eta Lx Ly : K) (Mx My : ℕ) (hMy : 1 ≤ My)
    (s : SlpHat K) (j r : ℕ) (hj : j < Mx) (hr : r < rowsReached My)
    (hne : ¬ (j = 0 ∧ r = 0)) :
    (slpFilter exp xi eta Lx Ly Mx My s).cell ((j : ℤ) * (My : ℤ) + (r : ℤ)) =
      slpCellMap exp xi eta (2 * pi / Lx * ((colWave Mx j : ℤ) : K))
        (2 * pi / Ly * ((rowWave My r : ℤ) : K)) (s.cell ((j : ℤ) * (My : ℤ) + (r : ℤ))) := by
  have hr2 : r < My := lt_of_lt_of_le hr (rowsReached_le My hMy)
  have h0 := mode_index_ne_zero j r My hr2 hne
  have h := slpLoops_cell exp xi eta Lx Ly Mx My hMy s j r hr2
  rw [if_pos ⟨hj, hr⟩] at h
  rw [← h]
  simp [slpFilter, SlpHat.cell, Grid.set, h0]

/-- The DLP filter stage at a reached mode other than `(0,0)`: the eight stored values. -/
theorem dlpFilter_cell (exp : K → K) (pi xi eta Lx Ly : K) (Mx My : ℕ) (hMy : 1 ≤ My)
    (s : DlpHat K) (j r : ℕ) (hj : j < Mx) (hr : r < rowsReached My)
    (hne : ¬ (j = 0 ∧ r = 0)) :
    (dlpFilter exp pi xi eta Lx Ly Mx My s).cell ((j : ℤ) * (My : ℤ) + (r : ℤ)) =
      dlpCellMap exp xi eta (2 * pi / Lx * ((colWave Mx j : ℤ) : K))
        (2 * pi / Ly * ((rowWave My r : ℤ) : K)) (s.cell ((j : ℤ) * (My : ℤ) + (r : ℤ))) := by
  have hr2 : r < My := lt_of_lt_of_le hr (rowsReached_le My hMy)
  have h0 := mode_index_ne_zero j r My hr2 hne
  have h := dlpLoops_cell exp pi xi eta Lx Ly Mx My hMy s j r hr2
  rw [if_pos ⟨hj, hr⟩] at h
  rw [← h]
  simp [dlpFilter, DlpHat.cell, Grid.set, h0]

end Filters

/-! ## Claims on the spectral filters -/

section FilterClaims

variable {K : Type} [Field K]

/-- C1: the SLP filter is divergence-free.  For every even `My`, every input spectrum and
every mode `(j, k)` of the grid (`j < Mx`, `k < My`), the filtered values satisfy
`k1*u1 + k2*u2 = 0`, for the real parts and for the imaginary parts, where
`k1 = 2π/Lx·(j or j - Mx)` and `k2 = 2π/Ly·(k or k - My)` are the signed wavenumbers of the
mode.  (The statement also covers the mode `(0,0)`, where both values are reset to `0`, and
needs no assumption on `Mx`, `Lx`, `Ly`, `xi`, `eta`.) -/
theorem slp_filter_divergence_free (exp : K → K) (xi eta Lx Ly : K) (Mx My : ℕ)
    (s : SlpHat K) (j k : ℕ) (hMy : Even My) (hj : j < Mx) (hk : k < My) :
    let i : ℤ := (j : ℤ) * (My : ℤ) + (k : ℤ)
    let k1 : K := 2 * pi / Lx * (((if j ≤ Mx / 2 then (j : ℤ) else (j : ℤ) - (Mx : ℤ)) : ℤ) : K)
    let k2 : K := 2 * pi / Ly * (((if k ≤ My / 2 then (k : ℤ) else (k : ℤ) - (My : ℤ)) : ℤ) : K)
    let u := slpFilter exp xi eta Lx Ly Mx My s
    k1 * u.re1 i + k2 * u.re2 i = 0 ∧ k1 * u.im1 i + k2 * u.im2 i = 0 := by
  intro i k1 k2 u
  by_cases h0 : j = 0 ∧ k = 0
  · obtain ⟨rfl, rfl⟩ := h0
    simp [i, u, slpFilter, Grid.set]
  · have hMy1 : 1 ≤ My := by omega
    have h := slpFilter_cell exp xi eta Lx Ly Mx My hMy1 s j k hj
      (by rw [rowsReached_even My hMy hMy1]; exact hk) h0
    rw [rowWave_even My k hMy hk] at h
    simp only [SlpHat.cell, slpCellMap, slpFilterMode, Grid.set, if_true, Prod.mk.injEq,
      colWave] at h
    obtain ⟨h1, h2, h3, h4⟩ := h
    refine ⟨?_, ?_⟩
    · show k1 * (slpFilter exp xi eta Lx Ly Mx My s).re1 ((j : ℤ) * (My : ℤ) + (k : ℤ)) +
        k2 * (slpFilter exp xi eta Lx Ly Mx My s).re2 ((j : ℤ) * (My : ℤ) + (k : ℤ)) = 0
      rw [h1, h3]
      ring
    · show k1 * (slpFilter exp xi eta Lx Ly Mx My s).im1 ((j : ℤ) * (My : ℤ) + (k : ℤ)) +
        k2 * (slpFilter exp xi eta Lx Ly Mx My s).im2 ((j : ℤ) * (My : ℤ) + (k : ℤ)) = 0
      rw [h2, h4]
      ring

/-- Witness for C1: the mode `(1,1)` of a `2 × 2` grid over `ℚ`. -/
theorem slp_filter_divergence_free_witness :
    Even 2 ∧ 1 < 2 ∧
    (2 * pi / 1 * (((if 1 ≤ 2 / 2 then ((1 : ℕ) : ℤ) else ((1 : ℕ) : ℤ) - ((2 : ℕ) : ℤ)) : ℤ) : ℚ)) *
        (slpFilter (fun x : ℚ => x) 1 1 1 1 2 2
          { re1 := fun _ => 1, im1 := fun _ => 2, re2 := fun _ => 3, im2 := fun _ => 4 }).re1
          (((1 : ℕ) : ℤ) * ((2 : ℕ) : ℤ) + ((1 : ℕ) : ℤ)) +
      (2 * pi / 1 * (((if 1 ≤ 2 / 2 then ((1 : ℕ) : ℤ) else ((1 : ℕ) : ℤ) - ((2 : ℕ) : ℤ)) : ℤ) : ℚ)) *
        (slpFilter (fun x : ℚ => x) 1 1 1 1 2 2
          { re1 := fun _ => 1, im1 := fun _ => 2, re2 := fun _ => 3, im2 := fun _ => 4 }).re2
          (((1 : ℕ) : ℤ) * ((2 : ℕ) : ℤ) + ((1 : ℕ) : ℤ)) = 0 :=
  ⟨by decide, by decide,
    (slp_filter_divergence_free (fun x : ℚ => x) 1 1 1 1 2 2
      { re1 := fun _ => 1, im1 := fun _ => 2, re2 := fun _ => 3, im2 := fun _ => 4 } 1 1
      (by decide) (by decide) (by decide)).1⟩

/-- C2: the zero mode.  After the filter stage of `compute_velocity` (two channels) and of
`compute_stress` (four channels), the entry at index `0` of the real and of the imaginary
array of every channel is `0`, for every input spectrum and every parameter value. -/
theorem filter_zero_mode (exp : K → K) (pi' xi eta Lx Ly : K) (Mx My : ℕ) (s : SlpHat K)
    (t : DlpHat K) :
    ((slpFilter exp xi eta Lx Ly Mx My s).re1 0 = 0 ∧
      (slpFilter exp xi eta Lx Ly Mx My s).im1 0 = 0 ∧
      (slpFilter exp xi eta Lx Ly Mx My s).re2 0 = 0 ∧
      (slpFilter exp xi eta Lx Ly Mx My s).im2 0 = 0) ∧
    ((dlpFilter exp pi' xi eta Lx Ly Mx My t).re1 0 = 0 ∧
      (dlpFilter exp pi' xi eta Lx Ly Mx My t).im1 0 = 0 ∧
      (dlpFilter exp pi' xi eta Lx Ly Mx My t).re2 0 = 0 ∧
      (dlpFilter exp pi' xi eta Lx Ly Mx My t).im2 0 = 0 ∧
      (dlpFilter exp pi' xi eta Lx Ly Mx My t).re3 0 = 0 ∧
      (dlpFilter exp pi' xi eta Lx Ly Mx My t).im3 0 = 0 ∧
      (dlpFilter exp pi' xi eta Lx Ly Mx My t).re4 0 = 0 ∧
      (dlpFilter exp pi' xi eta Lx Ly Mx My t).im4 0 = 0) := by
  simp [slpFilter, dlpFilter, Grid.set]

/-- C3, the code at odd `My`.  With `Mx = 1`, `My = 3` the two inner loops reach the rows
`0` and `1` only, so the filter stage of both kernels returns the input values at row `2`
unchanged: that row is never processed.  With `Mx = 1`, `My = 5` row `3` is processed with
the wavenumber `2π/Ly·(-1)` where the mapping of the claim gives `2π/Ly·(3 - 5)`
(`slpCellMap`, `dlpCellMap` are the mode updates of the two kernels applied to the values
of a cell). -/
theorem filter_odd_rows_not_covered (exp : K → K) (pi' xi eta Lx Ly : K)
    (s : SlpHat K) (t : DlpHat K) :
    ((slpFilter exp xi eta Lx Ly 1 3 s).cell 2 = s.cell 2 ∧
      (dlpFilter exp pi' xi eta Lx Ly 1 3 t).cell 2 = t.cell 2) ∧
    ((slpFilter exp xi eta Lx Ly 1 5 s).cell 3 =
        slpCellMap exp xi eta (2 * pi / Lx * (((0 : ℤ) : ℤ) : K))
          (2 * pi / Ly * (((-1 : ℤ) : ℤ) : K)) (s.cell 3) ∧
      (dlpFilter exp pi' xi eta Lx Ly 1 5 t).cell 3 =
        dlpCellMap exp xi eta (2 * pi' / Lx * (((0 : ℤ) : ℤ) : K))
          (2 * pi' / Ly * (((-1 : ℤ) : ℤ) : K)) (t.cell 3)) := by
  have h1 := slpLoops_cell exp xi eta Lx Ly 1 3 (by decide) s 0 2 (by decide)
  have h2 := dlpLoops_cell exp pi' xi eta Lx Ly 1 3 (by decide) t 0 2 (by decide)
  have hn : ¬ (0 < 1 ∧ 2 < rowsReached 3) := by decide
  rw [if_neg hn] at h1 h2
  have e : ((0 : ℕ) : ℤ) * ((3 : ℕ) : ℤ) + ((2 : ℕ) : ℤ) = 2 := by norm_num
  rw [e] at h1 h2
  have h3 := slpFilter_cell exp xi eta Lx Ly 1 5 (by decide) s 0 3 (by decide) (by decide)
    (by decide)
  have h4 := dlpFilter_cell exp pi' xi eta Lx Ly 1 5 (by decide) t 0 3 (by decide) (by decide)
    (by decide)
  have e5 : ((0 : ℕ) : ℤ) * ((5 : ℕ) : ℤ) + ((3 : ℕ) : ℤ) = 3 := by norm_num
  have ec : colWave 1 0 = 0 := by decide
  have er : rowWave 5 3 = -1 := by decide
  rw [e5, ec, er] at h3 h4
  refine ⟨⟨?_, ?_⟩, h3, h4⟩
  · rw [← h1]
    simp [slpFilter, SlpHat.cell, Grid.set]
  · rw [← h2]
    simp [dlpFilter, DlpHat.cell, Grid.set]

/-- C4: the SLP filter formula.  At every mode `(j, k)` reached by the loops, other than
`(0,0)`, with `f1`, `f2` the values of the two channels before the update,
`k1 = 2π/Lx·colWave`, `k2 = 2π/Ly·rowWave` the wavenumbers of the loops and
`B = (1/Ksq² + 0.25/(Ksq·xi²))·exp(-0.25·(1-eta)/xi²·Ksq)`, the new values are
`u1 = k2·(k2·f1 - k1·f2)·B` and `u2 = k1·(k1·f2 - k2·f1)·B`, for the real parts and for the
imaginary parts alike; equivalently `u = B·(Ksq·f - k·(k·f))`. -/
theorem slp_filter_formula (exp : K → K) (xi eta Lx Ly : K) (Mx My : ℕ) (s : SlpHat K)
    (j k : ℕ) (hMy : 1 ≤ My) (hj : j < Mx) (hk : k < rowsReached My)
    (hne : ¬ (j = 0 ∧ k = 0)) :
    let i : ℤ := (j : ℤ) * (My : ℤ) + (k : ℤ)
    let k1 : K := 2 * pi / Lx * ((colWave Mx j : ℤ) : K)
    let k2 : K := 2 * pi / Ly * ((rowWave My k : ℤ) : K)
    let Ksq : K := k1 ^ 2 + k2 ^ 2
    let B : K := (1 / Ksq ^ 2 + 0.25 / (Ksq * xi ^ 2)) * exp (-0.25 * (1 - eta) / xi ^ 2 * Ksq)
    let u := slpFilter exp xi eta Lx Ly Mx My s
    (u.re1 i = k2 * (k2 * s.re1 i - k1 * s.re2 i) * B ∧
      u.re2 i = k1 * (k1 * s.re2 i - k2 * s.re1 i) * B ∧
      u.im1 i = k2 * (k2 * s.im1 i - k1 * s.im2 i) * B ∧
      u.im2 i = k1 * (k1 * s.im2 i - k2 * s.im1 i) * B) ∧
    (u.re1 i = B * (Ksq * s.re1 i - k1 * (k1 * s.re1 i + k2 * s.re2 i)) ∧
      u.re2 i = B * (Ksq * s.re2 i - k2 * (k1 * s.re1 i + k2 * s.re2 i)) ∧
      u.im1 i = B * (Ksq * s.im1 i - k1 * (k1 * s.im1 i + k2 * s.im2 i)) ∧
      u.im2 i = B * (Ksq * s.im2 i - k2 * (k1 * s.im1 i + k2 * s.im2 i))) := by
  intro i k1 k2 Ksq B u
  have h := slpFilter_cell exp xi eta Lx Ly Mx My hMy s j k hj hk hne
  simp only [SlpHat.cell, slpCellMap, slpFilterMode, Grid.set, if_true, Prod.mk.injEq] at h
  obtain ⟨h1, h2, h3, h4⟩ := h
  have hK : k1 * k1 + k2 * k2 = Ksq := by simp only [Ksq]; ring
  have hB : (1.0 / ((k1 * k1 + k2 * k2) * (k1 * k1 + k2 * k2)) +
      0.25 / ((k1 * k1 + k2 * k2) * xi * xi)) *
        exp (-0.25 * (1 - eta) / (xi * xi) * (k1 * k1 + k2 * k2)) = B := by
    have e1 : -0.25 * (1 - eta) / (xi * xi) * (k1 * k1 + k2 * k2) =
        -0.25 * (1 - eta) / xi ^ 2 * Ksq := by rw [hK]; ring
    have e2 : (1.0 : K) / ((k1 * k1 + k2 * k2) * (k1 * k1 + k2 * k2)) = 1 / Ksq ^ 2 := by
      have one : (1.0 : K) = 1 := by norm_num
      rw [hK, one, sq]
    have e3 : (0.25 : K) / ((k1 * k1 + k2 * k2) * xi * xi) = 0.25 / (Ksq * xi ^ 2) := by
      rw [hK]; ring
    rw [e1, e2, e3]
  have g1 : u.re1 i = k2 * (k2 * s.re1 i - k1 * s.re2 i) * B := by rw [← hB]; exact h1
  have g2 : u.re2 i = k1 * (k1 * s.re2 i - k2 * s.re1 i) * B := by rw [← hB]; exact h3
  have g3 : u.im1 i = k2 * (k2 * s.im1 i - k1 * s.im2 i) * B := by rw [← hB]; exact h2
  have g4 : u.im2 i = k1 * (k1 * s.im2 i - k2 * s.im1 i) * B := by rw [← hB]; exact h4
  refine ⟨⟨g1, g2, g3, g4⟩, ?_, ?_, ?_, ?_⟩
  · rw [g1]; simp only [Ksq]; ring
  · rw [g2]; simp only [Ksq]; ring
  · rw [g3]; simp only [Ksq]; ring
  · rw [g4]; simp only [Ksq]; ring

/-- Witness for C4: the mode `(1,1)` of a grid with `Mx = 2`, `My = 3` over `ℚ` (odd `My`:
the rows `0` and `1` of a column are reached, row `2` is not). -/
theorem slp_filter_formula_witness :
    1 ≤ 3 ∧ 1 < 2 ∧ 1 < rowsReached 3 ∧
    (slpFilter (fun x : ℚ => x) 1 1 1 1 2 3
      { re1 := fun _ => 1, im1 := fun _ => 2, re2 := fun _ => 3, im2 := fun _ => 4 }).re1
        (((1 : ℕ) : ℤ) * ((3 : ℕ) : ℤ) + ((1 : ℕ) : ℤ)) =
      (2 * pi / 1 * ((rowWave 3 1 : ℤ) : ℚ)) *
        ((2 * pi / 1 * ((rowWave 3 1 : ℤ) : ℚ)) * 1 - (2 * pi / 1 * ((colWave 2 1 : ℤ) : ℚ)) * 3) *
        ((1 / ((2 * pi / 1 * ((colWave 2 1 : ℤ) : ℚ)) ^ 2 +
              (2 * pi / 1 * ((rowWave 3 1 : ℤ) : ℚ)) ^ 2) ^ 2 +
            0.25 / (((2 * pi / 1 * ((colWave 2 1 : ℤ) : ℚ)) ^ 2 +
              (2 * pi / 1 * ((rowWave 3 1 : ℤ) : ℚ)) ^ 2) * 1 ^ 2)) *
          (fun x : ℚ => x) (-0.25 * (1 - 1) / 1 ^ 2 *
            ((2 * pi / 1 * ((colWave 2 1 : ℤ) : ℚ)) ^ 2 +
              (2 * pi / 1 * ((rowWave 3 1 : ℤ) : ℚ)) ^ 2))) :=
  ⟨by decide, by decide, by decide,
    (slp_filter_formula (fun x : ℚ => x) 1 1 1 1 2 3
      { re1 := fun _ => 1, im1 := fun _ => 2, re2 := fun _ => 3, im2 := fun _ => 4 } 1 1
      (by decide) (by decide) (by decide) (by decide)).1.1⟩

end FilterClaims

/-! ## Window placement -/

section PlacementLemmas

variable {K : Type} [LinearOrderedField K] [FloorRing K]

/-- C `round` and rounding to the nearest integer differ at negative half-integers only,
where both are at distance `1/2`. -/
theorem cround_eq_round_or_half (t : K) :
    cround t = round t ∨
      (|t - ((cround t : ℤ) : K)| = 1 / 2 ∧ |t - ((round t : ℤ) : K)| = 1 / 2) := by
  unfold cround
  rw [round_eq]
  split_ifs with h
  · exact Or.inl rfl
  · by_cases hh : ((⌈t - 1 / 2⌉ : ℤ) : K) = t - 1 / 2
    · right
      have hf : ⌊t + 1 / 2⌋ = ⌈t - 1 / 2⌉ + 1 := by
        rw [Int.floor_eq_iff]
        push_cast
        constructor <;> linarith
      rw [hf]
      push_cast
      rw [hh]
      constructor
      · have e : t - (t - 1 / 2) = 1 / 2 := by ring
        rw [e, abs_of_pos (by norm_num)]
      · have e : t - (t - 1 / 2 + 1) = -(1 / 2) := by ring
        rw [e, abs_neg, abs_of_pos (by norm_num)]
    · left
      symm
      rw [Int.floor_eq_iff]
      have h1 := Int.le_ceil (t - 1 / 2)
      have h2 := Int.ceil_lt_add_one (t - 1 / 2)
      have h3 : t - 1 / 2 < ((⌈t - 1 / 2⌉ : ℤ) : K) := lt_of_le_of_ne h1 (Ne.symm hh)
      constructor <;> linarith

/-- The snapping test of the placement code gives the same result with either rounding. -/
theorem cround_branch (t : K) (c b : ℤ) :
    (if |t - ((cround t : ℤ) : K)| < 1e-13 then cround t - c else b) =
      (if |t - ((round t : ℤ) : K)| < 1e-13 then round t - c else b) := by
  rcases cround_eq_round_or_half t with h | ⟨h1, h2⟩
  · rw [h]
  · have e1 : ¬ (|t - ((cround t : ℤ) : K)| < 1e-13) := by rw [h1]; norm_num
    have e2 : ¬ (|t - ((round t : ℤ) : K)| < 1e-13) := by rw [h2]; norm_num
    rw [if_neg e1, if_neg e2]

/-- The spreader's placement in terms of the rule of §4.1. -/
theorem spreadPlacement_eq (exp : K → K) (psrc : ℕ → K) (k : ℕ)
    (xi eta w L_x L_y h_x h_y : K) (P : ℕ) :
    spreadPlacement exp psrc k xi eta w L_x L_y h_x h_y P =
      { mx := gridMapperBase (psrc (2 * k)) L_x h_x P,
        my := gridMapperBase (psrc (2 * k + 1)) L_y h_y P,
        px := gridMapperOffset (psrc (2 * k)) h_x,
        py := gridMapperOffset (psrc (2 * k + 1)) h_y,
        ex := exp (-2 * xi * xi / eta * (gridMapperOffset (psrc (2 * k)) h_x *
            gridMapperOffset (psrc (2 * k)) h_x +
          gridMapperOffset (psrc (2 * k + 1)) h_y * gridMapperOffset (psrc (2 * k + 1)) h_y +
          2 * w * gridMapperOffset (psrc (2 * k)) h_x)),
        e4y := exp (2 * (-2 * xi * xi / eta) * w * gridMapperOffset (psrc (2 * k + 1)) h_y),
        e3x := exp (-2 * (-2 * xi * xi / eta) * h_x * gridMapperOffset (psrc (2 * k)) h_x),
        e3y := exp (-2 * (-2 * xi * xi / eta) * h_y * gridMapperOffset (psrc (2 * k + 1)) h_y) } := by
  have two : (2.0 : K) = 2 := by norm_num
  simp only [spreadPlacement, gridMapperBase, gridMapperOffset, cround_branch, two]

end PlacementLemmas

/-! ## The stencil loops -/

section StencilLemmas

variable {K : Type} [LinearOrderedField K]

theorem forLoop_add_one (n : ℕ) (i : ℤ) : forLoop n (fun _ idx => idx + 1) i = i + (n : ℤ) := by
  induction n with
  | zero => simp [forLoop_zero]
  | succ n ih => rw [forLoop_succ, ih]; push_cast; ring

theorem fastPtr_eq (P M_y : ℕ) (mx my : ℤ) (x y : ℕ) :
    fastPtr P M_y mx my x y = mx * (M_y : ℤ) + my + (x : ℤ) * (M_y : ℤ) + (y : ℤ) := by
  unfold fastPtr
  rw [forLoop_add_one]
  congr 1
  induction x with
  | zero => simp [forLoop_zero]
  | succ x ih => rw [forLoop_succ, ih, forLoop_add_one]; push_cast; ring

theorem spreadRowWrap_eq (e1 : Grid K) (e3y f0 f1 : K) (P M_y : ℕ) (my xidx : ℤ)
    (c : SpreadCol K) :
    spreadRowWrap e1 e3y f0 f1 P M_y my xidx c =
      spreadRowAt e1 e3y f0 f1 P
        (fun y => Int.tmod ((y : ℤ) + my + (M_y : ℤ)) (M_y : ℤ) + xidx) c := rfl

theorem spreadRowFast_eq (e1 : Grid K) (e3y f0 f1 : K) (P : ℕ) (idx : ℤ) (c : SpreadCol K) :
    (spreadRowFast e1 e3y f0 f1 P idx c).2 =
      spreadRowAt e1 e3y f0 f1 P (fun y => idx + (y : ℤ)) c := by
  unfold spreadRowFast spreadRowAt
  refine (forLoop_rel (fun i (a : ℤ × SpreadCol K) (b : SpreadCol K) =>
    a.1 = idx + (i : ℤ) ∧ a.2 = b) (P + 1) _ _ (idx, c) c ⟨by simp, rfl⟩ ?_).2
  rintro i ⟨j, u⟩ v _ ⟨h1, h2⟩
  simp only at h1 h2
  subst h1 h2
  refine ⟨by push_cast; ring, rfl⟩

theorem spreadRowAt_congr (e1 : Grid K) (e3y f0 f1 : K) (P : ℕ) (r1 r2 : ℕ → ℤ)
    (h : ∀ y, y ≤ P → r1 y = r2 y) (c : SpreadCol K) :
    spreadRowAt e1 e3y f0 f1 P r1 c = spreadRowAt e1 e3y f0 f1 P r2 c := by
  unfold spreadRowAt
  refine forLoop_congr _ _ _ _ (fun y t hy => ?_)
  simp only [h y (by omega)]

theorem spreadAt_congr (e1 : Grid K) (ex e4y e3x e3y f0 f1 : K) (P : ℕ) (i1 i2 : ℕ → ℕ → ℤ)
    (h : ∀ x y, x ≤ P → y ≤ P → i1 x y = i2 x y) (H : Grid K × Grid K) :
    spreadAt e1 ex e4y e3x e3y f0 f1 P i1 H = spreadAt e1 ex e4y e3x e3y f0 f1 P i2 H := by
  unfold spreadAt
  rw [forLoop_congr _ _ _ _ (fun x t hx => ?_)]
  simp only [spreadRowAt_congr e1 e3y f0 f1 P (i1 x) (i2 x) (fun y hy => h x y (by omega) hy)]

/-- The spreader's loops for one source are the stencil loops at the indices `spreadIdx`. -/
theorem spreadSource_eq (e1 : Grid K) (pl : Placement K) (f0 f1 : K) (P M_x M_y : ℕ)
    (H : Grid K × Grid K) :
    spreadSource e1 pl f0 f1 P M_x M_y H =
      spreadAt e1 pl.ex pl.e4y pl.e3x pl.e3y f0 f1 P (spreadIdx P M_x M_y pl.mx pl.my) H := by
  unfold spreadSource spreadAt
  rw [forLoop_congr _ _ _ _ (fun x t hx => ?_)]
  by_cases hc : pl.my ≥ 0 ∧ pl.my < (M_y : ℤ) - (P : ℤ) - 1
  · have e : spreadIdx P M_x M_y pl.mx pl.my x = fun y : ℕ =>
        pl.my + Int.tmod ((x : ℤ) + pl.mx + (M_x : ℤ)) (M_x : ℤ) * (M_y : ℤ) + (y : ℤ) := by
      funext y
      unfold spreadIdx
      rw [if_pos hc]
    simp only [if_pos hc, spreadRowFast_eq, e]
  · have e : spreadIdx P M_x M_y pl.mx pl.my x = fun y : ℕ =>
        Int.tmod ((y : ℤ) + pl.my + (M_y : ℤ)) (M_y : ℤ) +
          Int.tmod ((x : ℤ) + pl.mx + (M_x : ℤ)) (M_x : ℤ) * (M_y : ℤ) := by
      funext y
      unfold spreadIdx wrapIdx
      rw [if_neg hc]
    simp only [if_neg hc, spreadRowWrap_eq, e]

theorem gatherWrap_eq (e1 : Grid K) (pl : Placement K) (Ht1 Ht2 : Grid K) (P M_x M_y : ℕ)
    (u0 u1 : K) :
    gatherWrap e1 pl Ht1 Ht2 P M_x M_y u0 u1 =
      gatherAt e1 pl.ex pl.e4y pl.e3x pl.e3y Ht1 Ht2 P (wrapIdx M_x M_y pl.mx pl.my) u0 u1 := rfl

theorem gatherFast_eq (e1 : Grid K) (pl : Placement K) (Ht1 Ht2 : Grid K) (P M_y : ℕ)
    (u0 u1 : K) :
    gatherFast e1 pl Ht1 Ht2 P M_y u0 u1 =
      gatherAt e1 pl.ex pl.e4y pl.e3x pl.e3y Ht1 Ht2 P (fastPtr P M_y pl.mx pl.my) u0 u1 := by
  unfold gatherFast gatherAt
  have key := forLoop_rel (fun i (a : ℤ × GatherSt K) (b : GatherSt K) =>
    a.1 = fastPtr P M_y pl.mx pl.my i 0 ∧ a.2 = b) (P + 1)
    (fun x (s : ℤ × GatherSt K) =>
      ((forLoop (P + 1) (fun y (a : ℤ × GatherCol K) =>
        (a.1 + 1,
          ({ ey := a.2.ey * pl.e3y,
             u0 := a.2.u0 + a.2.ey * e1 (y : ℤ) * Ht1 a.1,
             u1 := a.2.u1 + a.2.ey * e1 (y : ℤ) * Ht2 a.1 } : GatherCol K)))
        (s.1, { ey := s.2.ex * pl.e4y * e1 (x : ℤ), u0 := s.2.u0, u1 := s.2.u1 })).1 +
          ((M_y : ℤ) - (P : ℤ) - 1),
        ({ ex := s.2.ex * pl.e3x,
           u0 := (forLoop (P + 1) (fun y (a : ℤ × GatherCol K) =>
            (a.1 + 1,
              ({ ey := a.2.ey * pl.e3y,
                 u0 := a.2.u0 + a.2.ey * e1 (y : ℤ) * Ht1 a.1,
                 u1 := a.2.u1 + a.2.ey * e1 (y : ℤ) * Ht2 a.1 } : GatherCol K)))
            (s.1, { ey := s.2.ex * pl.e4y * e1 (x : ℤ), u0 := s.2.u0, u1 := s.2.u1 })).2.u0,
           u1 := (forLoop (P + 1) (fun y (a : ℤ × GatherCol K) =>
            (a.1 + 1,
              ({ ey := a.2.ey * pl.e3y,
                 u0 := a.2.u0 + a.2.ey * e1 (y : ℤ) * Ht1 a.1,
                 u1 := a.2.u1 + a.2.ey * e1 (y : ℤ) * Ht2 a.1 } : GatherCol K)))
            (s.1, { ey := s.2.ex * pl.e4y * e1 (x : ℤ), u0 := s.2.u0, u1 := s.2.u1 })).2.u1 } :
          GatherSt K)))
    (fun x (s : GatherSt K) =>
      ({ ex := s.ex * pl.e3x,
         u0 := (forLoop (P + 1) (fun y (c : GatherCol K) =>
            ({ ey := c.ey * pl.e3y,
               u0 := c.u0 + c.ey * e1 (y : ℤ) * Ht1 (fastPtr P M_y pl.mx pl.my x y),
               u1 := c.u1 + c.ey * e1 (y : ℤ) * Ht2 (fastPtr P M_y pl.mx pl.my x y) } :
              GatherCol K))
            { ey := s.ex * pl.e4y * e1 (x : ℤ), u0 := s.u0, u1 := s.u1 }).u0,
         u1 := (forLoop (P + 1) (fun y (c : GatherCol K) =>
            ({ ey := c.ey * pl.e3y,
               u0 := c.u0 + c.ey * e1 (y : ℤ) * Ht1 (fastPtr P M_y pl.mx pl.my x y),
               u1 := c.u1 + c.ey * e1 (y : ℤ) * Ht2 (fastPtr P M_y pl.mx pl.my x y) } :
              GatherCol K))
            { ey := s.ex * pl.e4y * e1 (x : ℤ), u0 := s.u0, u1 := s.u1 }).u1 } : GatherSt K))
    (pl.mx * (M_y : ℤ) + pl.my, { ex := pl.ex, u0 := u0, u1 := u1 })
    { ex := pl.ex, u0 := u0, u1 := u1 } ⟨by rw [fastPtr_eq]; push_cast; ring, rfl⟩ ?_
  · exact congrArg (fun t : GatherSt K => (t.u0, t.u1)) key.2
  · rintro x ⟨j, u⟩ v _ ⟨h1, h2⟩
    simp only at h1 h2
    subst h2
    have inner := forLoop_rel (fun i (a : ℤ × GatherCol K) (b : GatherCol K) =>
      a.1 = fastPtr P M_y pl.mx pl.my x i ∧ a.2 = b) (P + 1)
      (fun y (a : ℤ × GatherCol K) =>
        (a.1 + 1,
          ({ ey := a.2.ey * pl.e3y,
             u0 := a.2.u0 + a.2.ey * e1 (y : ℤ) * Ht1 a.1,
             u1 := a.2.u1 + a.2.ey * e1 (y : ℤ) * Ht2 a.1 } : GatherCol K)))
      (fun y (c : GatherCol K) =>
        ({ ey := c.ey * pl.e3y,
           u0 := c.u0 + c.ey * e1 (y : ℤ) * Ht1 (fastPtr P M_y pl.mx pl.my x y),
           u1 := c.u1 + c.ey * e1 (y : ℤ) * Ht2 (fastPtr P M_y pl.mx pl.my x y) } : GatherCol K))
      (j, { ey := u.ex * pl.e4y * e1 (x : ℤ), u0 := u.u0, u1 := u.u1 })
      { ey := u.ex * pl.e4y * e1 (x : ℤ), u0 := u.u0, u1 := u.u1 } ⟨h1, rfl⟩ ?_
    · obtain ⟨i1, i2⟩ := inner
      refine ⟨?_, ?_⟩
      · simp only [i1]
        rw [fastPtr_eq, fastPtr_eq]
        push_cast
        ring
      · simp only [i2]
    · rintro y ⟨j', a⟩ b _ ⟨g1, g2⟩
      simp only at g1 g2
      subst g2
      refine ⟨?_, ?_⟩
      · simp only [g1]
        rw [fastPtr_eq, fastPtr_eq]
        push_cast
        ring
      · simp only [g1]

theorem gatherAt_congr (e1 : Grid K) (ex e4y e3x e3y : K) (Ht1 Ht2 : Grid K) (P : ℕ)
    (i1 i2 : ℕ → ℕ → ℤ) (h : ∀ x y, x ≤ P → y ≤ P → i1 x y = i2 x y) (u0 u1 : K) :
    gatherAt e1 ex e4y e3x e3y Ht1 Ht2 P i1 u0 u1 =
      gatherAt e1 ex e4y e3x e3y Ht1 Ht2 P i2 u0 u1 := by
  unfold gatherAt
  rw [forLoop_congr _ _ _ _ (fun x t hx => ?_)]
  have e : ∀ c0 : GatherCol K,
      forLoop (P + 1) (fun y (c : GatherCol K) =>
        ({ ey := c.ey * e3y,
           u0 := c.u0 + c.ey * e1 (y : ℤ) * Ht1 (i1 x y),
           u1 := c.u1 + c.ey * e1 (y : ℤ) * Ht2 (i1 x y) } : GatherCol K)) c0 =
      forLoop (P + 1) (fun y (c : GatherCol K) =>
        ({ ey := c.ey * e3y,
           u0 := c.u0 + c.ey * e1 (y : ℤ) * Ht1 (i2 x y),
           u1 := c.u1 + c.ey * e1 (y : ℤ) * Ht2 (i2 x y) } : GatherCol K)) c0 := by
    intro c0
    refine forLoop_congr _ _ _ _ (fun y c hy => ?_)
    simp only [h x y (by omega) (by omega)]
  dsimp only
  rw [e]

end StencilLemmas

/-! ## Grid indices -/

section IndexLemmas

theorem wrapIdx_eq_emodIdx (M_x M_y : ℕ) (mx my : ℤ) (x y : ℕ) (hx : 0 ≤ mx + (M_x : ℤ))
    (hy : 0 ≤ my + (M_y : ℤ)) : wrapIdx M_x M_y mx my x y = emodIdx M_x M_y mx my x y := by
  unfold wrapIdx emodIdx
  rw [Int.tmod_eq_emod (by omega) (by omega), Int.tmod_eq_emod (by omega) (by omega)]

theorem emod_window (M : ℕ) (m : ℤ) (x : ℕ) (h0 : 0 ≤ m) (h1 : m + (x : ℤ) < (M : ℤ)) :
    ((x : ℤ) + m + (M : ℤ)) % (M : ℤ) = (x : ℤ) + m := by
  rw [Int.add_emod_self]
  exact Int.emod_eq_of_lt (by omega) (by omega)

theorem fastPtr_eq_emodIdx (P M_x M_y : ℕ) (mx my : ℤ) (x y : ℕ) (hx : x ≤ P) (hy : y ≤ P)
    (h : mx ≥ 0 ∧ my ≥ 0 ∧ mx < (M_x : ℤ) - (P : ℤ) - 1 ∧ my < (M_y : ℤ) - (P : ℤ) - 1) :
    fastPtr P M_y mx my x y = emodIdx M_x M_y mx my x y := by
  obtain ⟨h1, h2, h3, h4⟩ := h
  rw [fastPtr_eq]
  unfold emodIdx
  rw [emod_window M_y my y h2 (by omega), emod_window M_x mx x h1 (by omega)]
  ring

theorem spreadIdx_eq_emodIdx (P M_x M_y : ℕ) (mx my : ℤ) (x y : ℕ) (hy : y ≤ P)
    (hmx : 0 ≤ mx + (M_x : ℤ)) (hmy : 0 ≤ my + (M_y : ℤ)) :
    spreadIdx P M_x M_y mx my x y = emodIdx M_x M_y mx my x y := by
  unfold spreadIdx
  split_ifs with hc
  · unfold emodIdx
    rw [emod_window M_y my y hc.1 (by omega), Int.tmod_eq_emod (by omega) (by omega)]
    ring
  · exact wrapIdx_eq_emodIdx M_x M_y mx my x y hmx hmy

theorem gatherIdx_eq_emodIdx (P M_x M_y : ℕ) (mx my : ℤ) (x y : ℕ) (hx : x ≤ P) (hy : y ≤ P)
    (hmx : 0 ≤ mx + (M_x : ℤ)) (hmy : 0 ≤ my + (M_y : ℤ)) :
    gatherIdx P M_x M_y mx my x y = emodIdx M_x M_y mx my x y := by
  unfold gatherIdx
  split_ifs with hc
  · exact fastPtr_eq_emodIdx P M_x M_y mx my x y hx hy hc
  · exact wrapIdx_eq_emodIdx M_x M_y mx my x y hmx hmy

theorem emodIdx_shift (M_x M_y : ℕ) (mx my nx ny : ℤ) (x y : ℕ) :
    emodIdx M_x M_y (mx + nx * (M_x : ℤ)) (my + ny * (M_y : ℤ)) x y =
      emodIdx M_x M_y mx my x y := by
  unfold emodIdx
  have e1 : (y : ℤ) + (my + ny * (M_y : ℤ)) + (M_y : ℤ) =
      (y : ℤ) + my + (M_y : ℤ) + ny * (M_y : ℤ) := by ring
  have e2 : (x : ℤ) + (mx + nx * (M_x : ℤ)) + (M_x : ℤ) =
      (x : ℤ) + mx + (M_x : ℤ) + nx * (M_x : ℤ) := by ring
  rw [e1, e2, Int.add_mul_emod_self, Int.add_mul_emod_self]

end IndexLemmas

/-! ## Periodic shifts of a point -/

section ShiftLemmas

variable {K : Type} [LinearOrderedField K]

theorem shift_div (p L : K) (M : ℕ) (hM : 1 ≤ M) (hL : L ≠ 0) (n : ℤ) (c : K) :
    (p + (n : K) * L + c) / (L / (M : K)) = (p + c) / (L / (M : K)) + ((n * (M : ℤ) : ℤ) : K) := by
  have hM' : (M : K) ≠ 0 := by
    have : (0 : K) < (M : K) := by exact_mod_cast hM
    exact ne_of_gt this
  push_cast
  field_simp
  ring

variable [FloorRing K]

theorem gridMapperOffset_shift (p L : K) (M : ℕ) (hM : 1 ≤ M) (hL : L ≠ 0) (n : ℤ) :
    gridMapperOffset (p + (n : K) * L) (L / (M : K)) = gridMapperOffset p (L / (M : K)) := by
  have hM' : (M : K) ≠ 0 := by
    have : (0 : K) < (M : K) := by exact_mod_cast hM
    exact ne_of_gt this
  have hd := shift_div p L M hM hL n 0
  simp only [add_zero] at hd
  have hfold : p + (n : K) * L - L / (M : K) * ((⌊(p + (n : K) * L) / (L / (M : K))⌋ : ℤ) : K) =
      p - L / (M : K) * ((⌊p / (L / (M : K))⌋ : ℤ) : K) := by
    rw [hd, Int.floor_add_int]
    push_cast
    field_simp
    ring
  unfold gridMapperOffset
  simp only [hfold]

theorem gridMapperBase_shift (p L : K) (M P : ℕ) (hM : 1 ≤ M) (hL : L ≠ 0) (n : ℤ) :
    gridMapperBase (p + (n : K) * L) L (L / (M : K)) P =
      gridMapperBase p L (L / (M : K)) P + n * (M : ℤ) := by
  have hM' : (M : K) ≠ 0 := by
    have : (0 : K) < (M : K) := by exact_mod_cast hM
    exact ne_of_gt this
  have hd := shift_div p L M hM hL n 0
  simp only [add_zero] at hd
  have ht := shift_div p L M hM hL n (L / 2)
  have hfold : p + (n : K) * L - L / (M : K) * ((⌊(p + (n : K) * L) / (L / (M : K))⌋ : ℤ) : K) =
      p - L / (M : K) * ((⌊p / (L / (M : K))⌋ : ℤ) : K) := by
    rw [hd, Int.floor_add_int]
    push_cast
    field_simp
    ring
  have hsub : (p + L / 2) / (L / (M : K)) + ((n * (M : ℤ) : ℤ) : K) - 1 =
      (p + L / 2) / (L / (M : K)) - 1 + ((n * (M : ℤ) : ℤ) : K) := by ring
  unfold gridMapperBase
  simp only [hfold, ht, round_add_int, Int.floor_add_int, hsub, Int.ceil_add_int]
  have habs : (p + L / 2) / (L / (M : K)) + ((n * (M : ℤ) : ℤ) : K) -
      ((round ((p + L / 2) / (L / (M : K))) + n * (M : ℤ) : ℤ) : K) =
      (p + L / 2) / (L / (M : K)) - ((round ((p + L / 2) / (L / (M : K))) : ℤ) : K) := by
    push_cast
    ring
  rw [habs]
  split_ifs <;> ring

/-- Shifting source `k` by `(nx·L_x, ny·L_y)` keeps the folded offsets and the auxiliary
factors and moves the base indices by `(nx·M_x, ny·M_y)`. -/
theorem spreadPlacement_shift (exp : K → K) (psrc psrc' : ℕ → K) (k : ℕ)
    (xi eta w L_x L_y : K) (M_x M_y P : ℕ) (hMx : 1 ≤ M_x) (hMy : 1 ≤ M_y)
    (hLx : L_x ≠ 0) (hLy : L_y ≠ 0) (nx ny : ℤ)
    (hx : psrc' (2 * k) = psrc (2 * k) + (nx : K) * L_x)
    (hy : psrc' (2 * k + 1) = psrc (2 * k + 1) + (ny : K) * L_y) :
    spreadPlacement exp psrc' k xi eta w L_x L_y (L_x / (M_x : K)) (L_y / (M_y : K)) P =
      { spreadPlacement exp psrc k xi eta w L_x L_y (L_x / (M_x : K)) (L_y / (M_y : K)) P with
        mx := (spreadPlacement exp psrc k xi eta w L_x L_y (L_x / (M_x : K))
          (L_y / (M_y : K)) P).mx + nx * (M_x : ℤ),
        my := (spreadPlacement exp psrc k xi eta w L_x L_y (L_x / (M_x : K))
          (L_y / (M_y : K)) P).my + ny * (M_y : ℤ) } := by
  rw [spreadPlacement_eq, spreadPlacement_eq, hx, hy,
    gridMapperOffset_shift _ _ _ hMx hLx, gridMapperOffset_shift _ _ _ hMy hLy,
    gridMapperBase_shift _ _ _ _ hMx hLx, gridMapperBase_shift _ _ _ _ hMy hLy]

theorem gatherPlacement_eq_spreadPlacement (exp : K → K) (p : ℕ → K) (k : ℕ)
    (xi eta w L_x L_y h_x h_y : K) (P : ℕ) :
    gatherPlacement exp p k xi eta w L_x L_y h_x h_y P =
      spreadPlacement exp p k xi eta w L_x L_y h_x h_y P := rfl

end ShiftLemmas

/-! ## Shift invariance of the spreading and gathering stages -/

section StageShift

variable {K : Type} [LinearOrderedField K]

theorem tmod_shift (M : ℕ) (m n : ℤ) (x : ℕ) (h1 : 0 ≤ m + (M : ℤ))
    (h2 : 0 ≤ m + n * (M : ℤ) + (M : ℤ)) :
    Int.tmod ((x : ℤ) + (m + n * (M : ℤ)) + (M : ℤ)) (M : ℤ) =
      Int.tmod ((x : ℤ) + m + (M : ℤ)) (M : ℤ) := by
  rw [Int.tmod_eq_emod (by omega) (by omega), Int.tmod_eq_emod (by omega) (by omega)]
  have e : (x : ℤ) + (m + n * (M : ℤ)) + (M : ℤ) = (x : ℤ) + m + (M : ℤ) + n * (M : ℤ) := by ring
  rw [e, Int.add_mul_emod_self]

theorem spreadSource_shift (e1 : Grid K) (pl : Placement K) (f0 f1 : K) (P M_x M_y : ℕ)
    (nx ny : ℤ) (H : Grid K × Grid K) (h1 : 0 ≤ pl.mx + (M_x : ℤ)) (h2 : 0 ≤ pl.my + (M_y : ℤ))
    (h3 : 0 ≤ pl.mx + nx * (M_x : ℤ) + (M_x : ℤ)) (h4 : 0 ≤ pl.my + ny * (M_y : ℤ) + (M_y : ℤ)) :
    spreadSource e1 { pl with mx := pl.mx + nx * (M_x : ℤ), my := pl.my + ny * (M_y : ℤ) }
        f0 f1 P M_x M_y H = spreadSource e1 pl f0 f1 P M_x M_y H := by
  rw [spreadSource_eq, spreadSource_eq]
  refine spreadAt_congr _ _ _ _ _ _ _ _ _ _ (fun x y _ hy => ?_) _
  rw [spreadIdx_eq_emodIdx _ _ _ _ _ _ _ hy h3 h4, spreadIdx_eq_emodIdx _ _ _ _ _ _ _ hy h1 h2]
  exact emodIdx_shift M_x M_y pl.mx pl.my nx ny x y

/-- The two output values of a target are the stencil loops at the indices `gatherIdx`,
scaled. -/
theorem gatherTarget_eq (e1 : Grid K) (pl : Placement K) (Ht1 Ht2 : Grid K)
    (xi eta h_x h_y : K) (P M_x M_y : ℕ) (u0 u1 : K) :
    gatherTarget e1 pl Ht1 Ht2 xi eta h_x h_y P M_x M_y u0 u1 =
      ((gatherAt e1 pl.ex pl.e4y pl.e3x pl.e3y Ht1 Ht2 P
          (gatherIdx P M_x M_y pl.mx pl.my) u0 u1).1 *
          (4 * xi * xi / eta * (4 * xi * xi / eta) * h_x * h_y / pi),
        (gatherAt e1 pl.ex pl.e4y pl.e3x pl.e3y Ht1 Ht2 P
          (gatherIdx P M_x M_y pl.mx pl.my) u0 u1).2 *
          (4 * xi * xi / eta * (4 * xi * xi / eta) * h_x * h_y / pi)) := by
  unfold gatherTarget
  by_cases hc : pl.mx ≥ 0 ∧ pl.my ≥ 0 ∧ pl.mx < (M_x : ℤ) - (P : ℤ) - 1 ∧
      pl.my < (M_y : ℤ) - (P : ℤ) - 1
  · have e : gatherIdx P M_x M_y pl.mx pl.my = fastPtr P M_y pl.mx pl.my := by
      funext x y
      unfold gatherIdx
      rw [if_pos hc]
    simp only [if_pos hc, gatherFast_eq, e]
  · have e : gatherIdx P M_x M_y pl.mx pl.my = wrapIdx M_x M_y pl.mx pl.my := by
      funext x y
      unfold gatherIdx
      rw [if_neg hc]
    simp only [if_neg hc, gatherWrap_eq, e]

theorem gatherTarget_shift (e1 : Grid K) (pl : Placement K) (Ht1 Ht2 : Grid K)
    (xi eta h_x h_y : K) (P M_x M_y : ℕ) (nx ny : ℤ) (u0 u1 : K)
    (h1 : 0 ≤ pl.mx + (M_x : ℤ)) (h2 : 0 ≤ pl.my + (M_y : ℤ))
    (h3 : 0 ≤ pl.mx + nx * (M_x : ℤ) + (M_x : ℤ)) (h4 : 0 ≤ pl.my + ny * (M_y : ℤ) + (M_y : ℤ)) :
    gatherTarget e1 { pl with mx := pl.mx + nx * (M_x : ℤ), my := pl.my + ny * (M_y : ℤ) }
        Ht1 Ht2 xi eta h_x h_y P M_x M_y u0 u1 =
      gatherTarget e1 pl Ht1 Ht2 xi eta h_x h_y P M_x M_y u0 u1 := by
  rw [gatherTarget_eq, gatherTarget_eq]
  have e : gatherAt e1 pl.ex pl.e4y pl.e3x pl.e3y Ht1 Ht2 P
      (gatherIdx P M_x M_y (pl.mx + nx * (M_x : ℤ)) (pl.my + ny * (M_y : ℤ))) u0 u1 =
      gatherAt e1 pl.ex pl.e4y pl.e3x pl.e3y Ht1 Ht2 P (gatherIdx P M_x M_y pl.mx pl.my) u0 u1 := by
    refine gatherAt_congr _ _ _ _ _ _ _ _ _ _ (fun x y hx hy => ?_) _ _
    rw [gatherIdx_eq_emodIdx _ _ _ _ _ _ _ hx hy h3 h4,
      gatherIdx_eq_emodIdx _ _ _ _ _ _ _ hx hy h1 h2]
    exact emodIdx_shift M_x M_y pl.mx pl.my nx ny x y
  simp only [e]

variable [FloorRing K]

theorem spread_shift (exp : K → K) (e1 : Grid K) (psrc psrc' f : ℕ → K) (Nsrc : ℕ)
    (xi eta w L_x L_y : K) (P M_x M_y : ℕ) (ns : ℕ → ℤ × ℤ)
    (hMx : 1 ≤ M_x) (hMy : 1 ≤ M_y) (hLx : L_x ≠ 0) (hLy : L_y ≠ 0)
    (hsrc : ∀ k, k < Nsrc → psrc' (2 * k) = psrc (2 * k) + (((ns k).1 : ℤ) : K) * L_x ∧
      psrc' (2 * k + 1) = psrc (2 * k + 1) + (((ns k).2 : ℤ) : K) * L_y)
    (hin : ∀ k, k < Nsrc →
      0 ≤ (spreadPlacement exp psrc k xi eta w L_x L_y (L_x / (M_x : K)) (L_y / (M_y : K)) P).mx +
        (M_x : ℤ) ∧
      0 ≤ (spreadPlacement exp psrc k xi eta w L_x L_y (L_x / (M_x : K)) (L_y / (M_y : K)) P).my +
        (M_y : ℤ) ∧
      0 ≤ (spreadPlacement exp psrc' k xi eta w L_x L_y (L_x / (M_x : K)) (L_y / (M_y : K)) P).mx +
        (M_x : ℤ) ∧
      0 ≤ (spreadPlacement exp psrc' k xi eta w L_x L_y (L_x / (M_x : K)) (L_y / (M_y : K)) P).my +
        (M_y : ℤ)) :
    spread exp e1 psrc' f Nsrc xi eta w L_x L_y (L_x / (M_x : K)) (L_y / (M_y : K)) P M_x M_y =
      spread exp e1 psrc f Nsrc xi eta w L_x L_y (L_x / (M_x : K)) (L_y / (M_y : K)) P M_x M_y := by
  unfold spread
  refine forLoop_congr _ _ _ _ (fun k H hk => ?_)
  obtain ⟨hx, hy⟩ := hsrc k hk
  obtain ⟨h1, h2, h3, h4⟩ := hin k hk
  have hs := spreadPlacement_shift exp psrc psrc' k xi eta w L_x L_y M_x M_y P hMx hMy hLx hLy
    (ns k).1 (ns k).2 hx hy
  rw [hs] at h3 h4 ⊢
  exact spreadSource_shift e1 _ _ _ P M_x M_y (ns k).1 (ns k).2 H h1 h2 h3 h4

theorem gather_shift (exp : K → K) (e1 : Grid K) (ptar ptar' : ℕ → K) (Ntar : ℕ)
    (Ht1 Ht2 : Grid K) (xi eta w L_x L_y : K) (P M_x M_y : ℕ) (nt : ℕ → ℤ × ℤ)
    (hMx : 1 ≤ M_x) (hMy : 1 ≤ M_y) (hLx : L_x ≠ 0) (hLy : L_y ≠ 0)
    (htar : ∀ k, k < Ntar → ptar' (2 * k) = ptar (2 * k) + (((nt k).1 : ℤ) : K) * L_x ∧
      ptar' (2 * k + 1) = ptar (2 * k + 1) + (((nt k).2 : ℤ) : K) * L_y)
    (hin : ∀ k, k < Ntar →
      0 ≤ (gatherPlacement exp ptar k xi eta w L_x L_y (L_x / (M_x : K)) (L_y / (M_y : K)) P).mx +
        (M_x : ℤ) ∧
      0 ≤ (gatherPlacement exp ptar k xi eta w L_x L_y (L_x / (M_x : K)) (L_y / (M_y : K)) P).my +
        (M_y : ℤ) ∧
      0 ≤ (gatherPlacement exp ptar' k xi eta w L_x L_y (L_x / (M_x : K)) (L_y / (M_y : K)) P).mx +
        (M_x : ℤ) ∧
      0 ≤ (gatherPlacement exp ptar' k xi eta w L_x L_y (L_x / (M_x : K)) (L_y / (M_y : K)) P).my +
        (M_y : ℤ)) :
    gather exp e1 ptar' Ntar Ht1 Ht2 xi eta w L_x L_y (L_x / (M_x : K)) (L_y / (M_y : K))
        P M_x M_y =
      gather exp e1 ptar Ntar Ht1 Ht2 xi eta w L_x L_y (L_x / (M_x : K)) (L_y / (M_y : K))
        P M_x M_y := by
  unfold gather
  refine forLoop_congr _ _ _ _ (fun k uk hk => ?_)
  obtain ⟨hx, hy⟩ := htar k hk
  obtain ⟨h1, h2, h3, h4⟩ := hin k hk
  have hs := spreadPlacement_shift exp ptar ptar' k xi eta w L_x L_y M_x M_y P hMx hMy hLx hLy
    (nt k).1 (nt k).2 hx hy
  simp only [gatherPlacement_eq_spreadPlacement] at h1 h2 h3 h4 ⊢
  rw [hs] at h3 h4 ⊢
  simp only [gatherTarget_shift e1 _ Ht1 Ht2 xi eta _ _ P M_x M_y (nt k).1 (nt k).2 _ _
    h1 h2 h3 h4]

end StageShift

/-! ## Claims on the window placement -/

section PlacementClaims

variable {K : Type} [LinearOrderedField K] [FloorRing K]

/-- C6: reciprocity of placement.  For a target and a source at the same coordinate and
the same parameters, the gathering stage computes the same base indices, folded offsets
and auxiliary factors `ex`, `e4y`, `e3x`, `e3y` as the spreading stage. -/
theorem placement_reciprocity (exp : K → K) (psrc ptar : ℕ → K) (ks kt : ℕ)
    (xi eta w L_x L_y h_x h_y : K) (P : ℕ) (hx : ptar (2 * kt) = psrc (2 * ks))
    (hy : ptar (2 * kt + 1) = psrc (2 * ks + 1)) :
    gatherPlacement exp ptar kt xi eta w L_x L_y h_x h_y P =
      spreadPlacement exp psrc ks xi eta w L_x L_y h_x h_y P := by
  simp only [gatherPlacement, spreadPlacement, hx, hy]

/-- Witness for C6: target `1` and source `0` at the coordinate `(1/3, 1/3)` over `ℚ`. -/
theorem placement_reciprocity_witness :
    gatherPlacement (fun x : ℚ => x) (fun _ => 1 / 3) 1 1 1 1 4 4 1 1 2 =
      spreadPlacement (fun x : ℚ => x) (fun _ => 1 / 3) 0 1 1 1 4 4 1 1 2 :=
  placement_reciprocity (fun x : ℚ => x) (fun _ => 1 / 3) (fun _ => 1 / 3) 0 1 1 1 1 4 4 1 1 2
    rfl rfl

/-- C7, the code at a shift by two periods to the left: with `M = 4`, `L = 4` (`h = 1`),
`P = 0`, the point `p = 0` has base index `2` and wrapped index `(0 + 2 + 4) % 4 = 2`, the
shifted point `p - 2·L = -8` has base index `-6` and the C remainder gives
`(0 - 6 + 4) % 4 = -2`; for the source `(-8, -8)` the column lock taken has index `-2` and
the cell written has index `-2 + (-2)·4 = -10`. -/
theorem periodicity_fails_for_negative_shift :
    Int.tmod (((0 : ℕ) : ℤ) +
        (spreadPlacement Real.exp (fun _ => 0) 0 1 1 1 4 4 (4 / ((4 : ℕ) : ℝ))
          (4 / ((4 : ℕ) : ℝ)) 0).mx + ((4 : ℕ) : ℤ)) ((4 : ℕ) : ℤ) = 2 ∧
    Int.tmod (((0 : ℕ) : ℤ) +
        (spreadPlacement Real.exp (fun _ => 0 + ((-2 : ℤ) : ℝ) * 4) 0 1 1 1 4 4
          (4 / ((4 : ℕ) : ℝ)) (4 / ((4 : ℕ) : ℝ)) 0).mx + ((4 : ℕ) : ℤ)) ((4 : ℕ) : ℤ) = -2 ∧
    lockIndex 4 (spreadPlacement Real.exp (fun _ => 0 + ((-2 : ℤ) : ℝ) * 4) 0 1 1 1 4 4
        (4 / ((4 : ℕ) : ℝ)) (4 / ((4 : ℕ) : ℝ)) 0).mx 0 = -2 ∧
    spreadIdx 0 4 4
        (spreadPlacement Real.exp (fun _ => 0 + ((-2 : ℤ) : ℝ) * 4) 0 1 1 1 4 4
          (4 / ((4 : ℕ) : ℝ)) (4 / ((4 : ℕ) : ℝ)) 0).mx
        (spreadPlacement Real.exp (fun _ => 0 + ((-2 : ℤ) : ℝ) * 4) 0 1 1 1 4 4
          (4 / ((4 : ℕ) : ℝ)) (4 / ((4 : ℕ) : ℝ)) 0).my 0 0 = -10 := by
  have c : ⌈(-(13 / 2) : ℝ)⌉ = -6 := by
    rw [Int.ceil_eq_iff]
    norm_num
  have h1 : (spreadPlacement Real.exp (fun _ => 0) 0 1 1 1 4 4 (4 / ((4 : ℕ) : ℝ))
      (4 / ((4 : ℕ) : ℝ)) 0).mx = 2 := by
    norm_num [spreadPlacement, cround]
  have h2 : (spreadPlacement Real.exp (fun _ => 0 + ((-2 : ℤ) : ℝ) * 4) 0 1 1 1 4 4
      (4 / ((4 : ℕ) : ℝ)) (4 / ((4 : ℕ) : ℝ)) 0).mx = -6 := by
    norm_num [spreadPlacement, cround, c]
  have h3 : (spreadPlacement Real.exp (fun _ => 0 + ((-2 : ℤ) : ℝ) * 4) 0 1 1 1 4 4
      (4 / ((4 : ℕ) : ℝ)) (4 / ((4 : ℕ) : ℝ)) 0).my = -6 := by
    norm_num [spreadPlacement, cround, c]
  rw [h1, h2, h3]
  decide

end PlacementClaims

/-! ## Zero forces -/

section ZeroForces

theorem Grid.set_self {K : Type} (a : Grid K) (i : ℤ) : a.set i (a i) = a := by
  funext j
  unfold Grid.set
  split_ifs with h
  · rw [h]
  · rfl

theorem Grid.zero_set_zero {K : Type} [Zero K] (i : ℤ) :
    (Grid.zero : Grid K).set i 0 = Grid.zero := by
  funext j
  unfold Grid.set Grid.zero
  split_ifs <;> rfl

variable {K : Type} [LinearOrderedField K]

theorem spreadRowAt_zero_force (e1 : Grid K) (e3y : K) (P : ℕ) (r : ℕ → ℤ) (c : SpreadCol K) :
    (spreadRowAt e1 e3y 0 0 P r c).H1 = c.H1 ∧ (spreadRowAt e1 e3y 0 0 P r c).H2 = c.H2 := by
  unfold spreadRowAt
  refine forLoop_inv (fun _ (t : SpreadCol K) => t.H1 = c.H1 ∧ t.H2 = c.H2) (P + 1) _ c
    ⟨rfl, rfl⟩ ?_
  rintro i t _ ⟨h1, h2⟩
  simp only [mul_zero, add_zero, Grid.set_self]
  exact ⟨h1, h2⟩

theorem spreadAt_zero_force (e1 : Grid K) (ex e4y e3x e3y : K) (P : ℕ) (idx : ℕ → ℕ → ℤ)
    (H : Grid K × Grid K) : spreadAt e1 ex e4y e3x e3y 0 0 P idx H = H := by
  unfold spreadAt
  have h := forLoop_inv (fun _ (t : SpreadSt K) => t.H1 = H.1 ∧ t.H2 = H.2) (P + 1)
    (fun x (s : SpreadSt K) =>
      ({ ex := s.ex * e3x,
         H1 := (spreadRowAt e1 e3y 0 0 P (idx x)
          { ey := s.ex * e4y * e1 (x : ℤ), H1 := s.H1, H2 := s.H2 }).H1,
         H2 := (spreadRowAt e1 e3y 0 0 P (idx x)
          { ey := s.ex * e4y * e1 (x : ℤ), H1 := s.H1, H2 := s.H2 }).H2 } : SpreadSt K))
    { ex := ex, H1 := H.1, H2 := H.2 } ⟨rfl, rfl⟩ ?_
  · exact Prod.ext h.1 h.2
  · rintro i t _ ⟨h1, h2⟩
    have hr := spreadRowAt_zero_force e1 e3y P (idx i)
      { ey := t.ex * e4y * e1 (i : ℤ), H1 := t.H1, H2 := t.H2 }
    exact ⟨hr.1.trans h1, hr.2.trans h2⟩

variable [FloorRing K]

theorem spread_zero_force (exp : K → K) (e1 : Grid K) (psrc f : ℕ → K) (Nsrc : ℕ)
    (xi eta w L_x L_y h_x h_y : K) (P M_x M_y : ℕ)
    (hf : ∀ k, k < Nsrc → f (2 * k) = 0 ∧ f (2 * k + 1) = 0) :
    spread exp e1 psrc f Nsrc xi eta w L_x L_y h_x h_y P M_x M_y = (Grid.zero, Grid.zero) := by
  unfold spread
  refine forLoop_inv (fun _ (H : Grid K × Grid K) => H = (Grid.zero, Grid.zero)) Nsrc _ _ rfl ?_
  intro k H hk hH
  rw [(hf k hk).1, (hf k hk).2, spreadSource_eq, spreadAt_zero_force]
  exact hH

end ZeroForces

section ZeroSpectrum

variable {K : Type} [Field K] {σ : Type}

/-- A spectrum that every mode update leaves unchanged is left unchanged by the loops. -/
theorem filterLoops_fixed (pi Lx Ly : K) (Mx My : ℕ) (mode : K → K → ℤ → σ → σ) (s : σ)
    (h : ∀ k1 k2 ptr, mode k1 k2 ptr s = s) : filterLoops pi Lx Ly Mx My mode s = s := by
  unfold filterLoops
  refine forLoop_inv (fun _ t => t = s) Mx _ s rfl ?_
  intro j t _ ht
  subst ht
  have inner : ∀ (n : ℕ) (g : ℕ → K) (k1 : K) (a : ℤ × σ), a.2 = t →
      (forLoop n (fun k (a : ℤ × σ) => (a.1 + 1, mode k1 (g k) a.1 a.2)) a).2 = t := by
    intro n g k1 a ha
    refine forLoop_inv (fun _ (b : ℤ × σ) => b.2 = t) n _ a ha ?_
    intro i b _ hb
    simp only [hb, h]
  exact inner _ _ _ _ (inner _ _ _ _ rfl)

theorem slpFilter_zero (exp : K → K) (xi eta Lx Ly : K) (Mx My : ℕ) :
    slpFilter exp xi eta Lx Ly Mx My
        { re1 := Grid.zero, im1 := Grid.zero, re2 := Grid.zero, im2 := Grid.zero } =
      { re1 := Grid.zero, im1 := Grid.zero, re2 := Grid.zero, im2 := Grid.zero } := by
  unfold slpFilter
  rw [filterLoops_fixed]
  · simp only [Grid.zero_set_zero]
  · intro k1 k2 ptr
    have z : (Grid.zero : Grid K) ptr = 0 := rfl
    simp only [slpFilterMode, z, mul_zero, sub_zero, zero_mul, Grid.zero_set_zero]

end ZeroSpectrum

section ZeroGather

variable {K : Type} [LinearOrderedField K]

theorem gatherAt_zero_grid (e1 : Grid K) (ex e4y e3x e3y : K) (P : ℕ) (idx : ℕ → ℕ → ℤ)
    (u0 u1 : K) :
    gatherAt e1 ex e4y e3x e3y Grid.zero Grid.zero P idx u0 u1 = (u0, u1) := by
  unfold gatherAt
  have h := forLoop_inv (fun _ (t : GatherSt K) => t.u0 = u0 ∧ t.u1 = u1) (P + 1)
    (fun x (s : GatherSt K) =>
      ({ ex := s.ex * e3x,
         u0 := (forLoop (P + 1) (fun y (c : GatherCol K) =>
            ({ ey := c.ey * e3y,
               u0 := c.u0 + c.ey * e1 (y : ℤ) * (Grid.zero : Grid K) (idx x y),
               u1 := c.u1 + c.ey * e1 (y : ℤ) * (Grid.zero : Grid K) (idx x y) } : GatherCol K))
            { ey := s.ex * e4y * e1 (x : ℤ), u0 := s.u0, u1 := s.u1 }).u0,
         u1 := (forLoop (P + 1) (fun y (c : GatherCol K) =>
            ({ ey := c.ey * e3y,
               u0 := c.u0 + c.ey * e1 (y : ℤ) * (Grid.zero : Grid K) (idx x y),
               u1 := c.u1 + c.ey * e1 (y : ℤ) * (Grid.zero : Grid K) (idx x y) } : GatherCol K))
            { ey := s.ex * e4y * e1 (x : ℤ), u0 := s.u0, u1 := s.u1 }).u1 } : GatherSt K))
    { ex := ex, u0 := u0, u1 := u1 } ⟨rfl, rfl⟩ ?_
  · exact Prod.ext h.1 h.2
  · rintro x t _ ⟨h1, h2⟩
    have hin := forLoop_inv (fun _ (c : GatherCol K) => c.u0 = u0 ∧ c.u1 = u1) (P + 1)
      (fun y (c : GatherCol K) =>
        ({ ey := c.ey * e3y,
           u0 := c.u0 + c.ey * e1 (y : ℤ) * (Grid.zero : Grid K) (idx x y),
           u1 := c.u1 + c.ey * e1 (y : ℤ) * (Grid.zero : Grid K) (idx x y) } : GatherCol K))
      { ey := t.ex * e4y * e1 (x : ℤ), u0 := t.u0, u1 := t.u1 } ⟨h1, h2⟩ ?_
    · exact hin
    · rintro y c _ ⟨g1, g2⟩
      have z : (Grid.zero : Grid K) (idx x y) = 0 := rfl
      simp only [z, mul_zero, add_zero]
      exact ⟨g1, g2⟩

variable [FloorRing K]

theorem gather_zero_grid (exp : K → K) (e1 : Grid K) (ptar : ℕ → K) (Ntar : ℕ)
    (xi eta w L_x L_y h_x h_y : K) (P M_x M_y : ℕ) :
    gather exp e1 ptar Ntar Grid.zero Grid.zero xi eta w L_x L_y h_x h_y P M_x M_y =
      fun _ => 0 := by
  unfold gather
  refine forLoop_inv (fun _ (uk : ℕ → K) => uk = fun _ => 0) Ntar _ _ rfl ?_
  intro k uk _ huk
  subst huk
  simp only [gatherTarget_eq, gatherAt_zero_grid, zero_mul]
  funext i
  simp [Function.update]

end ZeroGather

/-! ## The two index paths of the gatherer -/

section GatherPaths

variable {K : Type} [LinearOrderedField K]

/-- C9: gather path equivalence.  For every target whose window satisfies the fast-path
condition (`mx ≥ 0`, `my ≥ 0`, `mx < M_x-P-1`, `my < M_y-P-1`), the pointer of the
contiguous-stride path at stencil offset `(x, y)`, `0 ≤ x, y ≤ P`, is the grid cell
`((x+mx+M_x)%M_x)*M_y + ((y+my+M_y)%M_y)` of the modulo-wrapped path, and the two paths,
run with the same table, factors, grids and initial accumulators, give the same two output
values. -/
theorem gather_paths_agree (e1 : Grid K) (pl : Placement K) (Ht1 Ht2 : Grid K)
    (P M_x M_y : ℕ) (u0 u1 : K)
    (h : pl.mx ≥ 0 ∧ pl.my ≥ 0 ∧ pl.mx < (M_x : ℤ) - (P : ℤ) - 1 ∧
      pl.my < (M_y : ℤ) - (P : ℤ) - 1) :
    (∀ x y : ℕ, x ≤ P → y ≤ P →
      fastPtr P M_y pl.mx pl.my x y =
        Int.tmod ((x : ℤ) + pl.mx + (M_x : ℤ)) (M_x : ℤ) * (M_y : ℤ) +
          Int.tmod ((y : ℤ) + pl.my + (M_y : ℤ)) (M_y : ℤ)) ∧
    gatherFast e1 pl Ht1 Ht2 P M_y u0 u1 = gatherWrap e1 pl Ht1 Ht2 P M_x M_y u0 u1 := by
  have hidx : ∀ x y : ℕ, x ≤ P → y ≤ P →
      fastPtr P M_y pl.mx pl.my x y = wrapIdx M_x M_y pl.mx pl.my x y := by
    intro x y hx hy
    rw [fastPtr_eq_emodIdx P M_x M_y pl.mx pl.my x y hx hy h,
      wrapIdx_eq_emodIdx M_x M_y pl.mx pl.my x y (by omega) (by omega)]
  refine ⟨fun x y hx hy => ?_, ?_⟩
  · rw [hidx x y hx hy]
    unfold wrapIdx
    ring
  · rw [gatherFast_eq, gatherWrap_eq]
    exact gatherAt_congr _ _ _ _ _ _ _ _ _ _ hidx _ _

/-- Witness for C9: a window at `(mx, my) = (1, 2)` with `P = 2` on an `8 × 8` grid over
`ℚ`. -/
theorem gather_paths_agree_witness :
    ((1 : ℤ) ≥ 0 ∧ (2 : ℤ) ≥ 0 ∧ (1 : ℤ) < ((8 : ℕ) : ℤ) - ((2 : ℕ) : ℤ) - 1 ∧
      (2 : ℤ) < ((8 : ℕ) : ℤ) - ((2 : ℕ) : ℤ) - 1) ∧
    gatherFast (fun i => (i : ℚ))
        { mx := 1, my := 2, px := 0, py := 0, ex := 1, e4y := 2, e3x := 3, e3y := 5 }
        (fun i => (i : ℚ) + 1) (fun i => 2 * (i : ℚ)) 2 8 0 0 =
      gatherWrap (fun i => (i : ℚ))
        { mx := 1, my := 2, px := 0, py := 0, ex := 1, e4y := 2, e3x := 3, e3y := 5 }
        (fun i => (i : ℚ) + 1) (fun i => 2 * (i : ℚ)) 2 8 8 0 0 :=
  ⟨by decide,
    (gather_paths_agree (fun i => (i : ℚ))
      { mx := 1, my := 2, px := 0, py := 0, ex := 1, e4y := 2, e3x := 3, e3y := 5 }
      (fun i => (i : ℚ) + 1) (fun i => 2 * (i : ℚ)) 2 8 8 0 0 (by decide)).2⟩

end GatherPaths

/-! ## Fast Gaussian gridding -/

section GriddingLemmas

variable {K : Type} [LinearOrderedField K]

theorem forLoop_mul_const (n : ℕ) (r e0 : K) :
    forLoop n (fun _ e => e * r) e0 = e0 * r ^ n := by
  induction n with
  | zero => simp [forLoop_zero]
  | succ n ih => rw [forLoop_succ, ih, pow_succ]; ring

/-- The weight of stencil offset `(x, y)` in closed form. -/
theorem stencilWeight_eq (e1 : Grid K) (ex e4y e3x e3y : K) (x y : ℕ) :
    stencilWeight e1 ex e4y e3x e3y x y =
      ex * e3x ^ x * e4y * e1 (x : ℤ) * e3y ^ y * e1 (y : ℤ) := by
  unfold stencilWeight
  simp only [forLoop_mul_const]

/-- The precomputed table: entry `i ≤ 2·(P/2)` holds `exp(tmp·j·j)` with `j = i - P/2`. -/
theorem e1Table_apply (exp : K → K) (xi eta h_x h_y : K) (P : ℕ) (e1new : Grid K) (i : ℕ)
    (hi : i ≤ 2 * (P / 2)) :
    e1Table exp xi eta h_x h_y P e1new (i : ℤ) =
      exp (-2 * xi * xi / eta * h_x * h_y * ((((i : ℤ) - ((P / 2 : ℕ) : ℤ)) : ℤ) : K) *
        ((((i : ℤ) - ((P / 2 : ℕ) : ℤ)) : ℤ) : K)) := by
  unfold e1Table
  refine forLoop_inv (fun n (e : Grid K) => ∀ i : ℕ, i < n → e (i : ℤ) =
      exp (-2 * xi * xi / eta * h_x * h_y * ((((i : ℤ) - ((P / 2 : ℕ) : ℤ)) : ℤ) : K) *
        ((((i : ℤ) - ((P / 2 : ℕ) : ℤ)) : ℤ) : K))) (2 * (P / 2) + 1) _ e1new ?_ ?_ i (by omega)
  · intro i hi0
    omega
  · intro n e _ ih i hin
    have hidx : (n : ℤ) - ((P / 2 : ℕ) : ℤ) + ((P / 2 : ℕ) : ℤ) = (n : ℤ) := by ring
    simp only [hidx]
    by_cases h : i = n
    · subst h
      rw [Grid.set_same]
    · rw [Grid.set_other _ _ _ _ (by exact_mod_cast h)]
      exact ih i (by omega)

/-- The stencil loops of the gatherer add, for every stencil offset, the weight
`stencilWeight` times the grid value at the index of the offset. -/
theorem gatherAt_eq_sum (e1 : Grid K) (ex e4y e3x e3y : K) (Ht1 Ht2 : Grid K) (P : ℕ)
    (idx : ℕ → ℕ → ℤ) (u0 u1 : K) :
    gatherAt e1 ex e4y e3x e3y Ht1 Ht2 P idx u0 u1 =
      (u0 + ∑ x in Finset.range (P + 1), ∑ y in Finset.range (P + 1),
          stencilWeight e1 ex e4y e3x e3y x y * Ht1 (idx x y),
        u1 + ∑ x in Finset.range (P + 1), ∑ y in Finset.range (P + 1),
          stencilWeight e1 ex e4y e3x e3y x y * Ht2 (idx x y)) := by
  unfold gatherAt
  have inner : ∀ (x m : ℕ) (c0 : GatherCol K),
      (forLoop m (fun y (c : GatherCol K) =>
        ({ ey := c.ey * e3y,
           u0 := c.u0 + c.ey * e1 (y : ℤ) * Ht1 (idx x y),
           u1 := c.u1 + c.ey * e1 (y : ℤ) * Ht2 (idx x y) } : GatherCol K)) c0) =
        { ey := c0.ey * e3y ^ m,
          u0 := c0.u0 + ∑ y in Finset.range m, c0.ey * e3y ^ y * e1 (y : ℤ) * Ht1 (idx x y),
          u1 := c0.u1 + ∑ y in Finset.range m, c0.ey * e3y ^ y * e1 (y : ℤ) * Ht2 (idx x y) } := by
    intro x m c0
    induction m with
    | zero => simp [forLoop_zero]
    | succ m ih =>
      rw [forLoop_succ, ih]
      simp only [Finset.sum_range_succ, pow_succ]
      congr 1
      · ring
      · rw [add_assoc]
      · rw [add_assoc]
  have outer : ∀ n : ℕ,
      (forLoop n (fun x (s : GatherSt K) =>
        ({ ex := s.ex * e3x,
           u0 := (forLoop (P + 1) (fun y (c : GatherCol K) =>
              ({ ey := c.ey * e3y,
                 u0 := c.u0 + c.ey * e1 (y : ℤ) * Ht1 (idx x y),
                 u1 := c.u1 + c.ey * e1 (y : ℤ) * Ht2 (idx x y) } : GatherCol K))
              { ey := s.ex * e4y * e1 (x : ℤ), u0 := s.u0, u1 := s.u1 }).u0,
           u1 := (forLoop (P + 1) (fun y (c : GatherCol K) =>
              ({ ey := c.ey * e3y,
                 u0 := c.u0 + c.ey * e1 (y : ℤ) * Ht1 (idx x y),
                 u1 := c.u1 + c.ey * e1 (y : ℤ) * Ht2 (idx x y) } : GatherCol K))
              { ey := s.ex * e4y * e1 (x : ℤ), u0 := s.u0, u1 := s.u1 }).u1 } : GatherSt K))
        { ex := ex, u0 := u0, u1 := u1 }) =
        { ex := ex * e3x ^ n,
          u0 := u0 + ∑ x in Finset.range n, ∑ y in Finset.range (P + 1),
            stencilWeight e1 ex e4y e3x e3y x y * Ht1 (idx x y),
          u1 := u1 + ∑ x in Finset.range n, ∑ y in Finset.range (P + 1),
            stencilWeight e1 ex e4y e3x e3y x y * Ht2 (idx x y) } := by
    intro n
    induction n with
    | zero => simp [forLoop_zero]
    | succ n ih =>
      rw [forLoop_succ, ih]
      simp only [inner, Finset.sum_range_succ _ n, stencilWeight_eq, pow_succ]
      congr 1
      · ring
      · rw [add_assoc]
      · rw [add_assoc]
  exact congrArg (fun t : GatherSt K => (t.u0, t.u1)) (outer (P + 1))

end GriddingLemmas

section SpreadSum

variable {K : Type} [LinearOrderedField K]

/-- The row loop of the spreader in closed form: `ey` is multiplied `P + 1` times by
`e3y`, and every row `y` adds `ey·e3y^y·e1[y]` times the force to the cell `rowIdx y`. -/
theorem spreadRowAt_eq_sum (e1 : Grid K) (e3y f0 f1 : K) (P : ℕ) (rowIdx : ℕ → ℤ)
    (c : SpreadCol K) :
    (spreadRowAt e1 e3y f0 f1 P rowIdx c).ey = c.ey * e3y ^ (P + 1) ∧
    (∀ i, (spreadRowAt e1 e3y f0 f1 P rowIdx c).H1 i = c.H1 i +
      ∑ y in Finset.range (P + 1),
        if rowIdx y = i then c.ey * e3y ^ y * e1 (y : ℤ) * f0 else 0) ∧
    (∀ i, (spreadRowAt e1 e3y f0 f1 P rowIdx c).H2 i = c.H2 i +
      ∑ y in Finset.range (P + 1),
        if rowIdx y = i then c.ey * e3y ^ y * e1 (y : ℤ) * f1 else 0) := by
  unfold spreadRowAt
  refine forLoop_inv (fun m (t : SpreadCol K) => t.ey = c.ey * e3y ^ m ∧
    (∀ i, t.H1 i = c.H1 i +
      ∑ y in Finset.range m, if rowIdx y = i then c.ey * e3y ^ y * e1 (y : ℤ) * f0 else 0) ∧
    (∀ i, t.H2 i = c.H2 i +
      ∑ y in Finset.range m, if rowIdx y = i then c.ey * e3y ^ y * e1 (y : ℤ) * f1 else 0))
    (P + 1) _ c ⟨by simp, by simp, by simp⟩ ?_
  rintro m t _ ⟨h1, h2, h3⟩
  refine ⟨by simp only [h1, pow_succ]; ring, fun i => ?_, fun i => ?_⟩
  · simp only [Grid.set_apply, Finset.sum_range_succ, h1, h2]
    by_cases hi : i = rowIdx m
    · subst hi
      simp only [if_true]
      ring
    · have hi' : ¬ rowIdx m = i := fun h => hi h.symm
      simp only [if_neg hi, if_neg hi', add_zero]
  · simp only [Grid.set_apply, Finset.sum_range_succ, h1, h3]
    by_cases hi : i = rowIdx m
    · subst hi
      simp only [if_true]
      ring
    · have hi' : ¬ rowIdx m = i := fun h => hi h.symm
      simp only [if_neg hi, if_neg hi', add_zero]

/-- The stencil loops of the spreader in closed form: every stencil offset `(x, y)` adds
its weight `stencilWeight` times the force to the cell `idx x y`. -/
theorem spreadAt_eq_sum (e1 : Grid K) (ex e4y e3x e3y f0 f1 : K) (P : ℕ) (idx : ℕ → ℕ → ℤ)
    (H : Grid K × Grid K) (i : ℤ) :
    (spreadAt e1 ex e4y e3x e3y f0 f1 P idx H).1 i = H.1 i +
        ∑ x in Finset.range (P + 1), ∑ y in Finset.range (P + 1),
          (if idx x y = i then stencilWeight e1 ex e4y e3x e3y x y * f0 else 0) ∧
    (spreadAt e1 ex e4y e3x e3y f0 f1 P idx H).2 i = H.2 i +
        ∑ x in Finset.range (P + 1), ∑ y in Finset.range (P + 1),
          (if idx x y = i then stencilWeight e1 ex e4y e3x e3y x y * f1 else 0) := by
  unfold spreadAt
  have h := forLoop_inv (fun n (t : SpreadSt K) => t.ex = ex * e3x ^ n ∧
    (∀ i, t.H1 i = H.1 i + ∑ x in Finset.range n, ∑ y in Finset.range (P + 1),
      (if idx x y = i then stencilWeight e1 ex e4y e3x e3y x y * f0 else 0)) ∧
    (∀ i, t.H2 i = H.2 i + ∑ x in Finset.range n, ∑ y in Finset.range (P + 1),
      (if idx x y = i then stencilWeight e1 ex e4y e3x e3y x y * f1 else 0)))
    (P + 1)
    (fun x (s : SpreadSt K) =>
      ({ ex := s.ex * e3x,
         H1 := (spreadRowAt e1 e3y f0 f1 P (idx x)
          { ey := s.ex * e4y * e1 (x : ℤ), H1 := s.H1, H2 := s.H2 }).H1,
         H2 := (spreadRowAt e1 e3y f0 f1 P (idx x)
          { ey := s.ex * e4y * e1 (x : ℤ), H1 := s.H1, H2 := s.H2 }).H2 } : SpreadSt K))
    { ex := ex, H1 := H.1, H2 := H.2 } ⟨by simp, by simp, by simp⟩ ?_
  · exact ⟨h.2.1 i, h.2.2 i⟩
  · rintro n t _ ⟨h1, h2, h3⟩
    obtain ⟨_, r2, r3⟩ := spreadRowAt_eq_sum e1 e3y f0 f1 P (idx n)
      { ey := t.ex * e4y * e1 (n : ℤ), H1 := t.H1, H2 := t.H2 }
    refine ⟨by simp only [h1, pow_succ]; ring, fun i => ?_, fun i => ?_⟩
    · show (spreadRowAt e1 e3y f0 f1 P (idx n)
        { ey := t.ex * e4y * e1 (n : ℤ), H1 := t.H1, H2 := t.H2 }).H1 i = _
      rw [r2 i]
      simp only [h2, h1, Finset.sum_range_succ _ n, stencilWeight_eq, add_assoc]
    · show (spreadRowAt e1 e3y f0 f1 P (idx n)
        { ey := t.ex * e4y * e1 (n : ℤ), H1 := t.H1, H2 := t.H2 }).H2 i = _
      rw [r3 i]
      simp only [h3, h1, Finset.sum_range_succ _ n, stencilWeight_eq, add_assoc]

end SpreadSum

section GriddingClosedForm

/-- In closed form, for `h_x = h_y = h`, even `P` and `w = P·h/2`: the product
`ex·e3x^x·e4y·e1[x]·e3y^y·e1[y]` that the stencil loops form at offset `(x, y)` is the
Gaussian `exp(-(2ξ²/η)·((px - (x - P/2)·h)² + (py - (y - P/2)·h)²))`. -/
theorem stencilWeight_gaussian (psrc : ℕ → ℝ) (k : ℕ) (xi eta w L_x L_y h : ℝ) (P : ℕ)
    (e1new : Grid ℝ) (x y : ℕ) (hP : Even P) (hw : w = (P : ℝ) * h / 2) (hx : x ≤ P)
    (hy : y ≤ P) :
    stencilWeight (e1Table Real.exp xi eta h h P e1new)
        (spreadPlacement Real.exp psrc k xi eta w L_x L_y h h P).ex
        (spreadPlacement Real.exp psrc k xi eta w L_x L_y h h P).e4y
        (spreadPlacement Real.exp psrc k xi eta w L_x L_y h h P).e3x
        (spreadPlacement Real.exp psrc k xi eta w L_x L_y h h P).e3y x y =
      Real.exp (-(2 * xi ^ 2 / eta) *
        (((spreadPlacement Real.exp psrc k xi eta w L_x L_y h h P).px -
            ((x : ℝ) - ((P / 2 : ℕ) : ℝ)) * h) ^ 2 +
          ((spreadPlacement Real.exp psrc k xi eta w L_x L_y h h P).py -
            ((y : ℝ) - ((P / 2 : ℕ) : ℝ)) * h) ^ 2)) := by
  obtain ⟨m, rfl⟩ := hP
  have hm : (m + m) / 2 = m := by omega
  rw [stencilWeight_eq, e1Table_apply _ _ _ _ _ _ _ x (by omega),
    e1Table_apply _ _ _ _ _ _ _ y (by omega), spreadPlacement_eq, hm]
  simp only []
  rw [← Real.exp_nat_mul, ← Real.exp_nat_mul, ← Real.exp_add, ← Real.exp_add, ← Real.exp_add,
    ← Real.exp_add, ← Real.exp_add]
  congr 1
  rw [hw]
  push_cast
  ring

end GriddingClosedForm

/-! ## The precomputed table and the gather result -/

section TableLemmas

variable {K : Type} [LinearOrderedField K]

/-- The precomputation loop writes the entries `0 .. 2·(P/2)` only. -/
theorem e1Table_untouched (exp : K → K) (xi eta h_x h_y : K) (P : ℕ) (e1new : Grid K) (i : ℤ)
    (hi : ¬ (0 ≤ i ∧ i ≤ 2 * ((P / 2 : ℕ) : ℤ))) :
    e1Table exp xi eta h_x h_y P e1new i = e1new i := by
  unfold e1Table
  refine forLoop_inv (fun n (e : Grid K) => ∀ i : ℤ, ¬ (0 ≤ i ∧ i < (n : ℤ)) → e i = e1new i)
    (2 * (P / 2) + 1) _ e1new (fun _ _ => rfl) ?_ i (by push_cast; omega)
  intro n e _ ih i hin
  have hidx : (n : ℤ) - ((P / 2 : ℕ) : ℤ) + ((P / 2 : ℕ) : ℤ) = (n : ℤ) := by ring
  simp only [hidx]
  rw [Grid.set_other _ _ _ _ (by push_cast at hin; omega)]
  exact ih i (by push_cast at hin; omega)

theorem e1Table_odd_last (exp : K → K) (xi eta h_x h_y : K) (P : ℕ) (e1new : Grid K)
    (hP : Odd P) : e1Table exp xi eta h_x h_y P e1new (P : ℤ) = e1new (P : ℤ) := by
  obtain ⟨m, rfl⟩ := hP
  exact e1Table_untouched exp xi eta h_x h_y _ e1new _ (by omega)

end TableLemmas

section TableClaim

variable {K : Type} [LinearOrderedField K]

/-- C11, the code at odd `P`: for `P = 1` and `P = 3` the precomputation loop
`j = -P/2 .. P/2` stores `P` entries, and the entry `e1[P]` keeps the content `e1new[P]`
it had when the array was allocated; the stencil loops read it, e.g. for `P = 1` the weight
of the stencil offset `(1, 0)` is `ex·e3x·e4y·e1new[1]·e1[0]`. -/
theorem e1_table_odd_P_last_entry_unassigned (exp : K → K) (xi eta h : K)
    (e1new : Grid K) (ex e4y e3x e3y : K) :
    e1Table exp xi eta h h 1 e1new 1 = e1new 1 ∧
    e1Table exp xi eta h h 3 e1new 3 = e1new 3 ∧
    stencilWeight (e1Table exp xi eta h h 1 e1new) ex e4y e3x e3y 1 0 =
      ex * e3x * e4y * e1new 1 * e1Table exp xi eta h h 1 e1new 0 := by
  have h1 : e1Table exp xi eta h h 1 e1new 1 = e1new 1 :=
    e1Table_odd_last exp xi eta h h 1 e1new (by decide)
  have h3 : e1Table exp xi eta h h 3 e1new 3 = e1new 3 :=
    e1Table_odd_last exp xi eta h h 3 e1new (by decide)
  refine ⟨h1, h3, ?_⟩
  rw [stencilWeight_eq]
  have c1 : ((1 : ℕ) : ℤ) = 1 := rfl
  have c0 : ((0 : ℕ) : ℤ) = 0 := rfl
  rw [c1, c0, h1]
  ring

end TableClaim

section GatherResult

theorem gatherIdx_eq_wrapIdx (P M_x M_y : ℕ) (mx my : ℤ) (x y : ℕ) (hx : x ≤ P) (hy : y ≤ P) :
    gatherIdx P M_x M_y mx my x y = wrapIdx M_x M_y mx my x y := by
  unfold gatherIdx
  split_ifs with hc
  · rw [fastPtr_eq_emodIdx P M_x M_y mx my x y hx hy hc,
      wrapIdx_eq_emodIdx M_x M_y mx my x y (by omega) (by omega)]
  · rfl

variable {K : Type} [LinearOrderedField K] [FloorRing K]

/-- Target `k` of the gathering stage fills the entries `2k` and `2k+1` of the output,
starting from `0`. -/
theorem gather_apply (exp : K → K) (e1 : Grid K) (ptar : ℕ → K) (Ntar : ℕ) (Ht1 Ht2 : Grid K)
    (xi eta w L_x L_y h_x h_y : K) (P M_x M_y : ℕ) (k : ℕ) (hk : k < Ntar) :
    gather exp e1 ptar Ntar Ht1 Ht2 xi eta w L_x L_y h_x h_y P M_x M_y (2 * k) =
      (gatherTarget e1 (gatherPlacement exp ptar k xi eta w L_x L_y h_x h_y P) Ht1 Ht2
        xi eta h_x h_y P M_x M_y 0 0).1 ∧
    gather exp e1 ptar Ntar Ht1 Ht2 xi eta w L_x L_y h_x h_y P M_x M_y (2 * k + 1) =
      (gatherTarget e1 (gatherPlacement exp ptar k xi eta w L_x L_y h_x h_y P) Ht1 Ht2
        xi eta h_x h_y P M_x M_y 0 0).2 := by
  unfold gather
  have h := forLoop_inv (fun n (uk : ℕ → K) => ∀ k : ℕ,
      (k < n → uk (2 * k) = (gatherTarget e1 (gatherPlacement exp ptar k xi eta w L_x L_y
          h_x h_y P) Ht1 Ht2 xi eta h_x h_y P M_x M_y 0 0).1 ∧
        uk (2 * k + 1) = (gatherTarget e1 (gatherPlacement exp ptar k xi eta w L_x L_y
          h_x h_y P) Ht1 Ht2 xi eta h_x h_y P M_x M_y 0 0).2) ∧
      (n ≤ k → uk (2 * k) = 0 ∧ uk (2 * k + 1) = 0)) Ntar
    (fun k (uk : ℕ → K) =>
      Function.update (Function.update uk (2 * k)
        (gatherTarget e1 (gatherPlacement exp ptar k xi eta w L_x L_y h_x h_y P) Ht1 Ht2
          xi eta h_x h_y P M_x M_y (uk (2 * k)) (uk (2 * k + 1))).1) (2 * k + 1)
        (gatherTarget e1 (gatherPlacement exp ptar k xi eta w L_x L_y h_x h_y P) Ht1 Ht2
          xi eta h_x h_y P M_x M_y (uk (2 * k)) (uk (2 * k + 1))).2)
    (fun _ => 0) (fun k => ⟨fun hk => absurd hk (Nat.not_lt_zero k), fun _ => ⟨rfl, rfl⟩⟩) ?_
  · exact (h k).1 hk
  · intro n uk _ ih k
    have hn := (ih n).2 (le_refl n)
    refine ⟨fun hk => ?_, fun hk => ?_⟩
    · by_cases hkn : k = n
      · subst hkn
        dsimp only
        rw [hn.1, hn.2]
        simp [Function.update]
      · have h1 : 2 * k ≠ 2 * n := by omega
        have h2 : 2 * k ≠ 2 * n + 1 := by omega
        have h3 : 2 * k + 1 ≠ 2 * n := by omega
        have h4 : 2 * k + 1 ≠ 2 * n + 1 := by omega
        simp only [Function.update, h1, h2, h3, h4, eq_rec_constant, dite_eq_ite, if_false]
        exact (ih k).1 (by omega)
    · have h1 : 2 * k ≠ 2 * n := by omega
      have h2 : 2 * k ≠ 2 * n + 1 := by omega
      have h3 : 2 * k + 1 ≠ 2 * n := by omega
      have h4 : 2 * k + 1 ≠ 2 * n + 1 := by omega
      simp only [Function.update, h1, h2, h3, h4, eq_rec_constant, dite_eq_ite, if_false]
      exact (ih k).2 (by omega)

/-- C12: gather result and normalization.  For every target `k < Ntar`, every table `e1`
and every grid pair `(Ht1, Ht2)`, the output components `2k` and `2k+1` of the gathering
stage equal `(4ξ²/η)²·h_x·h_y/pi` times the sum over the `(P+1) × (P+1)` stencil offsets
`(x, y)` of `weight(x, y)·Ht[((x+mx+M_x)%M_x)·M_y + ((y+my+M_y)%M_y)]` (`%` the C remainder,
`weight` the value of `tmp` in the loops, the accumulation starting from `0`); and
`compute_velocity` returns the output of that stage for its own table and filtered
grids. -/
theorem gather_result_normalized (exp : K → K) (e1 : Grid K) (ptar : ℕ → K) (Ntar : ℕ)
    (Ht1 Ht2 : Grid K) (xi eta w L_x L_y h_x h_y : K) (P M_x M_y : ℕ) (k : ℕ) (hk : k < Ntar) :
    (gather exp e1 ptar Ntar Ht1 Ht2 xi eta w L_x L_y h_x h_y P M_x M_y (2 * k) =
      (4 * xi ^ 2 / eta) ^ 2 * h_x * h_y / pi *
        ∑ x in Finset.range (P + 1), ∑ y in Finset.range (P + 1),
          stencilWeight e1 (gatherPlacement exp ptar k xi eta w L_x L_y h_x h_y P).ex
            (gatherPlacement exp ptar k xi eta w L_x L_y h_x h_y P).e4y
            (gatherPlacement exp ptar k xi eta w L_x L_y h_x h_y P).e3x
            (gatherPlacement exp ptar k xi eta w L_x L_y h_x h_y P).e3y x y *
          Ht1 (Int.tmod ((x : ℤ) + (gatherPlacement exp ptar k xi eta w L_x L_y h_x h_y P).mx +
              (M_x : ℤ)) (M_x : ℤ) * (M_y : ℤ) +
            Int.tmod ((y : ℤ) + (gatherPlacement exp ptar k xi eta w L_x L_y h_x h_y P).my +
              (M_y : ℤ)) (M_y : ℤ))) ∧
    (gather exp e1 ptar Ntar Ht1 Ht2 xi eta w L_x L_y h_x h_y P M_x M_y (2 * k + 1) =
      (4 * xi ^ 2 / eta) ^ 2 * h_x * h_y / pi *
        ∑ x in Finset.range (P + 1), ∑ y in Finset.range (P + 1),
          stencilWeight e1 (gatherPlacement exp ptar k xi eta w L_x L_y h_x h_y P).ex
            (gatherPlacement exp ptar k xi eta w L_x L_y h_x h_y P).e4y
            (gatherPlacement exp ptar k xi eta w L_x L_y h_x h_y P).e3x
            (gatherPlacement exp ptar k xi eta w L_x L_y h_x h_y P).e3y x y *
          Ht2 (Int.tmod ((x : ℤ) + (gatherPlacement exp ptar k xi eta w L_x L_y h_x h_y P).mx +
              (M_x : ℤ)) (M_x : ℤ) * (M_y : ℤ) +
            Int.tmod ((y : ℤ) + (gatherPlacement exp ptar k xi eta w L_x L_y h_x h_y P).my +
              (M_y : ℤ)) (M_y : ℤ))) ∧
    (∀ (fft2 : Grid K → Grid K × Option (Grid K)) (ifft2 : Grid K × Grid K → Option (Grid K))
      (e1new Ht1new Ht2new : Grid K) (psrc f : ℕ → K) (Nsrc : ℕ) (Lx Ly : K),
      computeVelocity exp fft2 ifft2 e1new Ht1new Ht2new psrc ptar Nsrc Ntar xi eta f
          M_x M_y Lx Ly w P =
        gather exp (e1Table exp xi eta (Lx / (M_x : K)) (Ly / (M_y : K)) P e1new) ptar Ntar
          (slpFilteredGrids exp fft2 ifft2 e1new Ht1new Ht2new psrc Nsrc xi eta f
            M_x M_y Lx Ly w P).1
          (slpFilteredGrids exp fft2 ifft2 e1new Ht1new Ht2new psrc Nsrc xi eta f
            M_x M_y Lx Ly w P).2
          xi eta w Lx Ly (Lx / (M_x : K)) (Ly / (M_y : K)) P M_x M_y) := by
  obtain ⟨g1, g2⟩ := gather_apply exp e1 ptar Ntar Ht1 Ht2 xi eta w L_x L_y h_x h_y P M_x M_y
    k hk
  have hsum : ∀ Ht : Grid K,
      ∑ x in Finset.range (P + 1), ∑ y in Finset.range (P + 1),
        stencilWeight e1 (gatherPlacement exp ptar k xi eta w L_x L_y h_x h_y P).ex
          (gatherPlacement exp ptar k xi eta w L_x L_y h_x h_y P).e4y
          (gatherPlacement exp ptar k xi eta w L_x L_y h_x h_y P).e3x
          (gatherPlacement exp ptar k xi eta w L_x L_y h_x h_y P).e3y x y *
        Ht (gatherIdx P M_x M_y (gatherPlacement exp ptar k xi eta w L_x L_y h_x h_y P).mx
          (gatherPlacement exp ptar k xi eta w L_x L_y h_x h_y P).my x y) =
      ∑ x in Finset.range (P + 1), ∑ y in Finset.range (P + 1),
        stencilWeight e1 (gatherPlacement exp ptar k xi eta w L_x L_y h_x h_y P).ex
          (gatherPlacement exp ptar k xi eta w L_x L_y h_x h_y P).e4y
          (gatherPlacement exp ptar k xi eta w L_x L_y h_x h_y P).e3x
          (gatherPlacement exp ptar k xi eta w L_x L_y h_x h_y P).e3y x y *
        Ht (Int.tmod ((x : ℤ) + (gatherPlacement exp ptar k xi eta w L_x L_y h_x h_y P).mx +
            (M_x : ℤ)) (M_x : ℤ) * (M_y : ℤ) +
          Int.tmod ((y : ℤ) + (gatherPlacement exp ptar k xi eta w L_x L_y h_x h_y P).my +
            (M_y : ℤ)) (M_y : ℤ)) := by
    intro Ht
    refine Finset.sum_congr rfl (fun x hx => Finset.sum_congr rfl (fun y hy => ?_))
    rw [gatherIdx_eq_wrapIdx P M_x M_y _ _ x y
      (by have := Finset.mem_range.mp hx; omega) (by have := Finset.mem_range.mp hy; omega)]
    unfold wrapIdx
    rw [add_comm (Int.tmod _ _) (Int.tmod _ _ * _)]
  refine ⟨?_, ?_, fun _ _ _ _ _ _ _ _ _ _ => rfl⟩
  · rw [g1, gatherTarget_eq, gatherAt_eq_sum, hsum Ht1]
    simp only [zero_add]
    ring
  · rw [g2, gatherTarget_eq, gatherAt_eq_sum, hsum Ht2]
    simp only [zero_add]
    ring

/-- Witness for C12: over `ℚ`, one target at the origin of a `4 × 4` grid with `P = 0`,
component `0`. -/
theorem gather_result_normalized_witness :
    0 < 1 ∧
    gather (fun x : ℚ => x) (fun _ => 1) (fun _ => 0) 1 (fun i => (i : ℚ)) (fun _ => 2)
        1 1 1 4 4 1 1 0 4 4 (2 * 0) =
      (4 * (1 : ℚ) ^ 2 / 1) ^ 2 * 1 * 1 / pi *
        ∑ x in Finset.range (0 + 1), ∑ y in Finset.range (0 + 1),
          stencilWeight (fun _ => 1)
            (gatherPlacement (fun x : ℚ => x) (fun _ => 0) 0 1 1 1 4 4 1 1 0).ex
            (gatherPlacement (fun x : ℚ => x) (fun _ => 0) 0 1 1 1 4 4 1 1 0).e4y
            (gatherPlacement (fun x : ℚ => x) (fun _ => 0) 0 1 1 1 4 4 1 1 0).e3x
            (gatherPlacement (fun x : ℚ => x) (fun _ => 0) 0 1 1 1 4 4 1 1 0).e3y x y *
          (fun i : ℤ => (i : ℚ))
            (Int.tmod ((x : ℤ) + (gatherPlacement (fun x : ℚ => x) (fun _ => 0) 0 1 1 1 4 4 1 1
                0).mx + ((4 : ℕ) : ℤ)) ((4 : ℕ) : ℤ) * ((4 : ℕ) : ℤ) +
              Int.tmod ((y : ℤ) + (gatherPlacement (fun x : ℚ => x) (fun _ => 0) 0 1 1 1 4 4 1 1
                0).my + ((4 : ℕ) : ℤ)) ((4 : ℕ) : ℤ)) :=
  ⟨by decide,
    (gather_result_normalized (fun x : ℚ => x) (fun _ => 1) (fun _ => 0) 1 (fun i => (i : ℚ))
      (fun _ => 2) 1 1 1 4 4 1 1 0 4 4 0 (by decide)).1⟩

end GatherResult

/-! ## The DLP kernel around its filter -/

section DlpStages

variable {K : Type} [LinearOrderedField K]

/-- The weight loop of the DLP kernel stores the four products of every source. -/
theorem dlpWeights_apply (f n : ℕ → K) (Nsrc : ℕ) (v1 v2 : ℕ → K) (i : ℕ) (hi : i < Nsrc) :
    (dlpWeights f n Nsrc v1 v2).1 (2 * i) = f (2 * i) * n (2 * i) ∧
    (dlpWeights f n Nsrc v1 v2).1 (2 * i + 1) = f (2 * i + 1) * n (2 * i) ∧
    (dlpWeights f n Nsrc v1 v2).2 (2 * i) = f (2 * i) * n (2 * i + 1) ∧
    (dlpWeights f n Nsrc v1 v2).2 (2 * i + 1) = f (2 * i + 1) * n (2 * i + 1) := by
  unfold dlpWeights
  refine forLoop_inv (fun m (v : (ℕ → K) × (ℕ → K)) => ∀ i : ℕ, i < m →
    v.1 (2 * i) = f (2 * i) * n (2 * i) ∧
    v.1 (2 * i + 1) = f (2 * i + 1) * n (2 * i) ∧
    v.2 (2 * i) = f (2 * i) * n (2 * i + 1) ∧
    v.2 (2 * i + 1) = f (2 * i + 1) * n (2 * i + 1)) Nsrc _ (v1, v2)
    (fun i hi => absurd hi (Nat.not_lt_zero i)) ?_ i hi
  intro m v _ ih i him
  by_cases h : i = m
  · subst h
    simp [Function.update]
  · have h1 : 2 * i ≠ 2 * m := by omega
    have h2 : 2 * i ≠ 2 * m + 1 := by omega
    have h3 : 2 * i + 1 ≠ 2 * m := by omega
    have h4 : 2 * i + 1 ≠ 2 * m + 1 := by omega
    simp only [Function.update, h1, h2, h3, h4, eq_rec_constant, dite_eq_ite, if_false]
    exact ih i (by omega)

/-- C13: DLP spread weights.  For every source `i < Nsrc` with force `(f1, f2)` and normal
`(n1, n2)`, the weight array of the first `Spread` call, which fills the grid channels `H1`
and `H2`, holds `f1·n1` and `f2·n1` at `2i` and `2i+1`, and the weight array of the second
`Spread` call, which fills `H3` and `H4`, holds `f1·n2` and `f2·n2`; both calls start from
zero grids and get the same positions and parameters. -/
theorem dlp_spread_weights (Spread : SpreadFn K) (fresh : DlpFresh K) (psrc f n : ℕ → K)
    (Nsrc : ℕ) (xi eta w Lx Ly h : K) (P Mx My : ℕ) :
    (∀ i, i < Nsrc →
      (dlpWeights f n Nsrc fresh.v1 fresh.v2).1 (2 * i) = f (2 * i) * n (2 * i) ∧
      (dlpWeights f n Nsrc fresh.v1 fresh.v2).1 (2 * i + 1) = f (2 * i + 1) * n (2 * i) ∧
      (dlpWeights f n Nsrc fresh.v1 fresh.v2).2 (2 * i) = f (2 * i) * n (2 * i + 1) ∧
      (dlpWeights f n Nsrc fresh.v1 fresh.v2).2 (2 * i + 1) = f (2 * i + 1) * n (2 * i + 1)) ∧
    (dlpSpreadStage Spread fresh psrc f n Nsrc xi eta w Lx Ly h P Mx My).1 =
      ((Spread Grid.zero Grid.zero fresh.e1 psrc (dlpWeights f n Nsrc fresh.v1 fresh.v2).1
          Nsrc Lx Ly xi w eta P Mx My h).1,
        (Spread Grid.zero Grid.zero fresh.e1 psrc (dlpWeights f n Nsrc fresh.v1 fresh.v2).1
          Nsrc Lx Ly xi w eta P Mx My h).2.1) ∧
    (dlpSpreadStage Spread fresh psrc f n Nsrc xi eta w Lx Ly h P Mx My).2.1 =
      ((Spread Grid.zero Grid.zero
          (Spread Grid.zero Grid.zero fresh.e1 psrc (dlpWeights f n Nsrc fresh.v1 fresh.v2).1
            Nsrc Lx Ly xi w eta P Mx My h).2.2
          psrc (dlpWeights f n Nsrc fresh.v1 fresh.v2).2 Nsrc Lx Ly xi w eta P Mx My h).1,
        (Spread Grid.zero Grid.zero
          (Spread Grid.zero Grid.zero fresh.e1 psrc (dlpWeights f n Nsrc fresh.v1 fresh.v2).1
            Nsrc Lx Ly xi w eta P Mx My h).2.2
          psrc (dlpWeights f n Nsrc fresh.v1 fresh.v2).2 Nsrc Lx Ly xi w eta P Mx My h).2.1) :=
  ⟨fun i hi => dlpWeights_apply f n Nsrc fresh.v1 fresh.v2 i hi, rfl, rfl⟩

/-- Witness for C13: over `ℚ`, one source with force `(2, 3)` and normal `(5, 7)`; the first
weight of the first `Spread` call is `2·5`. -/
theorem dlp_spread_weights_witness :
    0 < 1 ∧
    (dlpWeights (fun i => if i = 0 then (2 : ℚ) else 3) (fun i => if i = 0 then (5 : ℚ) else 7)
      1 (fun _ => 0) (fun _ => 0)).1 (2 * 0) =
      (fun i => if i = 0 then (2 : ℚ) else 3) (2 * 0) *
        (fun i => if i = 0 then (5 : ℚ) else 7) (2 * 0) :=
  ⟨by decide,
    ((dlp_spread_weights ((fun H1 H2 e1 _ _ _ _ _ _ _ _ _ _ _ _ => (H1, H2, e1)) : SpreadFn ℚ)
      { v1 := fun _ => 0, v2 := fun _ => 0, e1 := fun _ => 0, Hhat3_im := fun _ => 0,
        Hhat4_im := fun _ => 0, Ht1 := fun _ => 0, Ht2 := fun _ => 0, Ht3 := fun _ => 0,
        Ht4 := fun _ => 0 }
      (fun _ => 0) (fun i => if i = 0 then (2 : ℚ) else 3) (fun i => if i = 0 then (5 : ℚ) else 7)
      1 1 1 1 1 1 1 2 4 4).1 0 (by decide)).1⟩

/-- C16, the code on purely real forward transforms: when `fft2` returns no imaginary part,
the imaginary arrays of the channels 1 and 2 handed to the filter are all-zero (`mxCalloc`),
and those of the channels 3 and 4 are the uninitialised contents of `new double[Mx*My]`. -/
theorem dlp_absent_imaginary_parts (re : Grid K → Grid K) (fresh : DlpFresh K)
    (H1 H2 H3 H4 : Grid K) :
    (dlpSpectrum (fun g => (re g, none)) fresh H1 H2 H3 H4).im1 = Grid.zero ∧
    (dlpSpectrum (fun g => (re g, none)) fresh H1 H2 H3 H4).im2 = Grid.zero ∧
    (dlpSpectrum (fun g => (re g, none)) fresh H1 H2 H3 H4).im3 = fresh.Hhat3_im ∧
    (dlpSpectrum (fun g => (re g, none)) fresh H1 H2 H3 H4).im4 = fresh.Hhat4_im :=
  ⟨rfl, rfl, rfl, rfl⟩

/-- C17, the code when only the fourth inverse transform has no real part: the grid passed
to `Gather` for channel 4 is the uninitialised content of `new double[Mx*My]`, and the grid
of channel 3, which was present, has its first `Mx·My` entries overwritten with `0`; the
grids of the channels 1 and 2 are the transforms. -/
theorem dlp_absent_fourth_real_part (ifft2 : Grid K × Grid K → Option (Grid K))
    (fresh : DlpFresh K) (Mx My : ℕ) (Hf : DlpHat K) (a b c : Grid K)
    (h1 : ifft2 (Hf.re1, Hf.im1) = some a) (h2 : ifft2 (Hf.re2, Hf.im2) = some b)
    (h3 : ifft2 (Hf.re3, Hf.im3) = some c) (h4 : ifft2 (Hf.re4, Hf.im4) = none) :
    dlpRealGrids ifft2 fresh Mx My Hf = (a, b, memsetZero c (Mx * My), fresh.Ht4) := by
  simp only [dlpRealGrids, h1, h2, h3, h4]

/-- Witness for C17: over `ℚ`, a `2 × 2` grid, an inverse transform that has no real part
exactly for spectra whose real part starts with `4`, and a third channel whose transform
is `3` everywhere: the gatherer gets `0` at index `1` of channel 3 and the uninitialised
value `7` at index `1` of channel 4. -/
theorem dlp_absent_fourth_real_part_witness :
    (dlpRealGrids (fun p : Grid ℚ × Grid ℚ => if p.1 0 = 4 then none else some p.1)
      { v1 := fun _ => 0, v2 := fun _ => 0, e1 := fun _ => 0, Hhat3_im := fun _ => 0,
        Hhat4_im := fun _ => 0, Ht1 := fun _ => 7, Ht2 := fun _ => 7, Ht3 := fun _ => 7,
        Ht4 := fun _ => 7 } 2 2
      { re1 := fun _ => 1, im1 := fun _ => 0, re2 := fun _ => 2, im2 := fun _ => 0,
        re3 := fun _ => 3, im3 := fun _ => 0, re4 := fun _ => 4, im4 := fun _ => 0 }).2.2.1 1 = 0 ∧
    (dlpRealGrids (fun p : Grid ℚ × Grid ℚ => if p.1 0 = 4 then none else some p.1)
      { v1 := fun _ => 0, v2 := fun _ => 0, e1 := fun _ => 0, Hhat3_im := fun _ => 0,
        Hhat4_im := fun _ => 0, Ht1 := fun _ => 7, Ht2 := fun _ => 7, Ht3 := fun _ => 7,
        Ht4 := fun _ => 7 } 2 2
      { re1 := fun _ => 1, im1 := fun _ => 0, re2 := fun _ => 2, im2 := fun _ => 0,
        re3 := fun _ => 3, im3 := fun _ => 0, re4 := fun _ => 4, im4 := fun _ => 0 }).2.2.2 1 = 7 := by
  have h := dlp_absent_fourth_real_part
    (fun p : Grid ℚ × Grid ℚ => if p.1 0 = 4 then none else some p.1)
    { v1 := fun _ => 0, v2 := fun _ => 0, e1 := fun _ => 0, Hhat3_im := fun _ => 0,
      Hhat4_im := fun _ => 0, Ht1 := fun _ => 7, Ht2 := fun _ => 7, Ht3 := fun _ => 7,
      Ht4 := fun _ => 7 } 2 2
    { re1 := fun _ => 1, im1 := fun _ => 0, re2 := fun _ => 2, im2 := fun _ => 0,
      re3 := fun _ => 3, im3 := fun _ => 0, re4 := fun _ => 4, im4 := fun _ => 0 }
    (fun _ => 1) (fun _ => 2) (fun _ => 3) (by norm_num) (by norm_num) (by norm_num)
    (by norm_num)
  rw [h]
  refine ⟨?_, rfl⟩
  simp [memsetZero]

variable [FloorRing K]

/-- C14: `compute_stress` validation.  The call ends with an error, and so without an
output array and before the kernel runs, if and only if the argument count is not `12`,
or `psrc`, `ptar`, `f` or `n` does not have `2` rows, or the column count of `f` or of `n`
differs from that of `psrc`; the message is that of the first failing check in the order
count, `psrc` rows, `ptar` rows, `f` rows, `n` rows, `f` columns, `n` columns; otherwise
the call returns the output of the kernel. -/
theorem dlp_validation (exp : K → K) (pi : K) (Spread : SpreadFn K) (Gather : GatherFn K)
    (fft2 : Grid K → Grid K × Option (Grid K)) (ifft2 : Grid K × Grid K → Option (Grid K))
    (fresh : DlpFresh K) (nrhs : ℕ) (prhs : ℕ → MxArray K) :
    ((∃ msg, mexFunctionDLP exp pi Spread Gather fft2 ifft2 fresh nrhs prhs =
        Except.error msg) ↔
      (nrhs ≠ 12 ∨ (prhs 0).M ≠ 2 ∨ (prhs 1).M ≠ 2 ∨ (prhs 4).M ≠ 2 ∨ (prhs 5).M ≠ 2 ∨
        (prhs 4).N ≠ (prhs 0).N ∨ (prhs 5).N ≠ (prhs 0).N)) ∧
    (nrhs ≠ 12 →
      mexFunctionDLP exp pi Spread Gather fft2 ifft2 fresh nrhs prhs =
        Except.error "Incorrect number of input parameters") ∧
    (nrhs = 12 → (prhs 0).M ≠ 2 →
      mexFunctionDLP exp pi Spread Gather fft2 ifft2 fresh nrhs prhs =
        Except.error "psrc must be a 2xn matrix.") ∧
    (nrhs = 12 → (prhs 0).M = 2 → (prhs 1).M ≠ 2 →
      mexFunctionDLP exp pi Spread Gather fft2 ifft2 fresh nrhs prhs =
        Except.error "ptar must be a 2xn matrix.") ∧
    (nrhs = 12 → (prhs 0).M = 2 → (prhs 1).M = 2 → (prhs 4).M ≠ 2 →
      mexFunctionDLP exp pi Spread Gather fft2 ifft2 fresh nrhs prhs =
        Except.error "f must be a 2xn matrix.") ∧
    (nrhs = 12 → (prhs 0).M = 2 → (prhs 1).M = 2 → (prhs 4).M = 2 → (prhs 5).M ≠ 2 →
      mexFunctionDLP exp pi Spread Gather fft2 ifft2 fresh nrhs prhs =
        Except.error "n must be a 2xn matrix.") ∧
    (nrhs = 12 → (prhs 0).M = 2 → (prhs 1).M = 2 → (prhs 4).M = 2 → (prhs 5).M = 2 →
      (prhs 4).N ≠ (prhs 0).N →
      mexFunctionDLP exp pi Spread Gather fft2 ifft2 fresh nrhs prhs =
        Except.error "psrc and f must be the same size.") ∧
    (nrhs = 12 → (prhs 0).M = 2 → (prhs 1).M = 2 → (prhs 4).M = 2 → (prhs 5).M = 2 →
      (prhs 4).N = (prhs 0).N → (prhs 5).N ≠ (prhs 0).N →
      mexFunctionDLP exp pi Spread Gather fft2 ifft2 fresh nrhs prhs =
        Except.error "psrc and n must be the same size.") ∧
    (nrhs = 12 → (prhs 0).M = 2 → (prhs 1).M = 2 → (prhs 4).M = 2 → (prhs 5).M = 2 →
      (prhs 4).N = (prhs 0).N → (prhs 5).N = (prhs 0).N →
      mexFunctionDLP exp pi Spread Gather fft2 ifft2 fresh nrhs prhs =
        Except.ok (computeStress exp pi Spread Gather fft2 ifft2 fresh (prhs 0).pr (prhs 1).pr
          (prhs 0).N (prhs 1).N (mxGetScalar (prhs 2)) (mxGetScalar (prhs 3)) (prhs 4).pr
          (prhs 5).pr (toSize (mxGetScalar (prhs 6))) (toSize (mxGetScalar (prhs 7)))
          (mxGetScalar (prhs 8)) (mxGetScalar (prhs 9)) (mxGetScalar (prhs 10))
          (toSize (mxGetScalar (prhs 11))))) := by
  refine ⟨?_, ?_, ?_, ?_, ?_, ?_, ?_, ?_, ?_⟩
  · unfold mexFunctionDLP
    constructor
    · rintro ⟨msg, h⟩
      by_contra hc
      simp only [not_or, not_not] at hc
      obtain ⟨c1, c2, c3, c4, c5, c6, c7⟩ := hc
      simp [c1, c2, c3, c4, c5, c6, c7] at h
    · intro hc
      split_ifs <;> first | exact ⟨_, rfl⟩ | (exfalso; tauto)
  · intro h1
    simp [mexFunctionDLP, h1]
  · intro h1 h2
    simp [mexFunctionDLP, h1, h2]
  · intro h1 h2 h3
    simp [mexFunctionDLP, h1, h2, h3]
  · intro h1 h2 h3 h4
    simp [mexFunctionDLP, h1, h2, h3, h4]
  · intro h1 h2 h3 h4 h5
    simp [mexFunctionDLP, h1, h2, h3, h4, h5]
  · intro h1 h2 h3 h4 h5 h6
    simp [mexFunctionDLP, h1, h2, h3, h4, h5, h6]
  · intro h1 h2 h3 h4 h5 h6 h7
    simp [mexFunctionDLP, h1, h2, h3, h4, h5, h6, h7]
  · intro h1 h2 h3 h4 h5 h6 h7
    simp [mexFunctionDLP, h1, h2, h3, h4, h5, h6, h7]

/-- Witness for C14: over `ℚ`, a call with `11` arguments ends with the message of the
argument count check. -/
theorem dlp_validation_witness :
    (11 : ℕ) ≠ 12 ∧
    mexFunctionDLP (fun x : ℚ => x) 3 ((fun H1 H2 e1 _ _ _ _ _ _ _ _ _ _ _ _ => (H1, H2, e1)) : SpreadFn ℚ)
        ((fun _ _ _ _ _ _ _ _ _ _ _ _ _ _ _ _ => fun _ => 0) : GatherFn ℚ) (fun g => (g, none)) (fun p => some p.1)
        { v1 := fun _ => 0, v2 := fun _ => 0, e1 := fun _ => 0, Hhat3_im := fun _ => 0,
          Hhat4_im := fun _ => 0, Ht1 := fun _ => 0, Ht2 := fun _ => 0, Ht3 := fun _ => 0,
          Ht4 := fun _ => 0 }
        11 (fun _ => { M := 2, N := 1, pr := fun _ => 0 }) =
      Except.error "Incorrect number of input parameters" :=
  ⟨by decide,
    (dlp_validation (fun x : ℚ => x) 3 ((fun H1 H2 e1 _ _ _ _ _ _ _ _ _ _ _ _ => (H1, H2, e1)) : SpreadFn ℚ)
      ((fun _ _ _ _ _ _ _ _ _ _ _ _ _ _ _ _ => fun _ => 0) : GatherFn ℚ) (fun g => (g, none)) (fun p => some p.1)
      { v1 := fun _ => 0, v2 := fun _ => 0, e1 := fun _ => 0, Hhat3_im := fun _ => 0,
        Hhat4_im := fun _ => 0, Ht1 := fun _ => 0, Ht2 := fun _ => 0, Ht3 := fun _ => 0,
        Ht4 := fun _ => 0 }
      11 (fun _ => { M := 2, N := 1, pr := fun _ => 0 })).2.1 (by decide)⟩

/-- C15, the code on a call with fewer than `11` arguments: `mexFunction` of the SLP kernel
never reads the argument count, so with arrays of two rows and equal column counts in the
slots `0`, `1`, `4` it passes its four checks for every `nrhs` (for instance `nrhs = 10`,
`P` missing) and runs the kernel on whatever the slots `prhs[5..10]` hold. -/
theorem slp_accepts_missing_arguments (exp : K → K) (fft2 : Grid K → Grid K × Option (Grid K))
    (ifft2 : Grid K × Grid K → Option (Grid K)) (e1new Ht1new Ht2new : Grid K) (nrhs : ℕ)
    (junk : ℕ → K) :
    mexFunctionSLP exp fft2 ifft2 e1new Ht1new Ht2new nrhs
        (fun _ => { M := 2, N := 1, pr := junk }) =
      Except.ok (computeVelocity exp fft2 ifft2 e1new Ht1new Ht2new junk junk 1 1 (junk 0)
        (junk 0) junk (toSize (junk 0)) (toSize (junk 0)) (junk 0) (junk 0) (junk 0)
        (toSize (junk 0))) := by
  simp [mexFunctionSLP, mxGetScalar]

end DlpStages

/-! ## Spreading as a sum over the sources -/

section SpreadOrder

variable {K : Type} [LinearOrderedField K]

/-- What source `k` adds to cell `i` of a grid channel, for the force component `c`: the
sum over the stencil offsets mapped to `i` of the weight times `c`. -/
theorem spreadSource_apply (e1 : Grid K) (pl : Placement K) (f0 f1 : K) (P M_x M_y : ℕ)
    (H : Grid K × Grid K) (i : ℤ) :
    (spreadSource e1 pl f0 f1 P M_x M_y H).1 i = H.1 i +
        ∑ x in Finset.range (P + 1), ∑ y in Finset.range (P + 1),
          (if spreadIdx P M_x M_y pl.mx pl.my x y = i then
            stencilWeight e1 pl.ex pl.e4y pl.e3x pl.e3y x y * f0 else 0) ∧
    (spreadSource e1 pl f0 f1 P M_x M_y H).2 i = H.2 i +
        ∑ x in Finset.range (P + 1), ∑ y in Finset.range (P + 1),
          (if spreadIdx P M_x M_y pl.mx pl.my x y = i then
            stencilWeight e1 pl.ex pl.e4y pl.e3x pl.e3y x y * f1 else 0) := by
  rw [spreadSource_eq]
  exact spreadAt_eq_sum e1 pl.ex pl.e4y pl.e3x pl.e3y f0 f1 P _ H i

variable [FloorRing K]

/-- The grids of the spreading stage, cell by cell, as sums over the sources. -/
theorem spread_eq_sum (exp : K → K) (e1 : Grid K) (psrc f : ℕ → K) (Nsrc : ℕ)
    (xi eta w L_x L_y h_x h_y : K) (P M_x M_y : ℕ) (i : ℤ) :
    (spread exp e1 psrc f Nsrc xi eta w L_x L_y h_x h_y P M_x M_y).1 i =
      ∑ k in Finset.range Nsrc, ∑ x in Finset.range (P + 1), ∑ y in Finset.range (P + 1),
        (if spreadIdx P M_x M_y (spreadPlacement exp psrc k xi eta w L_x L_y h_x h_y P).mx
            (spreadPlacement exp psrc k xi eta w L_x L_y h_x h_y P).my x y = i then
          stencilWeight e1 (spreadPlacement exp psrc k xi eta w L_x L_y h_x h_y P).ex
            (spreadPlacement exp psrc k xi eta w L_x L_y h_x h_y P).e4y
            (spreadPlacement exp psrc k xi eta w L_x L_y h_x h_y P).e3x
            (spreadPlacement exp psrc k xi eta w L_x L_y h_x h_y P).e3y x y * f (2 * k)
        else 0) ∧
    (spread exp e1 psrc f Nsrc xi eta w L_x L_y h_x h_y P M_x M_y).2 i =
      ∑ k in Finset.range Nsrc, ∑ x in Finset.range (P + 1), ∑ y in Finset.range (P + 1),
        (if spreadIdx P M_x M_y (spreadPlacement exp psrc k xi eta w L_x L_y h_x h_y P).mx
            (spreadPlacement exp psrc k xi eta w L_x L_y h_x h_y P).my x y = i then
          stencilWeight e1 (spreadPlacement exp psrc k xi eta w L_x L_y h_x h_y P).ex
            (spreadPlacement exp psrc k xi eta w L_x L_y h_x h_y P).e4y
            (spreadPlacement exp psrc k xi eta w L_x L_y h_x h_y P).e3x
            (spreadPlacement exp psrc k xi eta w L_x L_y h_x h_y P).e3y x y * f (2 * k + 1)
        else 0) := by
  unfold spread
  induction Nsrc with
  | zero => simp [forLoop_zero, Grid.zero]
  | succ m ih =>
    rw [forLoop_succ]
    obtain ⟨a1, a2⟩ := spreadSource_apply e1
      (spreadPlacement exp psrc m xi eta w L_x L_y h_x h_y P) (f (2 * m)) (f (2 * m + 1))
      P M_x M_y
      (forLoop m (fun k H =>
        spreadSource e1 (spreadPlacement exp psrc k xi eta w L_x L_y h_x h_y P)
          (f (2 * k)) (f (2 * k + 1)) P M_x M_y H) (Grid.zero, Grid.zero)) i
    rw [a1, a2, ih.1, ih.2, Finset.sum_range_succ _ m, Finset.sum_range_succ _ m]
    exact ⟨rfl, rfl⟩

end SpreadOrder

/-! ## Unequal grid spacings -/

section AxisSpacing

/-- The weight of a stencil offset as one exponential, for arbitrary spacings and width. -/
theorem stencilWeight_exp (psrc : ℕ → ℝ) (k : ℕ) (xi eta w L_x L_y h_x h_y : ℝ) (P : ℕ)
    (e1new : Grid ℝ) (x y : ℕ) (hx : x ≤ 2 * (P / 2)) (hy : y ≤ 2 * (P / 2)) :
    stencilWeight (e1Table Real.exp xi eta h_x h_y P e1new)
        (spreadPlacement Real.exp psrc k xi eta w L_x L_y h_x h_y P).ex
        (spreadPlacement Real.exp psrc k xi eta w L_x L_y h_x h_y P).e4y
        (spreadPlacement Real.exp psrc k xi eta w L_x L_y h_x h_y P).e3x
        (spreadPlacement Real.exp psrc k xi eta w L_x L_y h_x h_y P).e3y x y =
      Real.exp (-(2 * xi ^ 2 / eta) *
        ((spreadPlacement Real.exp psrc k xi eta w L_x L_y h_x h_y P).px ^ 2 +
          (spreadPlacement Real.exp psrc k xi eta w L_x L_y h_x h_y P).py ^ 2 +
          2 * w * (spreadPlacement Real.exp psrc k xi eta w L_x L_y h_x h_y P).px +
          2 * w * (spreadPlacement Real.exp psrc k xi eta w L_x L_y h_x h_y P).py -
          2 * h_x * (spreadPlacement Real.exp psrc k xi eta w L_x L_y h_x h_y P).px * (x : ℝ) -
          2 * h_y * (spreadPlacement Real.exp psrc k xi eta w L_x L_y h_x h_y P).py * (y : ℝ) +
          h_x * h_y * (((x : ℝ) - ((P / 2 : ℕ) : ℝ)) ^ 2 + ((y : ℝ) - ((P / 2 : ℕ) : ℝ)) ^ 2))) := by
  rw [stencilWeight_eq, e1Table_apply _ _ _ _ _ _ _ x hx, e1Table_apply _ _ _ _ _ _ _ y hy,
    spreadPlacement_eq]
  simp only []
  rw [← Real.exp_nat_mul, ← Real.exp_nat_mul, ← Real.exp_add, ← Real.exp_add, ← Real.exp_add,
    ← Real.exp_add, ← Real.exp_add]
  congr 1
  generalize P / 2 = m
  push_cast
  ring

end AxisSpacing

/-! ## Symmetry of the filtered stress spectrum -/

section StressSymmetry

variable {K : Type} [Field K]

/-- C20: symmetric stress spectrum.  At every mode `(j, r)` reached by the loops of the DLP
filter, and for every input, the filtered off-diagonal channels are equal (`Hhat2 = Hhat3`,
real parts and imaginary parts).  At the reached modes other than `(0,0)`, with `a`, `b`,
`c`, `d` the four input values of the mode, `Q = k1²a + k1k2·b + k2k1·c + k2²d`,
`e = exp(-Ksq(1-η)/(4ξ²))` and `A = 1/Ksq + 0.25/ξ²`, the off-diagonal value is
`-e·A·(…)`, the viscous bracket alone, while the diagonal channels `1` and `4` are
`e·(Q/Ksq - A·(…))`, with the projector term `Q/Ksq` added (real parts shown for the
diagonal). -/
theorem dlp_offdiagonal_symmetric (exp : K → K) (pi xi eta Lx Ly : K) (Mx My : ℕ)
    (s : DlpHat K) (j r : ℕ) (hMy : 1 ≤ My) (hj : j < Mx) (hr : r < rowsReached My) :
    let i : ℤ := (j : ℤ) * (My : ℤ) + (r : ℤ)
    let k1 : K := 2 * pi / Lx * ((colWave Mx j : ℤ) : K)
    let k2 : K := 2 * pi / Ly * ((rowWave My r : ℤ) : K)
    let Ksq : K := k1 * k1 + k2 * k2
    let e : K := exp (-Ksq * (1 - eta) / (4 * xi * xi))
    let A : K := 1 / Ksq + 0.25 / (xi * xi)
    let Qre : K := k1 * k1 * s.re1 i + k1 * k2 * s.re2 i + k2 * k1 * s.re3 i + k2 * k2 * s.re4 i
    let Qim : K := k1 * k1 * s.im1 i + k1 * k2 * s.im2 i + k2 * k1 * s.im3 i + k2 * k2 * s.im4 i
    let u := dlpFilter exp pi xi eta Lx Ly Mx My s
    (u.re2 i = u.re3 i ∧ u.im2 i = u.im3 i) ∧
    (¬ (j = 0 ∧ r = 0) →
      u.re2 i = -e * A * (2 * k1 * k2 * (s.re1 i + s.re4 i) +
        k2 * (k1 * s.re1 i + k2 * s.re2 i) + k2 * (k1 * s.re1 i + k2 * s.re3 i) +
        k1 * (k1 * s.re3 i + k2 * s.re4 i) + k1 * (k1 * s.re2 i + k2 * s.re4 i) -
        4 * k1 * k2 * Qre / Ksq) ∧
      u.im2 i = -e * A * (2 * k1 * k2 * (s.im1 i + s.im4 i) +
        k2 * (k1 * s.im1 i + k2 * s.im2 i) + k2 * (k1 * s.im1 i + k2 * s.im3 i) +
        k1 * (k1 * s.im3 i + k2 * s.im4 i) + k1 * (k1 * s.im2 i + k2 * s.im4 i) -
        4 * k1 * k2 * Qim / Ksq) ∧
      u.re1 i = e * (Qre / Ksq - A * (2 * k1 * k1 * (s.re1 i + s.re4 i) +
        2 * k1 * (k1 * s.re1 i + k2 * s.re2 i) + 2 * k1 * (k1 * s.re1 i + k2 * s.re3 i) -
        4 * k1 * k1 * Qre / Ksq)) ∧
      u.re4 i = e * (Qre / Ksq - A * (2 * k2 * k2 * (s.re1 i + s.re4 i) +
        2 * k2 * (k1 * s.re3 i + k2 * s.re4 i) + 2 * k2 * (k1 * s.re2 i + k2 * s.re4 i) -
        4 * k2 * k2 * Qre / Ksq))) := by
  intro i k1 k2 Ksq e A Qre Qim u
  by_cases h0 : j = 0 ∧ r = 0
  · obtain ⟨rfl, rfl⟩ := h0
    refine ⟨?_, fun h => absurd ⟨rfl, rfl⟩ h⟩
    simp [i, u, dlpFilter, Grid.set]
  · have h := dlpFilter_cell exp pi xi eta Lx Ly Mx My hMy s j r hj hr h0
    simp only [DlpHat.cell, dlpCellMap, dlpFilterMode, Grid.set, if_true, Prod.mk.injEq] at h
    obtain ⟨⟨h1, h2, h3, h4⟩, h5, h6, h7, h8⟩ := h
    have one : (1.0 : K) = 1 := by norm_num
    have g3 : u.re2 i = -e * A * (2 * k1 * k2 * (s.re1 i + s.re4 i) +
        k2 * (k1 * s.re1 i + k2 * s.re2 i) + k2 * (k1 * s.re1 i + k2 * s.re3 i) +
        k1 * (k1 * s.re3 i + k2 * s.re4 i) + k1 * (k1 * s.re2 i + k2 * s.re4 i) -
        4 * k1 * k2 * Qre / Ksq) := by
      rw [show u.re2 i = _ from h3, one]
      simp only [e, A, Qre, Ksq, i, k1, k2]
      ring
    have g4 : u.im2 i = -e * A * (2 * k1 * k2 * (s.im1 i + s.im4 i) +
        k2 * (k1 * s.im1 i + k2 * s.im2 i) + k2 * (k1 * s.im1 i + k2 * s.im3 i) +
        k1 * (k1 * s.im3 i + k2 * s.im4 i) + k1 * (k1 * s.im2 i + k2 * s.im4 i) -
        4 * k1 * k2 * Qim / Ksq) := by
      rw [show u.im2 i = _ from h4, one]
      simp only [e, A, Qim, Ksq, i, k1, k2]
      ring
    have g5 : u.re3 i = u.re2 i := by
      rw [g3, show u.re3 i = _ from h5, one]
      simp only [e, A, Qre, Ksq, i, k1, k2]
      ring
    have g6 : u.im3 i = u.im2 i := by
      rw [g4, show u.im3 i = _ from h6, one]
      simp only [e, A, Qim, Ksq, i, k1, k2]
      ring
    refine ⟨⟨g5.symm, g6.symm⟩, fun _ => ⟨g3, g4, ?_, ?_⟩⟩
    · rw [show u.re1 i = _ from h1, one]
      simp only [e, A, Qre, Ksq, i, k1, k2]
      ring
    · rw [show u.re4 i = _ from h7, one]
      simp only [e, A, Qre, Ksq, i, k1, k2]
      ring

/-- Witness for C20: the mode `(1,1)` of a `2 × 2` grid over `ℚ`. -/
theorem dlp_offdiagonal_symmetric_witness :
    (1 ≤ 2 ∧ 1 < 2 ∧ 1 < rowsReached 2) ∧
    (dlpFilter (fun x : ℚ => x) 3 1 1 1 1 2 2
      { re1 := fun _ => 1, im1 := fun _ => 2, re2 := fun _ => 3, im2 := fun _ => 4,
        re3 := fun _ => 5, im3 := fun _ => 6, re4 := fun _ => 7, im4 := fun _ => 8 }).re2
        (((1 : ℕ) : ℤ) * ((2 : ℕ) : ℤ) + ((1 : ℕ) : ℤ)) =
      (dlpFilter (fun x : ℚ => x) 3 1 1 1 1 2 2
      { re1 := fun _ => 1, im1 := fun _ => 2, re2 := fun _ => 3, im2 := fun _ => 4,
        re3 := fun _ => 5, im3 := fun _ => 6, re4 := fun _ => 7, im4 := fun _ => 8 }).re3
        (((1 : ℕ) : ℤ) * ((2 : ℕ) : ℤ) + ((1 : ℕ) : ℤ)) :=
  ⟨by decide,
    (dlp_offdiagonal_symmetric (fun x : ℚ => x) 3 1 1 1 1 2 2
      { re1 := fun _ => 1, im1 := fun _ => 2, re2 := fun _ => 3, im2 := fun _ => 4,
        re3 := fun _ => 5, im3 := fun _ => 6, re4 := fun _ => 7, im4 := fun _ => 8 } 1 1
      (by decide) (by decide) (by decide)).1.1⟩

end StressSymmetry

/-! ## Grid accesses of points of the primary cell -/

section PrimaryCell

variable {K : Type} [LinearOrderedField K] [FloorRing K]

/-- For a point of the primary cell `[-L/2, L/2]` and `h = L/M`, the base index before
`P/2` is subtracted lies in `[0, M]`. -/
theorem gridMapperBase_primary (p L : K) (M P : ℕ) (hM : 1 ≤ M) (hL : 0 < L)
    (h1 : -(L / 2) ≤ p) (h2 : p ≤ L / 2) :
    -((P / 2 : ℕ) : ℤ) ≤ gridMapperBase p L (L / (M : K)) P ∧
      gridMapperBase p L (L / (M : K)) P ≤ (M : ℤ) - ((P / 2 : ℕ) : ℤ) := by
  have hMpos : (0 : K) < (M : K) := by exact_mod_cast hM
  have hh : (0 : K) < L / (M : K) := div_pos hL hMpos
  have ht0 : 0 ≤ (p + L / 2) / (L / (M : K)) := div_nonneg (by linarith) hh.le
  have htM : (p + L / 2) / (L / (M : K)) ≤ (M : K) := by
    rw [div_le_iff₀ hh]
    have e : (M : K) * (L / (M : K)) = L := by field_simp
    rw [e]
    linarith
  unfold gridMapperBase
  simp only []
  generalize (p + L / 2) / (L / (M : K)) = t at ht0 htM
  split_ifs with hs hp
  · have r0 : 0 ≤ round t := by
      rw [round_eq]
      exact Int.floor_nonneg.mpr (by linarith)
    have r1 : round t ≤ (M : ℤ) := by
      rw [round_eq]
      have : ⌊t + 1 / 2⌋ < (M : ℤ) + 1 := by
        rw [Int.floor_lt]
        push_cast
        linarith
      omega
    constructor <;> omega
  · have tpos : 0 < t := by
      rcases ht0.lt_or_eq with h | h
      · exact h
      · exfalso
        apply hs
        rw [← h]
        simp
        norm_num
    have c0 : -1 < ⌈t - 1⌉ := by
      rw [Int.lt_ceil]
      push_cast
      linarith
    have c1 : ⌈t - 1⌉ ≤ (M : ℤ) - 1 := by
      rw [Int.ceil_le]
      push_cast
      linarith
    constructor <;> omega
  · have f0 : 0 ≤ ⌊t⌋ := Int.floor_nonneg.mpr ht0
    have f1 : ⌊t⌋ ≤ (M : ℤ) := by
      have := Int.floor_le t
      have h3 : ((⌊t⌋ : ℤ) : K) ≤ ((M : ℤ) : K) := by
        push_cast
        linarith
      exact_mod_cast h3
    constructor <;> omega

/-- A wrapped index is the mathematical remainder, so it lies in `[0, M)`, once
`x + m + M` is not negative. -/
theorem tmod_window_mem (M : ℕ) (m : ℤ) (x : ℕ) (hM : 1 ≤ M) (hm : 0 ≤ m + (M : ℤ)) :
    0 ≤ Int.tmod ((x : ℤ) + m + (M : ℤ)) (M : ℤ) ∧
      Int.tmod ((x : ℤ) + m + (M : ℤ)) (M : ℤ) < (M : ℤ) := by
  rw [Int.tmod_eq_emod (by omega) (by omega)]
  exact ⟨Int.emod_nonneg _ (by omega), Int.emod_lt_of_pos _ (by omega)⟩

/-- A flat index `a·M_y + b` with `a` in `[0, M_x)` and `b` in `[0, M_y)` lies in
`[0, M_x·M_y)`. -/
theorem flat_index_mem (M_x M_y : ℕ) (a b : ℤ) (ha : 0 ≤ a ∧ a < (M_x : ℤ))
    (hb : 0 ≤ b ∧ b < (M_y : ℤ)) :
    0 ≤ a * (M_y : ℤ) + b ∧ a * (M_y : ℤ) + b < (M_x : ℤ) * (M_y : ℤ) := by
  obtain ⟨a0, a1⟩ := ha
  obtain ⟨b0, b1⟩ := hb
  have hy : (0 : ℤ) ≤ (M_y : ℤ) := by omega
  constructor
  · have := mul_nonneg a0 hy
    omega
  · have h1 : (a + 1) * (M_y : ℤ) ≤ (M_x : ℤ) * (M_y : ℤ) :=
      mul_le_mul_of_nonneg_right (by omega) hy
    have h2 : (a + 1) * (M_y : ℤ) = a * (M_y : ℤ) + (M_y : ℤ) := by ring
    omega

theorem spreadIdx_eq_wrapIdx (P M_x M_y : ℕ) (mx my : ℤ) (x y : ℕ) (hy : y ≤ P) :
    spreadIdx P M_x M_y mx my x y = wrapIdx M_x M_y mx my x y := by
  unfold spreadIdx
  split_ifs with hc
  · unfold wrapIdx
    have e : Int.tmod ((y : ℤ) + my + (M_y : ℤ)) (M_y : ℤ) = (y : ℤ) + my := by
      rw [Int.tmod_eq_emod (by omega) (by omega), emod_window M_y my y hc.1 (by omega)]
    rw [e]
    ring
  · rfl

end PrimaryCell

section InBounds

variable {K : Type} [LinearOrderedField K] [FloorRing K]

/-- C21: in-bounds grid access.  For `M_x, M_y ≥ 1`, `L_x, L_y > 0`, spacings `h = L/M`,
`P/2 ≤ M_x`, `P/2 ≤ M_y` and a point `k` with both coordinates in the primary cell
`[-L/2, L/2]`, every wrapped index `(x + mx + M_x) % M_x` and `(y + my + M_y) % M_y`
(`%` the C remainder) for `x, y = 0..P` lies in `[0, M)`; the index the spreader writes
and the index the gatherer reads at stencil offset `(x, y)`, on the contiguous and on the
wrapped path, is `((x+mx+M_x)%M_x)·M_y + ((y+my+M_y)%M_y)` and lies in `[0, M_x·M_y)`. -/
theorem in_bounds_grid_access (exp : K → K) (p : ℕ → K) (k : ℕ) (xi eta w L_x L_y : K)
    (P M_x M_y : ℕ) (hMx : 1 ≤ M_x) (hMy : 1 ≤ M_y) (hLx : 0 < L_x) (hLy : 0 < L_y)
    (hPx : P / 2 ≤ M_x) (hPy : P / 2 ≤ M_y)
    (hx1 : -(L_x / 2) ≤ p (2 * k)) (hx2 : p (2 * k) ≤ L_x / 2)
    (hy1 : -(L_y / 2) ≤ p (2 * k + 1)) (hy2 : p (2 * k + 1) ≤ L_y / 2)
    (x y : ℕ) (hx : x ≤ P) (hy : y ≤ P) :
    (0 ≤ Int.tmod ((x : ℤ) + (spreadPlacement exp p k xi eta w L_x L_y (L_x / (M_x : K)) (L_y / (M_y : K)) P).mx + (M_x : ℤ)) (M_x : ℤ) ∧
      Int.tmod ((x : ℤ) + (spreadPlacement exp p k xi eta w L_x L_y (L_x / (M_x : K)) (L_y / (M_y : K)) P).mx + (M_x : ℤ)) (M_x : ℤ) < (M_x : ℤ)) ∧
    (0 ≤ Int.tmod ((y : ℤ) + (spreadPlacement exp p k xi eta w L_x L_y (L_x / (M_x : K)) (L_y / (M_y : K)) P).my + (M_y : ℤ)) (M_y : ℤ) ∧
      Int.tmod ((y : ℤ) + (spreadPlacement exp p k xi eta w L_x L_y (L_x / (M_x : K)) (L_y / (M_y : K)) P).my + (M_y : ℤ)) (M_y : ℤ) < (M_y : ℤ)) ∧
    (spreadIdx P M_x M_y (spreadPlacement exp p k xi eta w L_x L_y (L_x / (M_x : K)) (L_y / (M_y : K)) P).mx
        (spreadPlacement exp p k xi eta w L_x L_y (L_x / (M_x : K)) (L_y / (M_y : K)) P).my x y =
      Int.tmod ((x : ℤ) + (spreadPlacement exp p k xi eta w L_x L_y (L_x / (M_x : K)) (L_y / (M_y : K)) P).mx + (M_x : ℤ)) (M_x : ℤ) * (M_y : ℤ) +
        Int.tmod ((y : ℤ) + (spreadPlacement exp p k xi eta w L_x L_y (L_x / (M_x : K)) (L_y / (M_y : K)) P).my + (M_y : ℤ)) (M_y : ℤ) ∧
      0 ≤ spreadIdx P M_x M_y (spreadPlacement exp p k xi eta w L_x L_y (L_x / (M_x : K)) (L_y / (M_y : K)) P).mx
        (spreadPlacement exp p k xi eta w L_x L_y (L_x / (M_x : K)) (L_y / (M_y : K)) P).my x y ∧
      spreadIdx P M_x M_y (spreadPlacement exp p k xi eta w L_x L_y (L_x / (M_x : K)) (L_y / (M_y : K)) P).mx
        (spreadPlacement exp p k xi eta w L_x L_y (L_x / (M_x : K)) (L_y / (M_y : K)) P).my x y < (M_x : ℤ) * (M_y : ℤ)) ∧
    (gatherIdx P M_x M_y (gatherPlacement exp p k xi eta w L_x L_y (L_x / (M_x : K)) (L_y / (M_y : K)) P).mx
        (gatherPlacement exp p k xi eta w L_x L_y (L_x / (M_x : K)) (L_y / (M_y : K)) P).my x y =
      Int.tmod ((x : ℤ) + (spreadPlacement exp p k xi eta w L_x L_y (L_x / (M_x : K)) (L_y / (M_y : K)) P).mx + (M_x : ℤ)) (M_x : ℤ) * (M_y : ℤ) +
        Int.tmod ((y : ℤ) + (spreadPlacement exp p k xi eta w L_x L_y (L_x / (M_x : K)) (L_y / (M_y : K)) P).my + (M_y : ℤ)) (M_y : ℤ) ∧
      0 ≤ gatherIdx P M_x M_y (gatherPlacement exp p k xi eta w L_x L_y (L_x / (M_x : K)) (L_y / (M_y : K)) P).mx
        (gatherPlacement exp p k xi eta w L_x L_y (L_x / (M_x : K)) (L_y / (M_y : K)) P).my x y ∧
      gatherIdx P M_x M_y (gatherPlacement exp p k xi eta w L_x L_y (L_x / (M_x : K)) (L_y / (M_y : K)) P).mx
        (gatherPlacement exp p k xi eta w L_x L_y (L_x / (M_x : K)) (L_y / (M_y : K)) P).my x y < (M_x : ℤ) * (M_y : ℤ)) := by
  rw [gatherPlacement_eq_spreadPlacement, spreadPlacement_eq]
  simp only []
  obtain ⟨bx0, _⟩ := gridMapperBase_primary (p (2 * k)) L_x M_x P hMx hLx hx1 hx2
  obtain ⟨by0, _⟩ := gridMapperBase_primary (p (2 * k + 1)) L_y M_y P hMy hLy hy1 hy2
  generalize gridMapperBase (p (2 * k)) L_x (L_x / (M_x : K)) P = mx at bx0
  generalize gridMapperBase (p (2 * k + 1)) L_y (L_y / (M_y : K)) P = my at by0
  have hmx : 0 ≤ mx + (M_x : ℤ) := by omega
  have hmy : 0 ≤ my + (M_y : ℤ) := by omega
  have ax := tmod_window_mem M_x mx x hMx hmx
  have ay := tmod_window_mem M_y my y hMy hmy
  have fl := flat_index_mem M_x M_y _ _ ax ay
  have es : spreadIdx P M_x M_y mx my x y =
      Int.tmod ((x : ℤ) + mx + (M_x : ℤ)) (M_x : ℤ) * (M_y : ℤ) +
        Int.tmod ((y : ℤ) + my + (M_y : ℤ)) (M_y : ℤ) := by
    rw [spreadIdx_eq_wrapIdx P M_x M_y mx my x y hy]
    unfold wrapIdx
    ring
  have eg : gatherIdx P M_x M_y mx my x y =
      Int.tmod ((x : ℤ) + mx + (M_x : ℤ)) (M_x : ℤ) * (M_y : ℤ) +
        Int.tmod ((y : ℤ) + my + (M_y : ℤ)) (M_y : ℤ) := by
    rw [gatherIdx_eq_wrapIdx P M_x M_y mx my x y hx hy]
    unfold wrapIdx
    ring
  refine ⟨ax, ay, ⟨es, ?_, ?_⟩, ⟨eg, ?_, ?_⟩⟩
  · rw [es]; exact fl.1
  · rw [es]; exact fl.2
  · rw [eg]; exact fl.1
  · rw [eg]; exact fl.2

/-- Witness for C21: over `ℚ`, the point `(-2, 2)` on the boundary of the primary cell of a
`4 × 4` grid with `L = 4`, `P = 2`, stencil offset `(2, 1)`: the index the spreader writes
lies in `[0, 16)`. -/
theorem in_bounds_grid_access_witness :
    (1 ≤ 4 ∧ (0 : ℚ) < 4 ∧ 2 / 2 ≤ 4 ∧ -((4 : ℚ) / 2) ≤ -2 ∧ (2 : ℚ) ≤ 4 / 2) ∧
    0 ≤ spreadIdx 2 4 4
        (spreadPlacement (fun x : ℚ => x) (fun i => if i = 0 then -2 else 2) 0 1 1 1 4 4
          (4 / ((4 : ℕ) : ℚ)) (4 / ((4 : ℕ) : ℚ)) 2).mx
        (spreadPlacement (fun x : ℚ => x) (fun i => if i = 0 then -2 else 2) 0 1 1 1 4 4
          (4 / ((4 : ℕ) : ℚ)) (4 / ((4 : ℕ) : ℚ)) 2).my 2 1 ∧
      spreadIdx 2 4 4
        (spreadPlacement (fun x : ℚ => x) (fun i => if i = 0 then -2 else 2) 0 1 1 1 4 4
          (4 / ((4 : ℕ) : ℚ)) (4 / ((4 : ℕ) : ℚ)) 2).mx
        (spreadPlacement (fun x : ℚ => x) (fun i => if i = 0 then -2 else 2) 0 1 1 1 4 4
          (4 / ((4 : ℕ) : ℚ)) (4 / ((4 : ℕ) : ℚ)) 2).my 2 1 < ((4 : ℕ) : ℤ) * ((4 : ℕ) : ℤ) :=
  ⟨⟨by decide, by norm_num, by decide, by norm_num, by norm_num⟩,
    (in_bounds_grid_access (fun x : ℚ => x) (fun i => if i = 0 then -2 else 2) 0 1 1 1 4 4
      2 4 4 (by decide) (by decide) (by norm_num) (by norm_num) (by decide) (by decide)
      (by norm_num) (by norm_num) (by norm_num) (by norm_num) 2 1 (by decide)
      (by decide)).2.2.1.2⟩

end InBounds

/-! ## The write burst of one stencil column -/

section ColumnBurst

variable {K : Type} [LinearOrderedField K]

/-- The column loop of the spreader runs the write bursts one after the other. -/
theorem spreadSource_eq_columns (e1 : Grid K) (pl : Placement K) (f0 f1 : K) (P M_x M_y : ℕ)
    (H : Grid K × Grid K) :
    spreadSource e1 pl f0 f1 P M_x M_y H =
      ((forLoop (P + 1) (fun x (s : SpreadSt K) =>
          { ex := s.ex * pl.e3x,
            H1 := (spreadColumn e1 pl f0 f1 P M_x M_y x s.ex (s.H1, s.H2)).1,
            H2 := (spreadColumn e1 pl f0 f1 P M_x M_y x s.ex (s.H1, s.H2)).2 })
          { ex := pl.ex, H1 := H.1, H2 := H.2 }).H1,
        (forLoop (P + 1) (fun x (s : SpreadSt K) =>
          { ex := s.ex * pl.e3x,
            H1 := (spreadColumn e1 pl f0 f1 P M_x M_y x s.ex (s.H1, s.H2)).1,
            H2 := (spreadColumn e1 pl f0 f1 P M_x M_y x s.ex (s.H1, s.H2)).2 })
          { ex := pl.ex, H1 := H.1, H2 := H.2 }).H2) := rfl

/-- A write burst is the row loop at the indices `spreadIdx` of its column. -/
theorem spreadColumn_eq (e1 : Grid K) (pl : Placement K) (f0 f1 : K) (P M_x M_y : ℕ) (x : ℕ)
    (ex : K) (H : Grid K × Grid K) :
    spreadColumn e1 pl f0 f1 P M_x M_y x ex H =
      ((spreadRowAt e1 pl.e3y f0 f1 P (spreadIdx P M_x M_y pl.mx pl.my x)
          { ey := ex * pl.e4y * e1 (x : ℤ), H1 := H.1, H2 := H.2 }).H1,
        (spreadRowAt e1 pl.e3y f0 f1 P (spreadIdx P M_x M_y pl.mx pl.my x)
          { ey := ex * pl.e4y * e1 (x : ℤ), H1 := H.1, H2 := H.2 }).H2) := by
  unfold spreadColumn
  by_cases hc : pl.my ≥ 0 ∧ pl.my < (M_y : ℤ) - (P : ℤ) - 1
  · have e : spreadIdx P M_x M_y pl.mx pl.my x = fun y : ℕ =>
        pl.my + Int.tmod ((x : ℤ) + pl.mx + (M_x : ℤ)) (M_x : ℤ) * (M_y : ℤ) + (y : ℤ) := by
      funext y
      unfold spreadIdx
      rw [if_pos hc]
    simp only [if_pos hc, spreadRowFast_eq, e]
  · have e : spreadIdx P M_x M_y pl.mx pl.my x = fun y : ℕ =>
        Int.tmod ((y : ℤ) + pl.my + (M_y : ℤ)) (M_y : ℤ) +
          Int.tmod ((x : ℤ) + pl.mx + (M_x : ℤ)) (M_x : ℤ) * (M_y : ℤ) := by
      funext y
      unfold spreadIdx wrapIdx
      rw [if_neg hc]
    simp only [if_neg hc, spreadRowWrap_eq, e]

/-- The cells a write burst changes, and by how much. -/
theorem spreadColumn_apply (e1 : Grid K) (pl : Placement K) (f0 f1 : K) (P M_x M_y : ℕ)
    (x : ℕ) (ex : K) (H : Grid K × Grid K) (i : ℤ) :
    (spreadColumn e1 pl f0 f1 P M_x M_y x ex H).1 i = H.1 i +
        ∑ y in Finset.range (P + 1),
          (if spreadIdx P M_x M_y pl.mx pl.my x y = i then
            ex * pl.e4y * e1 (x : ℤ) * pl.e3y ^ y * e1 (y : ℤ) * f0 else 0) ∧
    (spreadColumn e1 pl f0 f1 P M_x M_y x ex H).2 i = H.2 i +
        ∑ y in Finset.range (P + 1),
          (if spreadIdx P M_x M_y pl.mx pl.my x y = i then
            ex * pl.e4y * e1 (x : ℤ) * pl.e3y ^ y * e1 (y : ℤ) * f1 else 0) := by
  rw [spreadColumn_eq]
  obtain ⟨_, h1, h2⟩ := spreadRowAt_eq_sum e1 pl.e3y f0 f1 P
    (spreadIdx P M_x M_y pl.mx pl.my x)
    { ey := ex * pl.e4y * e1 (x : ℤ), H1 := H.1, H2 := H.2 }
  exact ⟨h1 i, h2 i⟩

/-- The index written at row `y` of stencil column `x` lies in the locked column, once
`my + M_y` is not negative. -/
theorem spreadIdx_mem_column (P M_x M_y : ℕ) (mx my : ℤ) (x y : ℕ) (hy : y ≤ P)
    (hMy : 1 ≤ M_y) (hmy : 0 ≤ my + (M_y : ℤ)) :
    lockIndex M_x mx x * (M_y : ℤ) ≤ spreadIdx P M_x M_y mx my x y ∧
      spreadIdx P M_x M_y mx my x y < (lockIndex M_x mx x + 1) * (M_y : ℤ) := by
  rw [spreadIdx_eq_wrapIdx P M_x M_y mx my x y hy]
  unfold wrapIdx lockIndex
  obtain ⟨a0, a1⟩ := tmod_window_mem M_y my y hMy hmy
  constructor
  · omega
  · have e : (Int.tmod ((x : ℤ) + mx + (M_x : ℤ)) (M_x : ℤ) + 1) * (M_y : ℤ) =
        Int.tmod ((x : ℤ) + mx + (M_x : ℤ)) (M_x : ℤ) * (M_y : ℤ) + (M_y : ℤ) := by ring
    rw [e]
    omega

end ColumnBurst

section ColumnClaim

/-- C22, the code at a source further than one period below the grid: with
`M_x = M_y = 4`, `L = 4` (`h = 1`), `P = 0` and the source `(0, -8)`, the base indices are
`mx = 2`, `my = -6`; for stencil column `x = 0` the lock taken is `(0+2+4)%4 = 2`, the one
index written is `((0-6+4)%4) + 2·4 = -2 + 8 = 6`, which lies below `2·4`, and the burst
changes cell `6` of column `1` (here from `0` to `1`, with unit force and table). -/
theorem locked_column_fails_for_far_source :
    lockIndex 4 (spreadPlacement Real.exp (fun i => if i = 0 then 0 else -8) 0 1 1 1 4 4
        (4 / ((4 : ℕ) : ℝ)) (4 / ((4 : ℕ) : ℝ)) 0).mx 0 = 2 ∧
    spreadIdx 0 4 4
        (spreadPlacement Real.exp (fun i => if i = 0 then 0 else -8) 0 1 1 1 4 4
          (4 / ((4 : ℕ) : ℝ)) (4 / ((4 : ℕ) : ℝ)) 0).mx
        (spreadPlacement Real.exp (fun i => if i = 0 then 0 else -8) 0 1 1 1 4 4
          (4 / ((4 : ℕ) : ℝ)) (4 / ((4 : ℕ) : ℝ)) 0).my 0 0 = 6 ∧
    ¬ (lockIndex 4 (spreadPlacement Real.exp (fun i => if i = 0 then 0 else -8) 0 1 1 1 4 4
          (4 / ((4 : ℕ) : ℝ)) (4 / ((4 : ℕ) : ℝ)) 0).mx 0 * ((4 : ℕ) : ℤ) ≤
        spreadIdx 0 4 4
          (spreadPlacement Real.exp (fun i => if i = 0 then 0 else -8) 0 1 1 1 4 4
            (4 / ((4 : ℕ) : ℝ)) (4 / ((4 : ℕ) : ℝ)) 0).mx
          (spreadPlacement Real.exp (fun i => if i = 0 then 0 else -8) 0 1 1 1 4 4
            (4 / ((4 : ℕ) : ℝ)) (4 / ((4 : ℕ) : ℝ)) 0).my 0 0) ∧
    (spreadColumn (fun _ => 1)
        (spreadPlacement Real.exp (fun i => if i = 0 then 0 else -8) 0 1 1 1 4 4
          (4 / ((4 : ℕ) : ℝ)) (4 / ((4 : ℕ) : ℝ)) 0) 1 1 0 4 4 0
        (spreadPlacement Real.exp (fun i => if i = 0 then 0 else -8) 0 1 1 1 4 4
          (4 / ((4 : ℕ) : ℝ)) (4 / ((4 : ℕ) : ℝ)) 0).ex (Grid.zero, Grid.zero)).1 6 = 1 ∧
    (Grid.zero : Grid ℝ) 6 = 0 := by
  have c : ⌈(-(13 / 2) : ℝ)⌉ = -6 := by
    rw [Int.ceil_eq_iff]
    norm_num
  have hpl : spreadPlacement Real.exp (fun i => if i = 0 then 0 else -8) 0 1 1 1 4 4
      (4 / ((4 : ℕ) : ℝ)) (4 / ((4 : ℕ) : ℝ)) 0 =
      { mx := 2, my := -6, px := 0, py := 0, ex := 1, e4y := 1, e3x := 1, e3y := 1 } := by
    norm_num [spreadPlacement, cround, c]
  rw [hpl]
  refine ⟨by decide, by decide, by decide, ?_, rfl⟩
  have h := (spreadColumn_apply (fun _ => (1 : ℝ))
    { mx := 2, my := -6, px := 0, py := 0, ex := 1, e4y := 1, e3x := 1, e3y := 1 } 1 1 0 4 4 0 1
    (Grid.zero, Grid.zero) 6).1
  have e : spreadIdx 0 4 4 2 (-6) 0 0 = 6 := by decide
  rw [h, Finset.sum_range_one]
  dsimp only
  rw [if_pos e]
  simp [Grid.zero]

end ColumnClaim

/-! ## Real and imaginary parts in the DLP filter -/

section ReIm

variable {K : Type} [Field K]

/-- C23, the code at a processed mode: for every mode `(j, r)` other than `(0,0)` that the
loops of the DLP filter reach, the filtered imaginary parts of the channels 2, 3 and 4 are
the function that gives the filtered real parts, applied to the four input imaginary parts
(`u'` is the filter run on the spectrum with real and imaginary parts exchanged); the
filtered imaginary part of channel 1 is not: it has `2·k1·k2·(f1n1_im + f2n2_im)` where the
real part has `2·k1·k1·(f1n1_re + f2n2_re)` and exceeds that function by
`2·e·A·k1·(k1 - k2)·(f1n1_im + f2n2_im)`, with `e = exp(-Ksq(1-η)/(4ξ²))` and
`A = 1/Ksq + 0.25/ξ²`; the two differ whenever this term is not zero. -/
theorem dlp_first_channel_imaginary_part_differs (exp : K → K) (pi xi eta Lx Ly : K)
    (Mx My : ℕ) (s : DlpHat K) (j r : ℕ) (hMy : 1 ≤ My) (hj : j < Mx)
    (hr : r < rowsReached My) (hne : ¬ (j = 0 ∧ r = 0)) :
    let i : ℤ := (j : ℤ) * (My : ℤ) + (r : ℤ)
    let k1 : K := 2 * pi / Lx * ((colWave Mx j : ℤ) : K)
    let k2 : K := 2 * pi / Ly * ((rowWave My r : ℤ) : K)
    let Ksq : K := k1 * k1 + k2 * k2
    let e : K := exp (-Ksq * (1 - eta) / (4 * xi * xi))
    let A : K := 1 / Ksq + 0.25 / (xi * xi)
    let u := dlpFilter exp pi xi eta Lx Ly Mx My s
    let u' := dlpFilter exp pi xi eta Lx Ly Mx My
      { re1 := s.im1, im1 := s.re1, re2 := s.im2, im2 := s.re2,
        re3 := s.im3, im3 := s.re3, re4 := s.im4, im4 := s.re4 }
    u.im2 i = u'.re2 i ∧ u.im3 i = u'.re3 i ∧ u.im4 i = u'.re4 i ∧
    u.im1 i = u'.re1 i + 2 * e * A * k1 * (k1 - k2) * (s.im1 i + s.im4 i) ∧
    (2 * e * A * k1 * (k1 - k2) * (s.im1 i + s.im4 i) ≠ 0 → u.im1 i ≠ u'.re1 i) := by
  intro i k1 k2 Ksq e A u u'
  have h := dlpFilter_cell exp pi xi eta Lx Ly Mx My hMy s j r hj hr hne
  have h' := dlpFilter_cell exp pi xi eta Lx Ly Mx My hMy
    { re1 := s.im1, im1 := s.re1, re2 := s.im2, im2 := s.re2,
      re3 := s.im3, im3 := s.re3, re4 := s.im4, im4 := s.re4 } j r hj hr hne
  simp only [DlpHat.cell, dlpCellMap, dlpFilterMode, Grid.set, if_true, Prod.mk.injEq] at h h'
  obtain ⟨⟨_, h2, _, h4⟩, _, h6, _, h8⟩ := h
  obtain ⟨⟨g1, _, g3, _⟩, g5, _, g7, _⟩ := h'
  have one : (1.0 : K) = 1 := by norm_num
  have e1 : u.im1 i = u'.re1 i + 2 * e * A * k1 * (k1 - k2) * (s.im1 i + s.im4 i) := by
    rw [show u.im1 i = _ from h2, show u'.re1 i = _ from g1, one]
    simp only [e, A, Ksq, i, k1, k2]
    ring
  refine ⟨?_, ?_, ?_, e1, fun hd he => ?_⟩
  · rw [show u.im2 i = _ from h4, show u'.re2 i = _ from g3]
  · rw [show u.im3 i = _ from h6, show u'.re3 i = _ from g5]
  · rw [show u.im4 i = _ from h8, show u'.re4 i = _ from g7]
  · rw [he] at e1
    exact hd (by simpa using e1.symm)

end ReIm

section ReImWitness

/-- Witness for C23: mode `(1,0)` of a `4 × 4` grid over `ℝ` with `Lx = Ly = 1`,
`ξ = η = 1`, where all four input channels have real part `0` and imaginary part `1`: there
`k1 = 2·pi`, `k2 = 0`, the filtered imaginary part of channel 1 is `1`, and the function of
the real part applied to the imaginary inputs gives `-3 - 4·pi²`. -/
theorem dlp_first_channel_imaginary_part_differs_witness :
    (1 ≤ 4 ∧ 1 < 4 ∧ 0 < rowsReached 4 ∧ ¬ (1 = 0 ∧ 0 = 0)) ∧
    (dlpFilter Real.exp pi 1 1 1 1 4 4
      { re1 := fun _ => 0, im1 := fun _ => 1, re2 := fun _ => 0, im2 := fun _ => 1,
        re3 := fun _ => 0, im3 := fun _ => 1, re4 := fun _ => 0, im4 := fun _ => 1 }).im1
        (((1 : ℕ) : ℤ) * ((4 : ℕ) : ℤ) + ((0 : ℕ) : ℤ)) = 1 ∧
    (dlpFilter Real.exp pi 1 1 1 1 4 4
      { re1 := fun _ => 1, im1 := fun _ => 0, re2 := fun _ => 1, im2 := fun _ => 0,
        re3 := fun _ => 1, im3 := fun _ => 0, re4 := fun _ => 1, im4 := fun _ => 0 }).re1
        (((1 : ℕ) : ℤ) * ((4 : ℕ) : ℤ) + ((0 : ℕ) : ℤ)) = -3 - 4 * pi ^ 2 ∧
    (dlpFilter Real.exp pi 1 1 1 1 4 4
      { re1 := fun _ => 0, im1 := fun _ => 1, re2 := fun _ => 0, im2 := fun _ => 1,
        re3 := fun _ => 0, im3 := fun _ => 1, re4 := fun _ => 0, im4 := fun _ => 1 }).im1
        (((1 : ℕ) : ℤ) * ((4 : ℕ) : ℤ) + ((0 : ℕ) : ℤ)) ≠
      (dlpFilter Real.exp pi 1 1 1 1 4 4
      { re1 := fun _ => 1, im1 := fun _ => 0, re2 := fun _ => 1, im2 := fun _ => 0,
        re3 := fun _ => 1, im3 := fun _ => 0, re4 := fun _ => 1, im4 := fun _ => 0 }).re1
        (((1 : ℕ) : ℤ) * ((4 : ℕ) : ℤ) + ((0 : ℕ) : ℤ)) := by
  have c1 : colWave 4 1 = 1 := by decide
  have c2 : rowWave 4 0 = 0 := by decide
  have h := dlpFilter_cell Real.exp pi 1 1 1 1 4 4 (by decide)
    { re1 := fun _ => 0, im1 := fun _ => 1, re2 := fun _ => 0, im2 := fun _ => 1,
        re3 := fun _ => 0, im3 := fun _ => 1, re4 := fun _ => 0, im4 := fun _ => 1 } 1 0
    (by decide) (by decide) (by decide)
  have h' := dlpFilter_cell Real.exp pi 1 1 1 1 4 4 (by decide)
    { re1 := fun _ => 1, im1 := fun _ => 0, re2 := fun _ => 1, im2 := fun _ => 0,
        re3 := fun _ => 1, im3 := fun _ => 0, re4 := fun _ => 1, im4 := fun _ => 0 } 1 0
    (by decide) (by decide) (by decide)
  simp only [DlpHat.cell, dlpCellMap, dlpFilterMode, Grid.set, if_true, Prod.mk.injEq, c1,
    c2] at h h'
  refine ⟨by decide, ?_, ?_,
    (dlp_first_channel_imaginary_part_differs Real.exp pi 1 1 1 1 4 4
      { re1 := fun _ => 0, im1 := fun _ => 1, re2 := fun _ => 0, im2 := fun _ => 1,
        re3 := fun _ => 0, im3 := fun _ => 1, re4 := fun _ => 0, im4 := fun _ => 1 } 1 0
      (by decide) (by decide) (by decide) (by decide)).2.2.2.2 (by
        simp only [c1, c2]
        norm_num [pi])⟩
  · rw [h.1.2.1]
    norm_num [pi]
  · rw [h'.1.1]
    norm_num [pi]

end ReImWitness

/-! ## The centre of the Gaussian -/

section Centre

/-- C24, the code just below a grid node.  With `M = 2`, `h = 1`, `L = 2`, `P = 0` and the
coordinate `p = -5e-13`: the folded offset is `1 - 5e-13`, `t = (p + L/2)/h = 1 - 5e-13` is
further than `1e-13` from `1`, so the base index is `ceil(t - 1) = 0`, and the offset is
reset to `0` because `|p0 - h| = 5e-13 < 1e-12`; the position reconstructed from the
placement is `0·h - L/2 + 0 = -1`, a whole grid spacing away from `p`.  With `M = 2`,
`h = 100`, `L = 200` and `p = -5e-12`: `t = 1 - 5e-14` is snapped to the base index `1`,
but the offset `100 - 5e-12` is not reset because `|p0 - h| = 5e-12`; the reconstructed
position is `100 - 5e-12`, again a whole grid spacing away from `p`. -/
theorem gaussian_centre_off_by_one_spacing :
    ((spreadPlacement Real.exp (fun _ => -5e-13) 0 1 1 1 2 2 (2 / ((2 : ℕ) : ℝ))
        (2 / ((2 : ℕ) : ℝ)) 0).mx = 0 ∧
      (spreadPlacement Real.exp (fun _ => -5e-13) 0 1 1 1 2 2 (2 / ((2 : ℕ) : ℝ))
        (2 / ((2 : ℕ) : ℝ)) 0).px = 0 ∧
      ¬ (|(-5e-13 : ℝ) -
          ((((spreadPlacement Real.exp (fun _ => -5e-13) 0 1 1 1 2 2 (2 / ((2 : ℕ) : ℝ))
              (2 / ((2 : ℕ) : ℝ)) 0).mx + ((0 / 2 : ℕ) : ℤ) : ℤ) : ℝ) * (2 / ((2 : ℕ) : ℝ)) -
            2 / 2 +
            (spreadPlacement Real.exp (fun _ => -5e-13) 0 1 1 1 2 2 (2 / ((2 : ℕ) : ℝ))
              (2 / ((2 : ℕ) : ℝ)) 0).px)| ≤ 1e-12)) ∧
    ((spreadPlacement Real.exp (fun _ => -5e-12) 0 1 1 1 200 200 (200 / ((2 : ℕ) : ℝ))
        (200 / ((2 : ℕ) : ℝ)) 0).mx = 1 ∧
      (spreadPlacement Real.exp (fun _ => -5e-12) 0 1 1 1 200 200 (200 / ((2 : ℕ) : ℝ))
        (200 / ((2 : ℕ) : ℝ)) 0).px = 100 - 5e-12 ∧
      ¬ (|(-5e-12 : ℝ) -
          ((((spreadPlacement Real.exp (fun _ => -5e-12) 0 1 1 1 200 200 (200 / ((2 : ℕ) : ℝ))
              (200 / ((2 : ℕ) : ℝ)) 0).mx + ((0 / 2 : ℕ) : ℤ) : ℤ) : ℝ) *
              (200 / ((2 : ℕ) : ℝ)) -
            200 / 2 +
            (spreadPlacement Real.exp (fun _ => -5e-12) 0 1 1 1 200 200 (200 / ((2 : ℕ) : ℝ))
              (200 / ((2 : ℕ) : ℝ)) 0).px)| ≤ 1e-12)) := by
  have c1 : ⌈(-(1 / 2000000000000) : ℝ)⌉ = 0 := by
    rw [Int.ceil_eq_iff]
    norm_num
  have m1 : (spreadPlacement Real.exp (fun _ => -5e-13) 0 1 1 1 2 2 (2 / ((2 : ℕ) : ℝ))
      (2 / ((2 : ℕ) : ℝ)) 0).mx = 0 := by
    norm_num [spreadPlacement, cround, c1, abs_of_pos]
  have p1 : (spreadPlacement Real.exp (fun _ => -5e-13) 0 1 1 1 2 2 (2 / ((2 : ℕ) : ℝ))
      (2 / ((2 : ℕ) : ℝ)) 0).px = 0 := by
    norm_num [spreadPlacement, cround, c1, abs_of_pos]
  have m2 : (spreadPlacement Real.exp (fun _ => -5e-12) 0 1 1 1 200 200 (200 / ((2 : ℕ) : ℝ))
      (200 / ((2 : ℕ) : ℝ)) 0).mx = 1 := by
    norm_num [spreadPlacement, cround, c1, abs_of_pos]
  have p2 : (spreadPlacement Real.exp (fun _ => -5e-12) 0 1 1 1 200 200 (200 / ((2 : ℕ) : ℝ))
      (200 / ((2 : ℕ) : ℝ)) 0).px = 100 - 5e-12 := by
    norm_num [spreadPlacement, cround, c1, abs_of_pos]
  refine ⟨⟨m1, p1, ?_⟩, m2, p2, ?_⟩
  · rw [m1, p1]
    norm_num [abs_of_pos]
  · rw [m2, p2]
    norm_num [abs_of_pos]

end Centre

/-! ## Exchanging the two mixed channels of the DLP filter -/

section MixedChannels

variable {K : Type} [Field K]

end MixedChannels

section MixedChannelsClaim

variable {K : Type} [Field K]

end MixedChannelsClaim

/-! ## Gathering as the adjoint of spreading -/

section Adjoint

variable {K : Type} [LinearOrderedField K]

/-- Pairing a grid with the grid that holds the weights `W x y` at the cells `idx x y`: the
sum over the cells `0 .. N-1` is the sum over the stencil, once every index lies in
`[0, N)`. -/
theorem sum_cells_eq_sum_stencil (P N : ℕ) (idx : ℕ → ℕ → ℤ) (W : ℕ → ℕ → K) (G : Grid K)
    (hin : ∀ x y, x ≤ P → y ≤ P → 0 ≤ idx x y ∧ idx x y < (N : ℤ)) :
    ∑ i in Finset.range N,
        (∑ x in Finset.range (P + 1), ∑ y in Finset.range (P + 1),
          if idx x y = (i : ℤ) then W x y else 0) * G (i : ℤ) =
      ∑ x in Finset.range (P + 1), ∑ y in Finset.range (P + 1), W x y * G (idx x y) := by
  simp only [Finset.sum_mul]
  rw [Finset.sum_comm]
  refine Finset.sum_congr rfl (fun x hx => ?_)
  rw [Finset.sum_comm]
  refine Finset.sum_congr rfl (fun y hy => ?_)
  obtain ⟨h0, h1⟩ := hin x y (by have := Finset.mem_range.mp hx; omega)
    (by have := Finset.mem_range.mp hy; omega)
  obtain ⟨n, hn⟩ := Int.eq_ofNat_of_zero_le h0
  have hnN : n < N := by omega
  rw [Finset.sum_eq_single n]
  · rw [if_pos hn, hn]
  · intro i _ hne
    rw [if_neg (by omega), zero_mul]
  · intro hn'
    exact absurd (Finset.mem_range.mpr hnN) hn'

variable [FloorRing K]

/-- The value gathered at a single target, as a sum over the stencil at the wrapped
indices. -/
theorem gather_single_eq (exp : K → K) (e1 : Grid K) (p : ℕ → K) (G1 G2 : Grid K)
    (xi eta w L_x L_y h_x h_y : K) (P M_x M_y : ℕ) :
    gather exp e1 p 1 G1 G2 xi eta w L_x L_y h_x h_y P M_x M_y 0 =
      (4 * xi ^ 2 / eta) ^ 2 * h_x * h_y / pi *
        ∑ x in Finset.range (P + 1), ∑ y in Finset.range (P + 1),
          stencilWeight e1 (spreadPlacement exp p 0 xi eta w L_x L_y h_x h_y P).ex
            (spreadPlacement exp p 0 xi eta w L_x L_y h_x h_y P).e4y
            (spreadPlacement exp p 0 xi eta w L_x L_y h_x h_y P).e3x
            (spreadPlacement exp p 0 xi eta w L_x L_y h_x h_y P).e3y x y *
          G1 (wrapIdx M_x M_y (spreadPlacement exp p 0 xi eta w L_x L_y h_x h_y P).mx
            (spreadPlacement exp p 0 xi eta w L_x L_y h_x h_y P).my x y) ∧
    gather exp e1 p 1 G1 G2 xi eta w L_x L_y h_x h_y P M_x M_y 1 =
      (4 * xi ^ 2 / eta) ^ 2 * h_x * h_y / pi *
        ∑ x in Finset.range (P + 1), ∑ y in Finset.range (P + 1),
          stencilWeight e1 (spreadPlacement exp p 0 xi eta w L_x L_y h_x h_y P).ex
            (spreadPlacement exp p 0 xi eta w L_x L_y h_x h_y P).e4y
            (spreadPlacement exp p 0 xi eta w L_x L_y h_x h_y P).e3x
            (spreadPlacement exp p 0 xi eta w L_x L_y h_x h_y P).e3y x y *
          G2 (wrapIdx M_x M_y (spreadPlacement exp p 0 xi eta w L_x L_y h_x h_y P).mx
            (spreadPlacement exp p 0 xi eta w L_x L_y h_x h_y P).my x y) := by
  obtain ⟨g1, g2⟩ := gather_apply exp e1 p 1 G1 G2 xi eta w L_x L_y h_x h_y P M_x M_y 0
    (by decide)
  rw [gatherPlacement_eq_spreadPlacement] at g1 g2
  have hsum : ∀ G : Grid K,
      ∑ x in Finset.range (P + 1), ∑ y in Finset.range (P + 1),
        stencilWeight e1 (spreadPlacement exp p 0 xi eta w L_x L_y h_x h_y P).ex
          (spreadPlacement exp p 0 xi eta w L_x L_y h_x h_y P).e4y
          (spreadPlacement exp p 0 xi eta w L_x L_y h_x h_y P).e3x
          (spreadPlacement exp p 0 xi eta w L_x L_y h_x h_y P).e3y x y *
        G (gatherIdx P M_x M_y (spreadPlacement exp p 0 xi eta w L_x L_y h_x h_y P).mx
          (spreadPlacement exp p 0 xi eta w L_x L_y h_x h_y P).my x y) =
      ∑ x in Finset.range (P + 1), ∑ y in Finset.range (P + 1),
        stencilWeight e1 (spreadPlacement exp p 0 xi eta w L_x L_y h_x h_y P).ex
          (spreadPlacement exp p 0 xi eta w L_x L_y h_x h_y P).e4y
          (spreadPlacement exp p 0 xi eta w L_x L_y h_x h_y P).e3x
          (spreadPlacement exp p 0 xi eta w L_x L_y h_x h_y P).e3y x y *
        G (wrapIdx M_x M_y (spreadPlacement exp p 0 xi eta w L_x L_y h_x h_y P).mx
          (spreadPlacement exp p 0 xi eta w L_x L_y h_x h_y P).my x y) := by
    intro G
    refine Finset.sum_congr rfl (fun x hx => Finset.sum_congr rfl (fun y hy => ?_))
    rw [gatherIdx_eq_wrapIdx P M_x M_y _ _ x y
      (by have := Finset.mem_range.mp hx; omega) (by have := Finset.mem_range.mp hy; omega)]
  have e0 : (2 * 0 : ℕ) = 0 := rfl
  have e1' : (2 * 0 + 1 : ℕ) = 1 := rfl
  rw [e0] at g1
  rw [e1'] at g2
  constructor
  · rw [g1, gatherTarget_eq, gatherAt_eq_sum, hsum G1]
    simp only [zero_add]
    ring
  · rw [g2, gatherTarget_eq, gatherAt_eq_sum, hsum G2]
    simp only [zero_add]
    ring

/-- The grid obtained by spreading a single source with force `(1, 1)` onto zero grids
holds the stencil weights at the wrapped indices. -/
theorem spread_single_eq (exp : K → K) (e1 : Grid K) (p : ℕ → K)
    (xi eta w L_x L_y h_x h_y : K) (P M_x M_y : ℕ) (i : ℤ) :
    (spread exp e1 p (fun _ => 1) 1 xi eta w L_x L_y h_x h_y P M_x M_y).1 i =
      ∑ x in Finset.range (P + 1), ∑ y in Finset.range (P + 1),
        (if wrapIdx M_x M_y (spreadPlacement exp p 0 xi eta w L_x L_y h_x h_y P).mx
            (spreadPlacement exp p 0 xi eta w L_x L_y h_x h_y P).my x y = i then
          stencilWeight e1 (spreadPlacement exp p 0 xi eta w L_x L_y h_x h_y P).ex
            (spreadPlacement exp p 0 xi eta w L_x L_y h_x h_y P).e4y
            (spreadPlacement exp p 0 xi eta w L_x L_y h_x h_y P).e3x
            (spreadPlacement exp p 0 xi eta w L_x L_y h_x h_y P).e3y x y
        else 0) ∧
    (spread exp e1 p (fun _ => 1) 1 xi eta w L_x L_y h_x h_y P M_x M_y).2 i =
      ∑ x in Finset.range (P + 1), ∑ y in Finset.range (P + 1),
        (if wrapIdx M_x M_y (spreadPlacement exp p 0 xi eta w L_x L_y h_x h_y P).mx
            (spreadPlacement exp p 0 xi eta w L_x L_y h_x h_y P).my x y = i then
          stencilWeight e1 (spreadPlacement exp p 0 xi eta w L_x L_y h_x h_y P).ex
            (spreadPlacement exp p 0 xi eta w L_x L_y h_x h_y P).e4y
            (spreadPlacement exp p 0 xi eta w L_x L_y h_x h_y P).e3x
            (spreadPlacement exp p 0 xi eta w L_x L_y h_x h_y P).e3y x y
        else 0) := by
  obtain ⟨s1, s2⟩ := spread_eq_sum exp e1 p (fun _ => 1) 1 xi eta w L_x L_y h_x h_y P M_x M_y i
  rw [s1, s2, Finset.sum_range_one]
  constructor
  · refine Finset.sum_congr rfl (fun x hx => Finset.sum_congr rfl (fun y hy => ?_))
    rw [spreadIdx_eq_wrapIdx P M_x M_y _ _ x y (by have := Finset.mem_range.mp hy; omega),
      mul_one]
  · refine Finset.sum_congr rfl (fun x hx => Finset.sum_congr rfl (fun y hy => ?_))
    rw [spreadIdx_eq_wrapIdx P M_x M_y _ _ x y (by have := Finset.mem_range.mp hy; omega),
      mul_one]

end Adjoint

section AdjointClaim

/-- C26, the code at a point further than one period to the left of the grid: with
`M_x = M_y = 4`, `L = 4` (`h = 1`), `P = 0`, `ξ = η = 1`, unit table and the point `(-8, 0)`,
the base indices are `mx = -6`, `my = 2` and the one stencil index is
`((0+2+4)%4) + ((0-6+4)%4)·4 = 2 - 8 = -6`, outside `[0, 16)`: the spreader puts its weight
there, so the spread grid is `0` on all `16` cells, while the gatherer reads the value stored
at `-6`; with the value `1` everywhere the gathered value is `16/pi` and the claimed sum
over the grid cells is `0`. -/
theorem adjoint_fails_for_far_point :
    gather Real.exp (fun _ => 1) (fun i => if i = 0 then -8 else 0) 1 (fun _ => 1) (fun _ => 1)
        1 1 1 4 4 (4 / ((4 : ℕ) : ℝ)) (4 / ((4 : ℕ) : ℝ)) 0 4 4 0 = 16 / pi ∧
    ∑ i in Finset.range (4 * 4),
        (spread Real.exp (fun _ => 1) (fun i => if i = 0 then -8 else 0) (fun _ => 1) 1
          1 1 1 4 4 (4 / ((4 : ℕ) : ℝ)) (4 / ((4 : ℕ) : ℝ)) 0 4 4).1 (i : ℤ) * (fun _ : ℤ => (1 : ℝ)) (i : ℤ) = 0 ∧
    gather Real.exp (fun _ => 1) (fun i => if i = 0 then -8 else 0) 1 (fun _ => 1) (fun _ => 1)
        1 1 1 4 4 (4 / ((4 : ℕ) : ℝ)) (4 / ((4 : ℕ) : ℝ)) 0 4 4 0 ≠
      (4 * (1 : ℝ) ^ 2 / 1) ^ 2 * (4 / ((4 : ℕ) : ℝ)) * (4 / ((4 : ℕ) : ℝ)) / pi *
        ∑ i in Finset.range (4 * 4),
          (spread Real.exp (fun _ => 1) (fun i => if i = 0 then -8 else 0) (fun _ => 1) 1
            1 1 1 4 4 (4 / ((4 : ℕ) : ℝ)) (4 / ((4 : ℕ) : ℝ)) 0 4 4).1 (i : ℤ) * (fun _ : ℤ => (1 : ℝ)) (i : ℤ) := by
  have c : ⌈(-(13 / 2) : ℝ)⌉ = -6 := by
    rw [Int.ceil_eq_iff]
    norm_num
  have hpl : spreadPlacement Real.exp (fun i => if i = 0 then -8 else 0) 0 1 1 1 4 4
      (4 / ((4 : ℕ) : ℝ)) (4 / ((4 : ℕ) : ℝ)) 0 =
      { mx := -6, my := 2, px := 0, py := 0, ex := 1, e4y := 1, e3x := 1, e3y := 1 } := by
    norm_num [spreadPlacement, cround, c]
  have hw : wrapIdx 4 4 (-6) 2 0 0 = -6 := by decide
  have hg : gather Real.exp (fun _ => 1) (fun i => if i = 0 then -8 else 0) 1 (fun _ => 1) (fun _ => 1)
      1 1 1 4 4 (4 / ((4 : ℕ) : ℝ)) (4 / ((4 : ℕ) : ℝ)) 0 4 4 0 = 16 / pi := by
    rw [(gather_single_eq Real.exp (fun _ => 1) (fun i => if i = 0 then -8 else 0) (fun _ => 1) (fun _ => 1)
      1 1 1 4 4 (4 / ((4 : ℕ) : ℝ)) (4 / ((4 : ℕ) : ℝ)) 0 4 4).1, hpl, Finset.sum_range_one, Finset.sum_range_one, stencilWeight_eq]
    norm_num
  have hs : ∑ i in Finset.range (4 * 4),
      (spread Real.exp (fun _ => 1) (fun i => if i = 0 then -8 else 0) (fun _ => 1) 1
        1 1 1 4 4 (4 / ((4 : ℕ) : ℝ)) (4 / ((4 : ℕ) : ℝ)) 0 4 4).1 (i : ℤ) * (fun _ : ℤ => (1 : ℝ)) (i : ℤ) = 0 := by
    refine Finset.sum_eq_zero (fun i _ => ?_)
    rw [(spread_single_eq Real.exp (fun _ => 1) (fun i => if i = 0 then -8 else 0)
      1 1 1 4 4 (4 / ((4 : ℕ) : ℝ)) (4 / ((4 : ℕ) : ℝ)) 0 4 4 (i : ℤ)).1, hpl, Finset.sum_range_one, Finset.sum_range_one]
    dsimp only
    rw [hw, if_neg (by omega), zero_mul]
  refine ⟨hg, hs, ?_⟩
  rw [hg, hs, mul_zero]
  norm_num [pi]

end AdjointClaim

/-! ## Zero forces and a target outside the range of the wrap -/

section ZeroClaim

/-- C8, the code at a target further than one period to the left of the grid.  All forces
are `(0,0)`, so the spread grids are all-zero; the forward transform returns its argument
and the inverse transform returns the real part on the `16` cells of the `4 × 4` grid, so
the grids handed to the gatherer are all-zero on their `16` cells.  With `L = 4` (`h = 1`),
`P = 0`, `ξ = η = 1` and the target `(-8, 0)` the base indices are `mx = -6`, `my = 2`, the
C remainder gives the index `((0+2+4)%4) + ((0-6+4)%4)·4 = -6`, and the gatherer reads the
value stored there, outside the array: with the value `5` outside the array
`compute_velocity` returns `(4ξ²/η)²·h²/pi·5 = 80/pi` in the first component, not `0`. -/
theorem zero_forces_far_target_reads_outside_grid (e1new Ht1new Ht2new : Grid ℝ)
    (psrc : ℕ → ℝ) (Nsrc : ℕ) :
    (∀ i : ℤ, 0 ≤ i → i < 4 * 4 →
      (fun i : ℤ => if 0 ≤ i ∧ i < 16 then (Grid.zero : Grid ℝ) i else 5) i = 0) ∧
    computeVelocity Real.exp (fun g => (g, none))
        (fun p => some (fun i : ℤ => if 0 ≤ i ∧ i < 16 then p.1 i else 5))
        e1new Ht1new Ht2new psrc (fun i => if i = 0 then -8 else 0) Nsrc 1 1 1 (fun _ => 0)
        4 4 4 4 1 0 0 = 80 / pi ∧
    computeVelocity Real.exp (fun g => (g, none))
        (fun p => some (fun i : ℤ => if 0 ≤ i ∧ i < 16 then p.1 i else 5))
        e1new Ht1new Ht2new psrc (fun i => if i = 0 then -8 else 0) Nsrc 1 1 1 (fun _ => 0)
        4 4 4 4 1 0 0 ≠ 0 := by
  have c : ⌈(-(13 / 2) : ℝ)⌉ = -6 := by
    rw [Int.ceil_eq_iff]
    norm_num
  have hpl : spreadPlacement Real.exp (fun i => if i = 0 then -8 else 0) 0 1 1 1 4 4
      (4 / ((4 : ℕ) : ℝ)) (4 / ((4 : ℕ) : ℝ)) 0 =
      { mx := -6, my := 2, px := 0, py := 0, ex := 1, e4y := 1, e3x := 1, e3y := 1 } := by
    norm_num [spreadPlacement, cround, c]
  have hw : wrapIdx 4 4 (-6) 2 0 0 = -6 := by decide
  have he : e1Table Real.exp 1 1 (4 / ((4 : ℕ) : ℝ)) (4 / ((4 : ℕ) : ℝ)) 0 e1new
      ((0 : ℕ) : ℤ) = 1 := by
    rw [e1Table_apply Real.exp 1 1 _ _ 0 e1new 0 (by decide)]
    norm_num
  have hv : computeVelocity Real.exp (fun g => (g, none))
      (fun p => some (fun i : ℤ => if 0 ≤ i ∧ i < 16 then p.1 i else 5))
      e1new Ht1new Ht2new psrc (fun i => if i = 0 then -8 else 0) Nsrc 1 1 1 (fun _ => 0)
      4 4 4 4 1 0 0 = 80 / pi := by
    unfold computeVelocity
    dsimp only
    rw [spread_zero_force Real.exp _ psrc (fun _ => 0) Nsrc 1 1 1 4 4 _ _ 0 4 4
      (fun _ _ => ⟨rfl, rfl⟩)]
    dsimp only [Option.getD]
    rw [slpFilter_zero]
    dsimp only
    rw [(gather_single_eq Real.exp _ (fun i => if i = 0 then -8 else 0) _ _
      1 1 1 4 4 (4 / ((4 : ℕ) : ℝ)) (4 / ((4 : ℕ) : ℝ)) 0 4 4).1, hpl,
      Finset.sum_range_one, Finset.sum_range_one, stencilWeight_eq, he]
    dsimp only
    rw [hw, if_neg (by decide)]
    norm_num
    ring
  refine ⟨fun i h0 h1 => ?_, hv, ?_⟩
  · dsimp only
    rw [if_pos ⟨h0, by omega⟩]
    rfl
  · rw [hv]
    norm_num [pi]

end ZeroClaim

/-! ## The spreader and the gatherer with Gaussian weights -/

section GriddingClaim

/-- C10: fast Gaussian gridding equals the Gaussian.  For `h_x = h_y = h`, even `P`,
`w = P·h/2`, the table `e1` of lines 64-67 and every source with folded offsets `(px, py)`
and force `(f0, f1)`: the stencil loops of the spreader (lines 143-168), run on any grids
`H1`, `H2`, add to every cell `i` exactly
`exp(-(2ξ²/η)·((px - (x - P/2)·h)² + (py - (y - P/2)·h)²))·f0` (resp. `·f1`) for each stencil
offset `(x, y)`, `0 ≤ x, y ≤ P`, whose index is `i`; so the weight that the incrementally
updated products `ex`, `e4y`, `e3x`, `e3y`, `e1` give to the offset `(x, y)` is that
Gaussian.  The stencil loops of the gatherer (lines 368-406) use the same weights
(real arithmetic, `exp` the real exponential). -/
theorem fast_gaussian_gridding (psrc ptar : ℕ → ℝ) (k : ℕ) (xi eta w L_x L_y h : ℝ)
    (P M_x M_y : ℕ) (e1new : Grid ℝ) (f0 f1 : ℝ) (H : Grid ℝ × Grid ℝ) (Ht1 Ht2 : Grid ℝ)
    (u0 u1 : ℝ) (hP : Even P) (hw : w = (P : ℝ) * h / 2) :
    (∀ i : ℤ,
      (spreadSource (e1Table Real.exp xi eta h h P e1new)
          (spreadPlacement Real.exp psrc k xi eta w L_x L_y h h P) f0 f1 P M_x M_y H).1 i =
        H.1 i + ∑ x in Finset.range (P + 1), ∑ y in Finset.range (P + 1),
          (if spreadIdx P M_x M_y (spreadPlacement Real.exp psrc k xi eta w L_x L_y h h P).mx
              (spreadPlacement Real.exp psrc k xi eta w L_x L_y h h P).my x y = i then
            Real.exp (-(2 * xi ^ 2 / eta) *
              (((spreadPlacement Real.exp psrc k xi eta w L_x L_y h h P).px -
                  ((x : ℝ) - ((P / 2 : ℕ) : ℝ)) * h) ^ 2 +
                ((spreadPlacement Real.exp psrc k xi eta w L_x L_y h h P).py -
                  ((y : ℝ) - ((P / 2 : ℕ) : ℝ)) * h) ^ 2)) * f0
          else 0) ∧
      (spreadSource (e1Table Real.exp xi eta h h P e1new)
          (spreadPlacement Real.exp psrc k xi eta w L_x L_y h h P) f0 f1 P M_x M_y H).2 i =
        H.2 i + ∑ x in Finset.range (P + 1), ∑ y in Finset.range (P + 1),
          (if spreadIdx P M_x M_y (spreadPlacement Real.exp psrc k xi eta w L_x L_y h h P).mx
              (spreadPlacement Real.exp psrc k xi eta w L_x L_y h h P).my x y = i then
            Real.exp (-(2 * xi ^ 2 / eta) *
              (((spreadPlacement Real.exp psrc k xi eta w L_x L_y h h P).px -
                  ((x : ℝ) - ((P / 2 : ℕ) : ℝ)) * h) ^ 2 +
                ((spreadPlacement Real.exp psrc k xi eta w L_x L_y h h P).py -
                  ((y : ℝ) - ((P / 2 : ℕ) : ℝ)) * h) ^ 2)) * f1
          else 0)) ∧
    gatherTarget (e1Table Real.exp xi eta h h P e1new)
        (gatherPlacement Real.exp ptar k xi eta w L_x L_y h h P) Ht1 Ht2 xi eta h h
        P M_x M_y u0 u1 =
      ((u0 + ∑ x in Finset.range (P + 1), ∑ y in Finset.range (P + 1),
          Real.exp (-(2 * xi ^ 2 / eta) *
            (((gatherPlacement Real.exp ptar k xi eta w L_x L_y h h P).px -
                ((x : ℝ) - ((P / 2 : ℕ) : ℝ)) * h) ^ 2 +
              ((gatherPlacement Real.exp ptar k xi eta w L_x L_y h h P).py -
                ((y : ℝ) - ((P / 2 : ℕ) : ℝ)) * h) ^ 2)) *
            Ht1 (gatherIdx P M_x M_y (gatherPlacement Real.exp ptar k xi eta w L_x L_y h h P).mx
              (gatherPlacement Real.exp ptar k xi eta w L_x L_y h h P).my x y)) *
          (4 * xi * xi / eta * (4 * xi * xi / eta) * h * h / pi),
        (u1 + ∑ x in Finset.range (P + 1), ∑ y in Finset.range (P + 1),
          Real.exp (-(2 * xi ^ 2 / eta) *
            (((gatherPlacement Real.exp ptar k xi eta w L_x L_y h h P).px -
                ((x : ℝ) - ((P / 2 : ℕ) : ℝ)) * h) ^ 2 +
              ((gatherPlacement Real.exp ptar k xi eta w L_x L_y h h P).py -
                ((y : ℝ) - ((P / 2 : ℕ) : ℝ)) * h) ^ 2)) *
            Ht2 (gatherIdx P M_x M_y (gatherPlacement Real.exp ptar k xi eta w L_x L_y h h P).mx
              (gatherPlacement Real.exp ptar k xi eta w L_x L_y h h P).my x y)) *
          (4 * xi * xi / eta * (4 * xi * xi / eta) * h * h / pi)) := by
  have hwt : ∀ (p : ℕ → ℝ) (x y : ℕ), x ∈ Finset.range (P + 1) → y ∈ Finset.range (P + 1) →
      stencilWeight (e1Table Real.exp xi eta h h P e1new)
          (spreadPlacement Real.exp p k xi eta w L_x L_y h h P).ex
          (spreadPlacement Real.exp p k xi eta w L_x L_y h h P).e4y
          (spreadPlacement Real.exp p k xi eta w L_x L_y h h P).e3x
          (spreadPlacement Real.exp p k xi eta w L_x L_y h h P).e3y x y =
        Real.exp (-(2 * xi ^ 2 / eta) *
          (((spreadPlacement Real.exp p k xi eta w L_x L_y h h P).px -
              ((x : ℝ) - ((P / 2 : ℕ) : ℝ)) * h) ^ 2 +
            ((spreadPlacement Real.exp p k xi eta w L_x L_y h h P).py -
              ((y : ℝ) - ((P / 2 : ℕ) : ℝ)) * h) ^ 2)) :=
    fun p x y hx hy => stencilWeight_gaussian p k xi eta w L_x L_y h P e1new x y hP hw
      (by have := Finset.mem_range.mp hx; omega) (by have := Finset.mem_range.mp hy; omega)
  refine ⟨fun i => ?_, ?_⟩
  · obtain ⟨a1, a2⟩ := spreadSource_apply (e1Table Real.exp xi eta h h P e1new)
      (spreadPlacement Real.exp psrc k xi eta w L_x L_y h h P) f0 f1 P M_x M_y H i
    rw [a1, a2]
    constructor
    · congr 1
      refine Finset.sum_congr rfl (fun x hx => Finset.sum_congr rfl (fun y hy => ?_))
      rw [hwt psrc x y hx hy]
    · congr 1
      refine Finset.sum_congr rfl (fun x hx => Finset.sum_congr rfl (fun y hy => ?_))
      rw [hwt psrc x y hx hy]
  · rw [gatherTarget_eq, gatherAt_eq_sum, gatherPlacement_eq_spreadPlacement]
    refine Prod.ext ?_ ?_
    · simp only []
      congr 2
      refine Finset.sum_congr rfl (fun x hx => Finset.sum_congr rfl (fun y hy => ?_))
      rw [hwt ptar x y hx hy]
    · simp only []
      congr 2
      refine Finset.sum_congr rfl (fun x hx => Finset.sum_congr rfl (fun y hy => ?_))
      rw [hwt ptar x y hx hy]

/-- Witness for C10: `P = 2`, `h = 1/2`, `w = 1/2`, `L = 2`, a `4 × 4` grid, a source at
`(1/3, 1/5)` with force `(3, 5)` spread onto zero grids, cell `5` of `H1`. -/
theorem fast_gaussian_gridding_witness :
    (Even 2 ∧ (1 / 2 : ℝ) = ((2 : ℕ) : ℝ) * (1 / 2) / 2) ∧
    (spreadSource (e1Table Real.exp 1 1 (1 / 2) (1 / 2) 2 Grid.zero)
        (spreadPlacement Real.exp (fun i => if i = 0 then 1 / 3 else 1 / 5) 0 1 1 (1 / 2) 2 2
            (1 / 2) (1 / 2) 2) 3 5 2 4 4 (Grid.zero, Grid.zero)).1 5 =
      ((Grid.zero, Grid.zero) : Grid ℝ × Grid ℝ).1 5 +
        ∑ x in Finset.range (2 + 1), ∑ y in Finset.range (2 + 1),
        (if spreadIdx 2 4 4 (spreadPlacement Real.exp (fun i => if i = 0 then 1 / 3 else 1 / 5) 0 1 1 (1 / 2) 2 2
            (1 / 2) (1 / 2) 2).mx
            (spreadPlacement Real.exp (fun i => if i = 0 then 1 / 3 else 1 / 5) 0 1 1 (1 / 2) 2 2
            (1 / 2) (1 / 2) 2).my x y = 5 then
          Real.exp (-(2 * (1 : ℝ) ^ 2 / 1) *
            (((spreadPlacement Real.exp (fun i => if i = 0 then 1 / 3 else 1 / 5) 0 1 1 (1 / 2) 2 2
            (1 / 2) (1 / 2) 2).px -
                ((x : ℝ) - ((2 / 2 : ℕ) : ℝ)) * (1 / 2)) ^ 2 +
              ((spreadPlacement Real.exp (fun i => if i = 0 then 1 / 3 else 1 / 5) 0 1 1 (1 / 2) 2 2
            (1 / 2) (1 / 2) 2).py -
                ((y : ℝ) - ((2 / 2 : ℕ) : ℝ)) * (1 / 2)) ^ 2)) * 3
        else 0) :=
  ⟨⟨by decide, by norm_num⟩,
    ((fast_gaussian_gridding (fun i => if i = 0 then 1 / 3 else 1 / 5) (fun _ => 0) 0 1 1
      (1 / 2) 2 2 (1 / 2) 2 4 4 Grid.zero 3 5 (Grid.zero, Grid.zero) Grid.zero Grid.zero 0 0
      (by decide) (by norm_num)).1 5).1⟩

end GriddingClaim

/-! ## The spreader with unequal and with equal grid spacings -/

section AxisSpacingClaim

/-- For equal spacings `h_x = h_y`, even `P` and `w = P·h_x/2`, the product the stencil loops
form at offset `(x, y)` is the product of the two per-axis Gaussians. -/
theorem stencilWeight_per_axis (psrc : ℕ → ℝ) (k : ℕ) (xi eta w L_x L_y h_x h_y : ℝ)
    (P : ℕ) (e1new : Grid ℝ) (x y : ℕ) (heq : h_x = h_y) (hP : Even P)
    (hw : w = (P : ℝ) * h_x / 2) (hx : x ≤ P) (hy : y ≤ P) :
    stencilWeight (e1Table Real.exp xi eta h_x h_y P e1new)
        (spreadPlacement Real.exp psrc k xi eta w L_x L_y h_x h_y P).ex
        (spreadPlacement Real.exp psrc k xi eta w L_x L_y h_x h_y P).e4y
        (spreadPlacement Real.exp psrc k xi eta w L_x L_y h_x h_y P).e3x
        (spreadPlacement Real.exp psrc k xi eta w L_x L_y h_x h_y P).e3y x y =
      Real.exp (-(2 * xi ^ 2 / eta) *
          ((spreadPlacement Real.exp psrc k xi eta w L_x L_y h_x h_y P).px -
            ((x : ℝ) - ((P / 2 : ℕ) : ℝ)) * h_x) ^ 2) *
        Real.exp (-(2 * xi ^ 2 / eta) *
          ((spreadPlacement Real.exp psrc k xi eta w L_x L_y h_x h_y P).py -
            ((y : ℝ) - ((P / 2 : ℕ) : ℝ)) * h_y) ^ 2) := by
  subst heq
  rw [stencilWeight_gaussian psrc k xi eta w L_x L_y h_x P e1new x y hP hw hx hy,
    ← Real.exp_add]
  congr 1
  ring

/-- C19, the claim fails for unequal spacings: with `h_x = 1`, `h_y = 2`, `L_x = 4`,
`L_y = 8` (a `4 × 4` grid), `P = 2`, `w = P·h_x/2 = 1`, `ξ = η = 1` and one source at the
origin with force `(1, 1)` (`mx = my = 1`, `px = py = 0`) spread onto zero grids, the
stencil offset `(0, 1)` is the only one written to cell `6`, and the spreader leaves
`exp(-4)` there; the per-axis Gaussian of the claim is
`exp(-2·(0 - (0 - 1)·1)²)·exp(-2·(0 - (1 - 1)·2)²) = exp(-2)`. -/
theorem per_axis_spacing_fails :
    (∀ x y : ℕ, x ≤ 2 → y ≤ 2 →
      (spreadIdx 2 4 4 (spreadPlacement Real.exp (fun _ => 0) 0 1 1 1 4 8 1 2 2).mx
        (spreadPlacement Real.exp (fun _ => 0) 0 1 1 1 4 8 1 2 2).my x y = 6 ↔
          x = 0 ∧ y = 1)) ∧
    (spreadSource (e1Table Real.exp 1 1 1 2 2 Grid.zero)
        (spreadPlacement Real.exp (fun _ => 0) 0 1 1 1 4 8 1 2 2) 1 1 2 4 4
        (Grid.zero, Grid.zero)).1 6 = Real.exp (-4) ∧
    Real.exp (-(2 * (1 : ℝ) ^ 2 / 1) *
          ((spreadPlacement Real.exp (fun _ => 0) 0 1 1 1 4 8 1 2 2).px -
            (((0 : ℕ) : ℝ) - ((2 / 2 : ℕ) : ℝ)) * 1) ^ 2) *
        Real.exp (-(2 * (1 : ℝ) ^ 2 / 1) *
          ((spreadPlacement Real.exp (fun _ => 0) 0 1 1 1 4 8 1 2 2).py -
            (((1 : ℕ) : ℝ) - ((2 / 2 : ℕ) : ℝ)) * 2) ^ 2) = Real.exp (-2) ∧
    (spreadSource (e1Table Real.exp 1 1 1 2 2 Grid.zero)
        (spreadPlacement Real.exp (fun _ => 0) 0 1 1 1 4 8 1 2 2) 1 1 2 4 4
        (Grid.zero, Grid.zero)).1 6 ≠
      Real.exp (-(2 * (1 : ℝ) ^ 2 / 1) *
            ((spreadPlacement Real.exp (fun _ => 0) 0 1 1 1 4 8 1 2 2).px -
              (((0 : ℕ) : ℝ) - ((2 / 2 : ℕ) : ℝ)) * 1) ^ 2) *
          Real.exp (-(2 * (1 : ℝ) ^ 2 / 1) *
            ((spreadPlacement Real.exp (fun _ => 0) 0 1 1 1 4 8 1 2 2).py -
              (((1 : ℕ) : ℝ) - ((2 / 2 : ℕ) : ℝ)) * 2) ^ 2) * 1 := by
  have hmx : (spreadPlacement Real.exp (fun _ => 0) 0 1 1 1 4 8 1 2 2).mx = 1 := by
    norm_num [spreadPlacement, cround]
  have hmy : (spreadPlacement Real.exp (fun _ => 0) 0 1 1 1 4 8 1 2 2).my = 1 := by
    norm_num [spreadPlacement, cround]
  have hpx : (spreadPlacement Real.exp (fun _ => 0) 0 1 1 1 4 8 1 2 2).px = 0 := by
    norm_num [spreadPlacement]
  have hpy : (spreadPlacement Real.exp (fun _ => 0) 0 1 1 1 4 8 1 2 2).py = 0 := by
    norm_num [spreadPlacement]
  have hidx : ∀ x y : ℕ, x ≤ 2 → y ≤ 2 →
      (spreadIdx 2 4 4 1 1 x y = 6 ↔ x = 0 ∧ y = 1) := by
    intro x y hx hy
    interval_cases x <;> interval_cases y <;> decide
  have hA : (spreadSource (e1Table Real.exp 1 1 1 2 2 Grid.zero)
      (spreadPlacement Real.exp (fun _ => 0) 0 1 1 1 4 8 1 2 2) 1 1 2 4 4
      (Grid.zero, Grid.zero)).1 6 = Real.exp (-4) := by
    rw [(spreadSource_apply (e1Table Real.exp 1 1 1 2 2 Grid.zero)
      (spreadPlacement Real.exp (fun _ => 0) 0 1 1 1 4 8 1 2 2) 1 1 2 4 4
      (Grid.zero, Grid.zero) 6).1, hmx, hmy]
    have e00 : ¬ spreadIdx 2 4 4 1 1 0 0 = 6 := by decide
    have e01 : spreadIdx 2 4 4 1 1 0 1 = 6 := by decide
    have e02 : ¬ spreadIdx 2 4 4 1 1 0 2 = 6 := by decide
    have e10 : ¬ spreadIdx 2 4 4 1 1 1 0 = 6 := by decide
    have e11 : ¬ spreadIdx 2 4 4 1 1 1 1 = 6 := by decide
    have e12 : ¬ spreadIdx 2 4 4 1 1 1 2 = 6 := by decide
    have e20 : ¬ spreadIdx 2 4 4 1 1 2 0 = 6 := by decide
    have e21 : ¬ spreadIdx 2 4 4 1 1 2 1 = 6 := by decide
    have e22 : ¬ spreadIdx 2 4 4 1 1 2 2 = 6 := by decide
    simp only [Finset.sum_range_succ, Finset.sum_range_zero, if_neg e00, if_pos e01, if_neg e02,
      if_neg e10, if_neg e11, if_neg e12, if_neg e20, if_neg e21, if_neg e22, zero_add,
      add_zero, mul_one]
    rw [stencilWeight_exp (fun _ => 0) 0 1 1 1 4 8 1 2 2 Grid.zero 0 1 (by decide) (by decide),
      hpx, hpy]
    have z : (Grid.zero : Grid ℝ) 6 = 0 := rfl
    rw [z, zero_add]
    congr 1
    norm_num
  have hB : Real.exp (-(2 * (1 : ℝ) ^ 2 / 1) *
        ((spreadPlacement Real.exp (fun _ => 0) 0 1 1 1 4 8 1 2 2).px -
          (((0 : ℕ) : ℝ) - ((2 / 2 : ℕ) : ℝ)) * 1) ^ 2) *
      Real.exp (-(2 * (1 : ℝ) ^ 2 / 1) *
        ((spreadPlacement Real.exp (fun _ => 0) 0 1 1 1 4 8 1 2 2).py -
          (((1 : ℕ) : ℝ) - ((2 / 2 : ℕ) : ℝ)) * 2) ^ 2) = Real.exp (-2) := by
    rw [hpx, hpy, ← Real.exp_add]
    congr 1
    norm_num
  refine ⟨?_, hA, hB, ?_⟩
  · rw [hmx, hmy]
    exact hidx
  · rw [hA, hB, mul_one]
    intro h
    have := Real.exp_injective h
    norm_num at this

/-- C19, amended: per-axis spacing for equal spacings.  For `h_x = L_x/M_x = h_y = L_y/M_y`,
even `P` and `w = P·h_x/2`, the spreading stage of `compute_velocity` (table of lines 64-67,
loops of lines 79-169) leaves in every cell `i` of `H1` (resp. `H2`) the sum, over the
sources `k` and the stencil offsets `(x, y)`, `0 ≤ x, y ≤ P`, whose index is `i`, of
`exp(-(2ξ²/η)·(px - (x - P/2)·h_x)²)·exp(-(2ξ²/η)·(py - (y - P/2)·h_y)²)` times the force
component: the weight the spreader gives to the offset `(x, y)` is the product of the two
per-axis Gaussians. -/
theorem per_axis_spacing_weight (psrc f : ℕ → ℝ) (Nsrc : ℕ) (xi eta w L_x L_y : ℝ)
    (P M_x M_y : ℕ) (e1new : Grid ℝ) (heq : (L_x / (M_x : ℝ)) = (L_y / (M_y : ℝ))) (hP : Even P)
    (hw : w = (P : ℝ) * (L_x / (M_x : ℝ)) / 2) (i : ℤ) :
    (spread Real.exp (e1Table Real.exp xi eta (L_x / (M_x : ℝ)) (L_y / (M_y : ℝ)) P e1new) psrc f
          Nsrc xi eta w L_x L_y (L_x / (M_x : ℝ)) (L_y / (M_y : ℝ)) P M_x M_y).1 i =
        ∑ k in Finset.range Nsrc, ∑ x in Finset.range (P + 1), ∑ y in Finset.range (P + 1),
          (if spreadIdx P M_x M_y
              (spreadPlacement Real.exp psrc k xi eta w L_x L_y (L_x / (M_x : ℝ))
                (L_y / (M_y : ℝ)) P).mx
              (spreadPlacement Real.exp psrc k xi eta w L_x L_y (L_x / (M_x : ℝ))
                (L_y / (M_y : ℝ)) P).my x y = i then
            Real.exp (-(2 * xi ^ 2 / eta) *
                ((spreadPlacement Real.exp psrc k xi eta w L_x L_y (L_x / (M_x : ℝ))
                (L_y / (M_y : ℝ)) P).px -
                  ((x : ℝ) - ((P / 2 : ℕ) : ℝ)) * (L_x / (M_x : ℝ))) ^ 2) *
              Real.exp (-(2 * xi ^ 2 / eta) *
                ((spreadPlacement Real.exp psrc k xi eta w L_x L_y (L_x / (M_x : ℝ))
                (L_y / (M_y : ℝ)) P).py -
                  ((y : ℝ) - ((P / 2 : ℕ) : ℝ)) * (L_y / (M_y : ℝ))) ^ 2) * f (2 * k)
          else 0) ∧
    (spread Real.exp (e1Table Real.exp xi eta (L_x / (M_x : ℝ)) (L_y / (M_y : ℝ)) P e1new) psrc f
          Nsrc xi eta w L_x L_y (L_x / (M_x : ℝ)) (L_y / (M_y : ℝ)) P M_x M_y).2 i =
        ∑ k in Finset.range Nsrc, ∑ x in Finset.range (P + 1), ∑ y in Finset.range (P + 1),
          (if spreadIdx P M_x M_y
              (spreadPlacement Real.exp psrc k xi eta w L_x L_y (L_x / (M_x : ℝ))
                (L_y / (M_y : ℝ)) P).mx
              (spreadPlacement Real.exp psrc k xi eta w L_x L_y (L_x / (M_x : ℝ))
                (L_y / (M_y : ℝ)) P).my x y = i then
            Real.exp (-(2 * xi ^ 2 / eta) *
                ((spreadPlacement Real.exp psrc k xi eta w L_x L_y (L_x / (M_x : ℝ))
                (L_y / (M_y : ℝ)) P).px -
                  ((x : ℝ) - ((P / 2 : ℕ) : ℝ)) * (L_x / (M_x : ℝ))) ^ 2) *
              Real.exp (-(2 * xi ^ 2 / eta) *
                ((spreadPlacement Real.exp psrc k xi eta w L_x L_y (L_x / (M_x : ℝ))
                (L_y / (M_y : ℝ)) P).py -
                  ((y : ℝ) - ((P / 2 : ℕ) : ℝ)) * (L_y / (M_y : ℝ))) ^ 2) * f (2 * k + 1)
          else 0) := by
  obtain ⟨s1, s2⟩ := spread_eq_sum Real.exp
    (e1Table Real.exp xi eta (L_x / (M_x : ℝ)) (L_y / (M_y : ℝ)) P e1new) psrc f Nsrc xi eta w L_x L_y
    (L_x / (M_x : ℝ)) (L_y / (M_y : ℝ)) P M_x M_y i
  rw [s1, s2]
  constructor
  · refine Finset.sum_congr rfl (fun k _ => Finset.sum_congr rfl (fun x hx =>
      Finset.sum_congr rfl (fun y hy => ?_)))
    rw [stencilWeight_per_axis psrc k xi eta w L_x L_y (L_x / (M_x : ℝ)) (L_y / (M_y : ℝ)) P e1new x y heq hP hw
      (by have := Finset.mem_range.mp hx; omega) (by have := Finset.mem_range.mp hy; omega)]
  · refine Finset.sum_congr rfl (fun k _ => Finset.sum_congr rfl (fun x hx =>
      Finset.sum_congr rfl (fun y hy => ?_)))
    rw [stencilWeight_per_axis psrc k xi eta w L_x L_y (L_x / (M_x : ℝ)) (L_y / (M_y : ℝ)) P e1new x y heq hP hw
      (by have := Finset.mem_range.mp hx; omega) (by have := Finset.mem_range.mp hy; omega)]

/-- Witness for C19: `L_x = L_y = 2` on a `4 × 4` grid (`h_x = h_y = 1/2`), `P = 2`,
`w = 1/2`, one source at `(1/3, 1/5)` with force `(3, 5)`, cell `5` of `H1`. -/
theorem per_axis_spacing_weight_witness :
    ((2 / ((4 : ℕ) : ℝ)) = (2 / ((4 : ℕ) : ℝ)) ∧ Even 2 ∧
      (1 / 2 : ℝ) = ((2 : ℕ) : ℝ) * (2 / ((4 : ℕ) : ℝ)) / 2) ∧
    (spread Real.exp (e1Table Real.exp 1 1 (2 / ((4 : ℕ) : ℝ)) (2 / ((4 : ℕ) : ℝ)) 2 Grid.zero)
          (fun i => if i = 0 then 1 / 3 else 1 / 5) (fun i => if i = 0 then 3 else 5) 1 1 1 (1 / 2) 2 2
          (2 / ((4 : ℕ) : ℝ)) (2 / ((4 : ℕ) : ℝ)) 2 4 4).1 5 =
        ∑ k in Finset.range 1, ∑ x in Finset.range (2 + 1), ∑ y in Finset.range (2 + 1),
          (if spreadIdx 2 4 4
              (spreadPlacement Real.exp (fun i => if i = 0 then 1 / 3 else 1 / 5) k 1 1 (1 / 2) 2 2
                (2 / ((4 : ℕ) : ℝ)) (2 / ((4 : ℕ) : ℝ)) 2).mx
              (spreadPlacement Real.exp (fun i => if i = 0 then 1 / 3 else 1 / 5) k 1 1 (1 / 2) 2 2
                (2 / ((4 : ℕ) : ℝ)) (2 / ((4 : ℕ) : ℝ)) 2).my x y = 5 then
            Real.exp (-(2 * (1 : ℝ) ^ 2 / 1) *
                ((spreadPlacement Real.exp (fun i => if i = 0 then 1 / 3 else 1 / 5) k 1 1 (1 / 2) 2 2
                (2 / ((4 : ℕ) : ℝ)) (2 / ((4 : ℕ) : ℝ)) 2).px -
                  ((x : ℝ) - ((2 / 2 : ℕ) : ℝ)) * (2 / ((4 : ℕ) : ℝ))) ^ 2) *
              Real.exp (-(2 * (1 : ℝ) ^ 2 / 1) *
                ((spreadPlacement Real.exp (fun i => if i = 0 then 1 / 3 else 1 / 5) k 1 1 (1 / 2) 2 2
                (2 / ((4 : ℕ) : ℝ)) (2 / ((4 : ℕ) : ℝ)) 2).py -
                  ((y : ℝ) - ((2 / 2 : ℕ) : ℝ)) * (2 / ((4 : ℕ) : ℝ))) ^ 2) * (fun i => if i = 0 then 3 else 5) (2 * k)
          else 0) :=
  ⟨⟨rfl, by decide, by norm_num⟩,
    (per_axis_spacing_weight (fun i => if i = 0 then 1 / 3 else 1 / 5) (fun i => if i = 0 then 3 else 5) 1 1 1 (1 / 2) 2 2 2 4 4 Grid.zero rfl (by decide)
      (by norm_num) 5).1⟩

end AxisSpacingClaim

end PeriodicEwald
